import Mathlib

/-!
# CompressibleTpfa: a shallow embedding of the Newton pressure solver

Source: `opm/core/pressure/CompressibleTpfa.cpp` and `CompressibleTpfa.hpp`.

Conventions of the embedding.

* A `double` is an exact rational number (`ℚ`); rounding is not modelled.
* A `std::vector<double>` or a C array is a `List ℚ`.  Every indexed read and
  write is bounds-checked: an access outside the vector is undefined behaviour
  in C++ and is the fault `Fault.outOfBounds` here.
* Index arithmetic on `int` is done in `Int`, so that a negative index is a
  fault and not silently truncated.  Counts (cells, faces, phases, wells) are
  natural numbers.
* A nullable pointer is an `Option`; dereferencing `none` is
  `Fault.nullPointer`.
* Member functions of the solver take the data that is fixed after
  construction (`TpfaFixed`) and transform the mutable members (`TpfaData`).
* Collaborators whose code is not part of these sources (property evaluator,
  linear solver, the `cfs_tpfa_res` assembly kernel, transmissibility and
  pore-volume routines) are parameters.
-/

namespace Opm

/-- Ways in which a run of the translated code can go wrong. -/
inductive Fault where
  | outOfBounds
  | nullPointer
  | thrown
deriving DecidableEq, Repr

instance instDecidableEqExcept {ε α : Type} [DecidableEq ε] [DecidableEq α] :
    DecidableEq (Except ε α)
  | .ok a, .ok b =>
      if h : a = b then isTrue (congrArg Except.ok h)
      else isFalse (fun h' => h (Except.ok.inj h'))
  | .error a, .error b =>
      if h : a = b then isTrue (congrArg Except.error h)
      else isFalse (fun h' => h (Except.error.inj h'))
  | .ok _, .error _ => isFalse (fun h => Except.noConfusion h)
  | .error _, .ok _ => isFalse (fun h => Except.noConfusion h)

/-! ## Vectors -/

/-- Checked read `v[i]`. -/
def readAt {α : Type} (v : List α) (i : Int) : Except Fault α :=
  if i < 0 then .error .outOfBounds
  else
    match v[i.toNat]? with
    | some x => .ok x
    | none => .error .outOfBounds

/-- Checked write `v[i] = x`. -/
def writeAt {α : Type} (v : List α) (i : Int) (x : α) : Except Fault (List α) :=
  if i < 0 then .error .outOfBounds
  else if i.toNat < v.length then .ok (v.set i.toNat x)
  else .error .outOfBounds

/-- The `len` entries starting at `&v[start]`, as read through a pointer by a callee. -/
def slice (v : List ℚ) (start : Int) (len : Nat) : Except Fault (List ℚ) :=
  if start < 0 then .error .outOfBounds
  else if start.toNat + len ≤ v.length then .ok ((v.drop start.toNat).take len)
  else .error .outOfBounds

/-- The `std::vector::resize(n)`: keeps the leading entries, value-initialises new ones. -/
def resize (v : List ℚ) (n : Nat) : List ℚ :=
  v.take n ++ List.replicate (n - v.length) 0

/-- The `std::copy(src.begin() + first, src.begin() + last, dst.begin())`. -/
def stdCopy (src : List ℚ) (first last : Nat) (dst : List ℚ) : Except Fault (List ℚ) :=
  if first ≤ last ∧ last ≤ src.length ∧ last - first ≤ dst.length then
    .ok ((src.drop first).take (last - first) ++ dst.drop (last - first))
  else .error .outOfBounds

/-- The `operator<` of `std::vector<double>`: lexicographical comparison. -/
def lexLess : List ℚ → List ℚ → Bool
  | [], [] => false
  | [], _ :: _ => true
  | _ :: _, [] => false
  | a :: as, b :: bs =>
      if a < b then true else if b < a then false else lexLess as bs

/-- The loop `for (int i = lo; i < lo + n; ++i) body(i)`, stopping at the first fault. -/
def forLoop {σ : Type} (body : Nat → σ → Except Fault σ) : Nat → Nat → σ → Except Fault σ
  | 0, _, s => .ok s
  | n + 1, lo, s =>
      match body lo s with
      | .ok s' => forLoop body n (lo + 1) s'
      | .error e => .error e

/-- The loop `for (int i = lo; i < hi; ++i) body(i)`. -/
def forRange {σ : Type} (lo hi : Nat) (body : Nat → σ → Except Fault σ) (s : σ) :
    Except Fault σ :=
  forLoop body (hi - lo) lo s

/-! ## Collaborator data -/

/-- The fields of `UnstructuredGrid` that the solver reads. -/
structure UnstructuredGrid where
  dimensions : Nat
  number_of_cells : Nat
  number_of_faces : Nat
  face_cells : List Int
  face_centroids : List ℚ
  cell_centroids : List ℚ
  cell_facepos : List Nat

/-- Well type tags of `newwells.h`. -/
inductive WellType where
  | INJECTOR
  | PRODUCER
deriving DecidableEq, Repr

/-- The fields of `struct Wells` that the solver reads. -/
structure Wells where
  number_of_wells : Nat
  number_of_phases : Nat
  type : List WellType
  depth_ref : List ℚ
  well_connpos : List Nat
  well_cells : List Int

/-- The parts of `BlackoilState` that the solver touches. -/
structure BlackoilState where
  pressure : List ℚ
  facepressure : List ℚ
  surfacevol : List ℚ
  saturation : List ℚ
deriving DecidableEq, Repr

/-- The part of `WellState` that the solver touches. -/
structure WellState where
  bhp : List ℚ
deriving DecidableEq, Repr

/-- Modelled from the spec: `BlackoilPropertiesInterface`, the property evaluator, whose
declaration is not part of these sources.  Each query is given per cell: `matrix p z cell k`
is entry `k` (column-major, `k < np*np`) of the matrix `A` of a cell with pressure `p` and
surface volumes `z`, `dmatrix` its pressure derivative, `viscosity p z cell phase` and
`relperm s cell phase` the phase viscosity and relative permeability, and `density A phase`
the phase density computed from a matrix `A`.  A batch call over `n` cells evaluates the
cells one by one. -/
structure BlackoilPropertiesInterface where
  numPhases : Nat
  matrix : ℚ → List ℚ → Int → Nat → ℚ
  dmatrix : ℚ → List ℚ → Int → Nat → ℚ
  viscosity : ℚ → List ℚ → Int → Nat → ℚ
  relperm : List ℚ → Int → Nat → ℚ
  density : List ℚ → Nat → ℚ
  permeability : List ℚ
  porosity : List ℚ

/-- Modelled from the spec: the contents of `cfs_tpfa_res_data` that the solver uses, the
Jacobian `J` (dense rows here) and the residual `F`. -/
structure ResData where
  J : List (List ℚ)
  F : List ℚ
deriving DecidableEq, Repr

/-- Everything `CompressibleTpfa::assemble` hands to `cfs_tpfa_res_assemble`. -/
structure AssembleArgs where
  dt : ℚ
  gpot : List ℚ
  wellA : List ℚ
  wellphasemob : List ℚ
  z : List ℚ
  Ac : List ℚ
  dAc : List ℚ
  Af : List ℚ
  phasemobf : List ℚ
  voldiscr : List ℚ
  trans : List ℚ
  gravcap : List ℚ
  cell_press : List ℚ
  well_bhp : Option (List ℚ)
  porevol : List ℚ

/-- Modelled from the spec: the numerical kernels called by the solver whose code is not part
of these sources. -/
structure Kernels where
  tpfa_htrans_compute : UnstructuredGrid → List ℚ → Nat → List ℚ
  tpfa_trans_compute : UnstructuredGrid → List ℚ → Nat → List ℚ
  computePorevolume : UnstructuredGrid → List ℚ → Nat → List ℚ
  cfs_tpfa_res_construct : UnstructuredGrid → Option Wells → Nat → ResData
  cfs_tpfa_res_assemble : UnstructuredGrid → Option Wells → AssembleArgs → ResData → ResData
  linsolve : List (List ℚ) → List ℚ → List ℚ

/-! ## The solver object -/

/-- Members of `CompressibleTpfa` that remain unmodified after construction. -/
structure TpfaFixed where
  grid_ : UnstructuredGrid
  props_ : BlackoilPropertiesInterface
  kernels_ : Kernels
  residual_tol_ : ℚ
  change_tol_ : ℚ
  maxiter_ : Int
  gravity_ : Option (List ℚ)
  wells_ : Option Wells
  htrans_ : List ℚ
  trans_ : List ℚ
  porevol_ : List ℚ
  allcells_ : List Int

/-- Members of `CompressibleTpfa` that are modified by `solve`. -/
structure TpfaData where
  h_ : ResData
  wellperf_gpot_ : List ℚ
  cell_A_ : List ℚ
  cell_dA_ : List ℚ
  cell_viscosity_ : List ℚ
  cell_phasemob_ : List ℚ
  cell_voldisc_ : List ℚ
  face_A_ : List ℚ
  face_phasemob_ : List ℚ
  face_gravcap_ : List ℚ
  wellperf_A_ : List ℚ
  wellperf_phasemob_ : List ℚ
  pressure_increment_ : List ℚ
deriving DecidableEq, Repr

/-- Locals of one solver run: the mutable members together with the caller's state. -/
structure Run where
  data : TpfaData
  state : BlackoilState
  well_state : WellState
deriving DecidableEq, Repr

/-- The constructor `CompressibleTpfa::CompressibleTpfa`. -/
def construct (grid : UnstructuredGrid) (props : BlackoilPropertiesInterface)
    (kernels : Kernels) (residual_tol change_tol : ℚ) (maxiter : Int)
    (gravity : Option (List ℚ)) (wells : Option Wells) :
    Except Fault (TpfaFixed × TpfaData) := do
  let nfacepos ← readAt grid.cell_facepos grid.number_of_cells
  let mismatch : Bool :=
    match wells with
    | some w => decide (w.number_of_phases ≠ props.numPhases)
    | none => false
  if mismatch then
    .error .thrown
  else
    let num_dofs := grid.number_of_cells +
      (match wells with
       | some w => w.number_of_wells
       | none => 0)
    let htrans := kernels.tpfa_htrans_compute grid props.permeability nfacepos
    let trans := kernels.tpfa_trans_compute grid htrans grid.number_of_faces
    let porevol := kernels.computePorevolume grid props.porosity grid.number_of_cells
    let allcells := (List.range grid.number_of_cells).map (fun c => (c : Int))
    let h := kernels.cfs_tpfa_res_construct grid wells props.numPhases
    .ok ({ grid_ := grid, props_ := props, kernels_ := kernels,
           residual_tol_ := residual_tol, change_tol_ := change_tol, maxiter_ := maxiter,
           gravity_ := gravity, wells_ := wells, htrans_ := htrans, trans_ := trans,
           porevol_ := porevol, allcells_ := allcells },
         { h_ := h, wellperf_gpot_ := [], cell_A_ := [], cell_dA_ := [],
           cell_viscosity_ := [], cell_phasemob_ := [], cell_voldisc_ := [],
           face_A_ := [], face_phasemob_ := [], face_gravcap_ := [],
           wellperf_A_ := [], wellperf_phasemob_ := [],
           pressure_increment_ := resize [] num_dofs })

/-- The expression `gravity_ ? gravity_[dim - 1] : 0.0`. -/
def gravComponent (K : TpfaFixed) : Except Fault ℚ :=
  match K.gravity_ with
  | some g => readAt g ((K.grid_.dimensions : Int) - 1)
  | none => .ok 0

/-- The innermost loop of `computeWellPotentials`: the potentials of perforation `j`. -/
def wellPotentialsPerf (np : Nat) (j : Nat) (rho : List ℚ) (grav cell_depth ref_depth : ℚ)
    (d : TpfaData) : Except Fault TpfaData :=
  forRange 0 np (fun phase d => do
    let r ← readAt rho phase
    let g ← writeAt d.wellperf_gpot_ ((np : Int) * j + phase) (r * grav * (cell_depth - ref_depth))
    pure { d with wellperf_gpot_ := g }) d

/-- The member function `CompressibleTpfa::computeWellPotentials`. -/
def computeWellPotentials (K : TpfaFixed) (state : BlackoilState) (d : TpfaData) :
    Except Fault TpfaData :=
  match K.wells_ with
  | none => .ok d
  | some wells => do
    let nw := wells.number_of_wells
    let np := K.props_.numPhases
    let nperf ← readAt wells.well_connpos nw
    let dim : Int := K.grid_.dimensions
    let grav ← gravComponent K
    if grav = 0 then
      pure { d with wellperf_gpot_ := resize [] (np * nperf) }
    else
      forRange 0 nw (fun w d => do
        let ref_depth ← readAt wells.depth_ref w
        let lo ← readAt wells.well_connpos w
        let hi ← readAt wells.well_connpos ((w : Int) + 1)
        forRange lo hi (fun j d => do
          let cell ← readAt wells.well_cells j
          let cell_depth ← readAt K.grid_.cell_centroids (dim * cell + dim - 1)
          let p ← readAt state.pressure cell
          let z ← slice state.surfacevol ((np : Int) * cell) np
          let A := (List.range (np * np)).map (K.props_.matrix p z cell)
          let rho := (List.range np).map (K.props_.density A)
          wellPotentialsPerf np j rho grav cell_depth ref_depth d) d) d

/-- The member function `CompressibleTpfa::computePerSolveDynamicData`. -/
def computePerSolveDynamicData (K : TpfaFixed) (_dt : ℚ) (state : BlackoilState)
    (_well_state : WellState) (d : TpfaData) : Except Fault TpfaData :=
  computeWellPotentials K state d

/-- A batch query of the property evaluator over the cells `allcells_[0 .. nc)`: `per` values
for each cell, written one cell after the other. -/
def batchQuery (K : TpfaFixed) (nc per : Nat) (q : Nat → Int → Except Fault (Nat → ℚ)) :
    Except Fault (List ℚ) :=
  forRange 0 nc (fun i out => do
    let cell ← readAt K.allcells_ i
    let f ← q i cell
    pure (out ++ (List.range per).map f)) []

/-- The member function `CompressibleTpfa::computeCellDynamicData`. -/
def computeCellDynamicData (K : TpfaFixed) (_dt : ℚ) (state : BlackoilState)
    (_well_state : WellState) (d : TpfaData) : Except Fault TpfaData := do
  let nc := K.grid_.number_of_cells
  let np := K.props_.numPhases
  let cell_A ← batchQuery K nc (np * np) (fun i cell => do
    let p ← readAt state.pressure i
    let z ← slice state.surfacevol ((np : Int) * i) np
    pure (K.props_.matrix p z cell))
  let cell_dA ← batchQuery K nc (np * np) (fun i cell => do
    let p ← readAt state.pressure i
    let z ← slice state.surfacevol ((np : Int) * i) np
    pure (K.props_.dmatrix p z cell))
  let cell_viscosity ← batchQuery K nc np (fun i cell => do
    let p ← readAt state.pressure i
    let z ← slice state.surfacevol ((np : Int) * i) np
    pure (K.props_.viscosity p z cell))
  let relperm ← batchQuery K nc np (fun i cell => do
    let s ← slice state.saturation ((np : Int) * i) np
    pure (K.props_.relperm s cell))
  let cell_phasemob := List.zipWith (fun kr mu => kr / mu) relperm cell_viscosity
  pure { d with cell_A_ := cell_A, cell_dA_ := cell_dA, cell_viscosity_ := cell_viscosity,
                cell_phasemob_ := cell_phasemob, cell_voldisc_ := resize [] nc }

/-- One side `j` of a face in `computeFaceDynamicData`: the pressure `c_press[j]` and the
gravity contribution `gravcontrib[j]` (all `np` phases) of the neighbour `cj`. -/
def faceSide (K : TpfaFixed) (state : BlackoilState) (d : TpfaData) (grav : ℚ)
    (face : Nat) (face_depth : ℚ) (cj : Int) : Except Fault (ℚ × List ℚ) :=
  let np := K.props_.numPhases
  let dim : Int := K.grid_.dimensions
  if cj ≥ 0 then do
    let press ← readAt state.pressure cj
    if grav ≠ 0 then do
      let cz ← readAt K.grid_.cell_centroids (cj * dim + dim - 1)
      let depth_diff := face_depth - cz
      let A ← slice d.cell_A_ ((np : Int) * np * cj) (np * np)
      let rho := (List.range np).map (K.props_.density A)
      pure (press, rho.map (fun r => r * depth_diff))
    else
      pure (press, List.replicate np 0)
  else do
    let press ← readAt state.facepressure face
    pure (press, List.replicate np 0)

/-- Locals of the first phase loop of a face: the member `face_gravcap_` and the two
potential vectors `pot[0]`, `pot[1]`. -/
structure PotLocals where
  face_gravcap_ : List ℚ
  pot0 : List ℚ
  pot1 : List ℚ
deriving DecidableEq, Repr

/-- The body of the first phase loop of a face, for one phase. -/
def facePotentialsPhase (np face : Nat) (c_press0 c_press1 : ℚ)
    (gravcontrib0 gravcontrib1 : List ℚ) (phase : Nat) (l : PotLocals) :
    Except Fault PotLocals := do
  let g0 ← readAt gravcontrib0 phase
  let g1 ← readAt gravcontrib1 phase
  let gc ← writeAt l.face_gravcap_ ((np : Int) * face + phase) (g0 - g1)
  let v ← readAt gc ((np : Int) * face + phase)
  let p0 ← writeAt l.pot0 phase (c_press0 + v)
  let p1 ← writeAt l.pot1 phase c_press1
  pure { face_gravcap_ := gc, pot0 := p0, pot1 := p1 }

/-- The first phase loop of a face: gravity term and potentials. -/
def facePotentials (np face : Nat) (c_press0 c_press1 : ℚ) (gravcontrib0 gravcontrib1 : List ℚ)
    (l : PotLocals) : Except Fault PotLocals :=
  forRange 0 np (facePotentialsPhase np face c_press0 c_press1 gravcontrib0 gravcontrib1) l

/-- The upwind cell chosen in the second phase loop of a face. -/
def upwindCell (c0 c1 : Int) (pot0 pot1 : List ℚ) : Int :=
  if c0 ≥ 0 ∧ c1 ≥ 0 then
    (if lexLess pot0 pot1 then c1 else c0)
  else
    (if c0 ≥ 0 then c0 else c1)

/-- The column loop of the second phase loop: row `phase` of the upwind cell's matrix. -/
def faceUpwindColumns (np face phase : Nat) (upwindc : Int) (d : TpfaData) :
    Except Fault TpfaData :=
  forRange 0 np (fun p2 d => do
    let a ← readAt d.cell_A_ ((np : Int) * np * upwindc + phase + (np : Int) * p2)
    let fa ← writeAt d.face_A_ ((np : Int) * np * face + phase + (np : Int) * p2) a
    pure { d with face_A_ := fa }) d

/-- The body of the second phase loop of a face, for one phase. -/
def faceUpwindPhase (np face : Nat) (c0 c1 : Int) (pot0 pot1 : List ℚ) (phase : Nat)
    (d : TpfaData) : Except Fault TpfaData := do
  let upwindc := upwindCell c0 c1 pot0 pot1
  let m ← readAt d.cell_phasemob_ ((np : Int) * upwindc + phase)
  let fm ← writeAt d.face_phasemob_ ((np : Int) * face + phase) m
  faceUpwindColumns np face phase upwindc { d with face_phasemob_ := fm }

/-- The second phase loop of a face: upwind mobilities and rows of `A`. -/
def faceUpwind (np face : Nat) (c0 c1 : Int) (pot0 pot1 : List ℚ) (d : TpfaData) :
    Except Fault TpfaData :=
  forRange 0 np (faceUpwindPhase np face c0 c1 pot0 pot1) d

/-- The body of the face loop of `computeFaceDynamicData`.  The temporaries `gravcontrib[2]`
and `pot[2]`, declared before the loop with `np` entries each, are overwritten in full for
every face before they are read, so each face starts from fresh ones. -/
def faceBody (K : TpfaFixed) (state : BlackoilState) (grav : ℚ) (face : Nat) (d : TpfaData) :
    Except Fault TpfaData := do
  let np := K.props_.numPhases
  let dim : Int := K.grid_.dimensions
  let face_depth ← readAt K.grid_.face_centroids ((face : Int) * dim + dim - 1)
  let c0 ← readAt K.grid_.face_cells (2 * (face : Int))
  let c1 ← readAt K.grid_.face_cells (2 * (face : Int) + 1)
  let s0 ← faceSide K state d grav face face_depth c0
  let s1 ← faceSide K state d grav face face_depth c1
  let l ← facePotentials np face s0.1 s1.1 s0.2 s1.2
    { face_gravcap_ := d.face_gravcap_, pot0 := resize [] np, pot1 := resize [] np }
  faceUpwind np face c0 c1 l.pot0 l.pot1 { d with face_gravcap_ := l.face_gravcap_ }

/-- The member function `CompressibleTpfa::computeFaceDynamicData`. -/
def computeFaceDynamicData (K : TpfaFixed) (_dt : ℚ) (state : BlackoilState)
    (_well_state : WellState) (d : TpfaData) : Except Fault TpfaData := do
  let np := K.props_.numPhases
  let nf := K.grid_.number_of_faces
  let grav ← gravComponent K
  forRange 0 nf (faceBody K state grav)
    { d with face_A_ := resize d.face_A_ (nf * np * np),
             face_phasemob_ := resize d.face_phasemob_ (nf * np),
             face_gravcap_ := resize d.face_gravcap_ (nf * np) }

/-- The perforation loop body of `computeWellDynamicData`. -/
def wellPerfBody (np : Nat) (wells : Wells) (is_injector : Bool) (j : Nat) (d : TpfaData) :
    Except Fault TpfaData := do
  let c ← readAt wells.well_cells j
  let cA ← slice d.cell_A_ ((np : Int) * np * c) (np * np)
  let wpA ← forRange 0 (np * np) (fun k out => do
    let a ← readAt cA k
    writeAt out ((np : Int) * np * j + k) a) d.wellperf_A_
  let cM ← slice d.cell_phasemob_ ((np : Int) * c) np
  let wpM ←
    if is_injector then do
      let totmob ← forRange 0 np (fun phase tot => do
        let m ← readAt cM phase
        pure (tot + m)) (0 : ℚ)
      forRange 0 np (fun phase out => writeAt out ((np : Int) * j + phase) totmob)
        d.wellperf_phasemob_
    else
      forRange 0 np (fun phase out => do
        let m ← readAt cM phase
        writeAt out ((np : Int) * j + phase) m) d.wellperf_phasemob_
  pure { d with wellperf_A_ := wpA, wellperf_phasemob_ := wpM }

/-- The member function `CompressibleTpfa::computeWellDynamicData`. -/
def computeWellDynamicData (K : TpfaFixed) (_dt : ℚ) (_state : BlackoilState)
    (_well_state : WellState) (d : TpfaData) : Except Fault TpfaData := do
  let np := K.props_.numPhases
  let wells ←
    match K.wells_ with
    | some w => pure w
    | none => .error .nullPointer
  let nw := wells.number_of_wells
  let nperf ← readAt wells.well_connpos nw
  forRange 0 nw (fun w d => do
    let t ← readAt wells.type w
    let is_injector := decide (t = WellType.INJECTOR)
    let lo ← readAt wells.well_connpos w
    let hi ← readAt wells.well_connpos ((w : Int) + 1)
    forRange lo hi (wellPerfBody np wells is_injector) d)
    { d with wellperf_A_ := resize d.wellperf_A_ (nperf * np * np),
             wellperf_phasemob_ := resize d.wellperf_phasemob_ (nperf * np) }

/-- The member function `CompressibleTpfa::computePerIterationDynamicData`. -/
def computePerIterationDynamicData (K : TpfaFixed) (dt : ℚ) (state : BlackoilState)
    (well_state : WellState) (d : TpfaData) : Except Fault TpfaData := do
  let d ← computeCellDynamicData K dt state well_state d
  let d ← computeFaceDynamicData K dt state well_state d
  computeWellDynamicData K dt state well_state d

/-- The member function `CompressibleTpfa::assemble`. -/
def assemble (K : TpfaFixed) (dt : ℚ) (state : BlackoilState) (well_state : WellState)
    (d : TpfaData) : TpfaData :=
  let well_bhp := if well_state.bhp.isEmpty then none else some well_state.bhp
  let args : AssembleArgs :=
    { dt := dt, gpot := d.wellperf_gpot_, wellA := d.wellperf_A_,
      wellphasemob := d.wellperf_phasemob_, z := state.surfacevol,
      Ac := d.cell_A_, dAc := d.cell_dA_, Af := d.face_A_, phasemobf := d.face_phasemob_,
      voldiscr := d.cell_voldisc_, trans := K.trans_, gravcap := d.face_gravcap_,
      cell_press := state.pressure, well_bhp := well_bhp, porevol := K.porevol_ }
  { d with h_ := K.kernels_.cfs_tpfa_res_assemble K.grid_ K.wells_ args d.h_ }

/-- The member function `CompressibleTpfa::solveIncrement`: the linear solver writes its
solution into `pressure_increment_`, which is then negated entry by entry. -/
def solveIncrement (K : TpfaFixed) (d : TpfaData) : Except Fault TpfaData := do
  let x := K.kernels_.linsolve d.h_.J d.h_.F
  let incr ← stdCopy x 0 x.length d.pressure_increment_
  pure { d with pressure_increment_ := incr.map (fun v => -v) }

/-- The body of the `while (!residual_ok)` loop of `solve`: one Newton iteration. -/
def newtonIteration (K : TpfaFixed) (dt : ℚ) (r : Run) : Except Fault Run := do
  let nc := K.grid_.number_of_cells
  let d ← solveIncrement K r.data
  let pressure ← stdCopy d.pressure_increment_ 0 nc r.state.pressure
  let bhp ← stdCopy d.pressure_increment_ nc d.pressure_increment_.length r.well_state.bhp
  let state := { r.state with pressure := pressure }
  let well_state := { r.well_state with bhp := bhp }
  let d ← computePerIterationDynamicData K dt state well_state d
  pure { data := assemble K dt state well_state d, state := state, well_state := well_state }

/-- The `while (!residual_ok)` loop of `solve`, run for at most `fuel` iterations; `none` when
the loop is still running after `fuel` iterations. -/
def solveLoop (K : TpfaFixed) (dt : ℚ) : Nat → Bool → Run → Option (Except Fault Run)
  | fuel, residual_ok, r =>
    if residual_ok then some (.ok r)
    else
      match fuel with
      | 0 => none
      | fuel + 1 =>
        match newtonIteration K dt r with
        | .error e => some (.error e)
        | .ok r' => solveLoop K dt fuel residual_ok r'

/-- The member function `CompressibleTpfa::solve`, with at most `fuel` passes through its
loop. -/
def solve (K : TpfaFixed) (fuel : Nat) (dt : ℚ) (r : Run) : Option (Except Fault Run) :=
  match computePerSolveDynamicData K dt r.state r.well_state r.data with
  | .error e => some (.error e)
  | .ok d =>
    match computePerIterationDynamicData K dt r.state r.well_state d with
    | .error e => some (.error e)
    | .ok d =>
      let residual_ok := false
      solveLoop K dt fuel residual_ok { r with data := assemble K dt r.state r.well_state d }

/-! ## Closed forms used to state the behaviour of the face pass -/

/-- The neighbour cell `face_cells[2*face + side]` of a face (`-1` outside the table). -/
def faceCell (K : TpfaFixed) (face side : Nat) : Int :=
  K.grid_.face_cells.getD (2 * face + side) (-1)

/-- The depth `face_centroids[face*dim + dim - 1]` of a face centroid. -/
def faceDepth (K : TpfaFixed) (face : Nat) : ℚ :=
  K.grid_.face_centroids.getD (face * K.grid_.dimensions + K.grid_.dimensions - 1) 0

/-- The depth `cell_centroids[c*dim + dim - 1]` of a cell centroid. -/
def cellDepth (K : TpfaFixed) (c : Nat) : ℚ :=
  K.grid_.cell_centroids.getD (c * K.grid_.dimensions + K.grid_.dimensions - 1) 0

/-- The `np*np` entries of `cell_A_` that belong to cell `c`. -/
def cellBlock (np : Nat) (cell_A : List ℚ) (c : Nat) : List ℚ :=
  (cell_A.drop (np * np * c)).take (np * np)

/-- The pressure on the side of a face whose neighbour is `c`: the cell pressure of an existing
neighbour, the face pressure on a boundary side. -/
def sidePressure (state : BlackoilState) (face : Nat) (c : Int) : ℚ :=
  if 0 ≤ c then state.pressure.getD c.toNat 0 else state.facepressure.getD face 0

/-- The gravity contribution of the side of a face whose neighbour is `c`, for one phase:
`density * (face_depth - cell_depth)` for an existing neighbour and a nonzero vertical gravity
component `grav`, and `0` otherwise. -/
def sideGravcontrib (K : TpfaFixed) (cell_A : List ℚ) (grav : ℚ) (face : Nat) (c : Int)
    (phase : Nat) : ℚ :=
  if 0 ≤ c ∧ grav ≠ 0 then
    K.props_.density (cellBlock K.props_.numPhases cell_A c.toNat) phase
      * (faceDepth K face - cellDepth K c.toNat)
  else 0

/-- The gravity term of a face and phase: side 0's contribution minus side 1's. -/
def faceGravcap (K : TpfaFixed) (cell_A : List ℚ) (grav : ℚ) (face phase : Nat) : ℚ :=
  sideGravcontrib K cell_A grav face (faceCell K face 0) phase
    - sideGravcontrib K cell_A grav face (faceCell K face 1) phase

/-- The vector `pot[0]` of a face as the face pass computes it. -/
def facePot0 (K : TpfaFixed) (state : BlackoilState) (cell_A : List ℚ) (grav : ℚ) (face : Nat) :
    List ℚ :=
  (List.range K.props_.numPhases).map (fun phase =>
    sidePressure state face (faceCell K face 0) + faceGravcap K cell_A grav face phase)

/-- The vector `pot[1]` of a face as the face pass computes it. -/
def facePot1 (K : TpfaFixed) (state : BlackoilState) (face : Nat) : List ℚ :=
  List.replicate K.props_.numPhases (sidePressure state face (faceCell K face 1))

/-- The upwind cell of a face as the face pass chooses it. -/
def faceUpwindCell (K : TpfaFixed) (state : BlackoilState) (cell_A : List ℚ) (grav : ℚ)
    (face : Nat) : Int :=
  upwindCell (faceCell K face 0) (faceCell K face 1)
    (facePot0 K state cell_A grav face) (facePot1 K state face)

/-- The potential `pot[side][phase]` of a face as the face pass computes it: on side 0 the
side's pressure plus the gravity term of the face, on side 1 the side's pressure. -/
def facePot (K : TpfaFixed) (state : BlackoilState) (cell_A : List ℚ) (grav : ℚ)
    (face side phase : Nat) : ℚ :=
  if side = 0 then
    sidePressure state face (faceCell K face 0) + faceGravcap K cell_A grav face phase
  else
    sidePressure state face (faceCell K face 1)

/-- The entries of `face_phasemob_` and `face_A_` of `d'` for `face` and `phase` are the cached
values of cell `u` in `d`: the phase mobility and row `phase` of the column-major matrix. -/
def UpwindFrom (K : TpfaFixed) (d d' : TpfaData) (face phase u : Nat) : Prop :=
  d'.face_phasemob_[K.props_.numPhases * face + phase]?
    = d.cell_phasemob_[K.props_.numPhases * u + phase]? ∧
  ∀ q, q < K.props_.numPhases →
    d'.face_A_[K.props_.numPhases * K.props_.numPhases * face + phase + K.props_.numPhases * q]?
      = d.cell_A_[K.props_.numPhases * K.props_.numPhases * u + phase + K.props_.numPhases * q]?

/-- The solver `K` with the density query of its property evaluator replaced by `rho`. -/
def withDensity (K : TpfaFixed) (rho : List ℚ → Nat → ℚ) : TpfaFixed :=
  { K with props_ := { K.props_ with density := rho } }

/-- What the face pass needs of its inputs to run without a fault: a grid with at least one
dimension whose face table has two entries below `number_of_cells` per face, at least one of
them an existing cell, centroid and pressure tables long enough, and the cell caches
`cell_A_`, `cell_phasemob_` of the cell pass. -/
def FacePassReady (K : TpfaFixed) (state : BlackoilState) (d : TpfaData) : Prop :=
  1 ≤ K.grid_.dimensions ∧
  K.grid_.face_cells.length = 2 * K.grid_.number_of_faces ∧
  (∀ c ∈ K.grid_.face_cells, c < (K.grid_.number_of_cells : Int)) ∧
  (∀ face, face < K.grid_.number_of_faces → 0 ≤ faceCell K face 0 ∨ 0 ≤ faceCell K face 1) ∧
  K.grid_.number_of_faces * K.grid_.dimensions ≤ K.grid_.face_centroids.length ∧
  K.grid_.number_of_cells * K.grid_.dimensions ≤ K.grid_.cell_centroids.length ∧
  K.grid_.number_of_cells ≤ state.pressure.length ∧
  K.grid_.number_of_faces ≤ state.facepressure.length ∧
  K.grid_.number_of_cells * K.props_.numPhases * K.props_.numPhases ≤ d.cell_A_.length ∧
  K.grid_.number_of_cells * K.props_.numPhases ≤ d.cell_phasemob_.length

instance instDecidableFacePassReady (K : TpfaFixed) (state : BlackoilState) (d : TpfaData) :
    Decidable (FacePassReady K state d) := by
  delta FacePassReady
  infer_instance

/-! ## A two-cell reservoir used to run the code on concrete inputs -/

/-- Two cells joined by one face, in two dimensions.  The face centroid and the centroid of
cell 0 lie at depth 1, the centroid of cell 1 at depth 0. -/
def twoCellGrid : UnstructuredGrid :=
  { dimensions := 2, number_of_cells := 2, number_of_faces := 1, face_cells := [0, 1],
    face_centroids := [1 / 2, 1], cell_centroids := [0, 1, 1, 0], cell_facepos := [0, 1, 2] }

/-- A property evaluator with `np` phases: identity matrix `A`, unit viscosities, relative
permeability `10 * (cell + 1) + phase`, and the constant phase densities `rho`. -/
def constProps (np : Nat) (rho : List ℚ) : BlackoilPropertiesInterface :=
  { numPhases := np
    matrix := fun _ _ _ k => if k % (np + 1) = 0 then 1 else 0
    dmatrix := fun _ _ _ _ => 0
    viscosity := fun _ _ _ _ => 1
    relperm := fun _ cell phase => 10 * ((cell : ℚ) + 1) + (phase : ℚ)
    density := fun _ phase => rho.getD phase 0
    permeability := [1, 1]
    porosity := [1, 1] }

/-- Kernels for the two-cell reservoir with one well: the assembled system is the identity
matrix with residual `F`, and the linear solver returns the exact solution of `J x = F`. -/
def constKernels (F : List ℚ) : Kernels :=
  { tpfa_htrans_compute := fun _ _ n => List.replicate n 1
    tpfa_trans_compute := fun _ _ n => List.replicate n 1
    computePorevolume := fun _ _ n => List.replicate n 1
    cfs_tpfa_res_construct := fun _ _ _ => { J := [[1, 0, 0], [0, 1, 0], [0, 0, 1]], F := [0, 0, 0] }
    cfs_tpfa_res_assemble := fun _ _ _ _ => { J := [[1, 0, 0], [0, 1, 0], [0, 0, 1]], F := F }
    linsolve := fun _ F => F }

/-- One producer with reference depth 0 and a single perforation, in cell 0. -/
def oneProducer (np : Nat) : Wells :=
  { number_of_wells := 1, number_of_phases := np, type := [WellType.PRODUCER],
    depth_ref := [0], well_connpos := [0, 1], well_cells := [0] }

/-- The fixed members of a solver for the two-cell reservoir, as the constructor sets them. -/
def twoCellFixed (np : Nat) (rho : List ℚ) (gravity : Option (List ℚ)) (F : List ℚ)
    (maxiter : Int) : TpfaFixed :=
  { grid_ := twoCellGrid, props_ := constProps np rho, kernels_ := constKernels F,
    residual_tol_ := 1, change_tol_ := 1, maxiter_ := maxiter, gravity_ := gravity,
    wells_ := some (oneProducer np), htrans_ := [1, 1], trans_ := [1], porevol_ := [1, 1],
    allcells_ := [0, 1] }

/-- The mutable members of a freshly constructed solver for the two-cell reservoir. -/
def freshData : TpfaData :=
  { h_ := { J := [[1, 0, 0], [0, 1, 0], [0, 0, 1]], F := [0, 0, 0] },
    wellperf_gpot_ := [], cell_A_ := [], cell_dA_ := [], cell_viscosity_ := [],
    cell_phasemob_ := [], cell_voldisc_ := [], face_A_ := [], face_phasemob_ := [],
    face_gravcap_ := [], wellperf_A_ := [], wellperf_phasemob_ := [],
    pressure_increment_ := [0, 0, 0] }

/-- A state of the two-cell reservoir with cell pressures `p0` and `p1`. -/
def twoCellState (np : Nat) (p0 p1 : ℚ) : BlackoilState :=
  { pressure := [p0, p1], facepressure := [0], surfacevol := List.replicate (2 * np) 1,
    saturation := List.replicate (2 * np) 1 }

/-- The mutable members after the cell pass on a fresh solver (unchanged if it faults). -/
def afterCellPass (K : TpfaFixed) (state : BlackoilState) : TpfaData :=
  match computeCellDynamicData K 1 state { bhp := [] } freshData with
  | .ok d => d
  | .error _ => freshData

/-- The two-cell run, with cell pressures `1, 1` and well pressure `5`, before `solve`. -/
def twoCellRun : Run :=
  { data := freshData, state := twoCellState 1 1 1, well_state := { bhp := [5] } }

/-- The two-cell run at the head of the loop of `solve`: dynamic data set up and the system
assembled with residual `F`. -/
def twoCellRunAssembled (F : List ℚ) : Run :=
  { data :=
      { h_ := { J := [[1, 0, 0], [0, 1, 0], [0, 0, 1]], F := F },
        wellperf_gpot_ := [0], cell_A_ := [1, 1], cell_dA_ := [0, 0], cell_viscosity_ := [1, 1],
        cell_phasemob_ := [10, 20], cell_voldisc_ := [0, 0], face_A_ := [1],
        face_phasemob_ := [10], face_gravcap_ := [0], wellperf_A_ := [1],
        wellperf_phasemob_ := [10], pressure_increment_ := [0, 0, 0] },
    state := twoCellState 1 1 1, well_state := { bhp := [5] } }

/-- The two-cell run after one Newton iteration from `twoCellRunAssembled [-2, -3, -4]`. -/
def twoCellRunIterated : Run :=
  { data :=
      { h_ := { J := [[1, 0, 0], [0, 1, 0], [0, 0, 1]], F := [-2, -3, -4] },
        wellperf_gpot_ := [0], cell_A_ := [1, 1], cell_dA_ := [0, 0], cell_viscosity_ := [1, 1],
        cell_phasemob_ := [10, 20], cell_voldisc_ := [0, 0], face_A_ := [1],
        face_phasemob_ := [20], face_gravcap_ := [0], wellperf_A_ := [1],
        wellperf_phasemob_ := [10], pressure_increment_ := [2, 3, 4] },
    state := { twoCellState 1 1 1 with pressure := [2, 3] }, well_state := { bhp := [4] } }

/-- The single-phase two-cell solver with gravity `(0, 1)` and phase density `2`. -/
def gravFixed : TpfaFixed := twoCellFixed 1 [2] (some [0, 1]) [0, 0, 0] 1

/-- The single-phase two-cell solver without a gravity vector. -/
def noGravFixed : TpfaFixed := twoCellFixed 1 [2] none [0, 0, 0] 1

/-- The two-phase two-cell solver with gravity `(0, 1)` and phase densities `5, 1`. -/
def twoPhaseFixed : TpfaFixed := twoCellFixed 2 [5, 1] (some [0, 1]) [0, 0, 0] 1

/-- Cell pressures `2, 1` for the single-phase solver with gravity. -/
def gravState : BlackoilState := twoCellState 1 2 1

/-- The caches of the single-phase solver with gravity after the cell pass on `gravState`. -/
def gravData : TpfaData := afterCellPass gravFixed gravState

/-- Equal cell pressures `1, 1` for the single-phase solver without gravity. -/
def tieState : BlackoilState := twoCellState 1 1 1

/-- The caches of the single-phase solver without gravity after the cell pass on `tieState`. -/
def tieData : TpfaData := afterCellPass noGravFixed tieState

/-- Cell pressures `6, 1` for the two-phase solver: with the gravity terms `-5, -1` of the face
the potentials are `pot[0] = [1, 5]` and `pot[1] = [1, 1]`. -/
def twoPhaseState : BlackoilState := twoCellState 2 6 1

/-- The caches of the two-phase solver after the cell pass on `twoPhaseState`. -/
def twoPhaseData : TpfaData := afterCellPass twoPhaseFixed twoPhaseState

/-! ## Closed forms used to state the behaviour of the cell pass and the well pass -/

/-- The surface volumes `z[np*c .. np*c + np)` of cell `c`, as a batch query reads them. -/
def cellSurfacevol (np : Nat) (state : BlackoilState) (c : Nat) : List ℚ :=
  (state.surfacevol.drop (np * c)).take np

/-- The saturations `s[np*c .. np*c + np)` of cell `c`, as a batch query reads them. -/
def cellSaturation (np : Nat) (state : BlackoilState) (c : Nat) : List ℚ :=
  (state.saturation.drop (np * c)).take np

/-- The property evaluator's relative permeability of cell `c` and phase `p` at the cell's
current saturations. -/
def cellRelperm (K : TpfaFixed) (state : BlackoilState) (c p : Nat) : ℚ :=
  K.props_.relperm (cellSaturation K.props_.numPhases state c) (c : Int) p

/-- The property evaluator's viscosity of cell `c` and phase `p` at the cell's current pressure
and surface volumes. -/
def cellViscosity (K : TpfaFixed) (state : BlackoilState) (c p : Nat) : ℚ :=
  K.props_.viscosity (state.pressure.getD c 0) (cellSurfacevol K.props_.numPhases state c)
    (c : Int) p

/-- What the cell pass needs of its inputs to run without a fault: the cell list
`allcells_[c] = c` of the constructor, and state vectors with an entry (or `np` entries) for
every cell. -/
def CellPassReady (K : TpfaFixed) (state : BlackoilState) : Prop :=
  (∀ c, c < K.grid_.number_of_cells → K.allcells_[c]? = some (c : Int)) ∧
  K.grid_.number_of_cells ≤ state.pressure.length ∧
  K.props_.numPhases * K.grid_.number_of_cells ≤ state.surfacevol.length ∧
  K.props_.numPhases * K.grid_.number_of_cells ≤ state.saturation.length

instance instDecidableCellPassReady (K : TpfaFixed) (state : BlackoilState) :
    Decidable (CellPassReady K state) := by
  delta CellPassReady
  infer_instance

/-- The entry `well_connpos[w]` of the perforation table (`0` outside the table). -/
def connPos (wells : Wells) (w : Nat) : Nat :=
  wells.well_connpos.getD w 0

/-- The owning cell `well_cells[j]` of perforation `j` (`-1` outside the table). -/
def perfCell (wells : Wells) (j : Nat) : Int :=
  wells.well_cells.getD j (-1)

/-- The sum over all phases `q` of `cell_phasemob_[np*c + q]`. -/
def totalMobility (np : Nat) (cell_phasemob : List ℚ) (c : Nat) : ℚ :=
  ((List.range np).map (fun q => cell_phasemob.getD (np * c + q) 0)).sum

/-- The entries of the perforation caches `wa` (for `wellperf_A_`) and `wm` (for
`wellperf_phasemob_`) that belong to perforation `j` of well `w` hold what the well pass puts
there: the owning cell's matrix, and for every phase the owning cell's total mobility if the
well is an injector and the owning cell's mobility of that phase otherwise. -/
def PerfFilled (K : TpfaFixed) (wells : Wells) (d : TpfaData) (wa wm : List ℚ) (w j : Nat) :
    Prop :=
  (∀ k, k < K.props_.numPhases * K.props_.numPhases →
    wa[K.props_.numPhases * K.props_.numPhases * j + k]?
      = d.cell_A_[K.props_.numPhases * K.props_.numPhases * (perfCell wells j).toNat + k]?) ∧
  (∀ phase, phase < K.props_.numPhases →
    wm[K.props_.numPhases * j + phase]?
      = some (if wells.type[w]? = some WellType.INJECTOR then
                totalMobility K.props_.numPhases d.cell_phasemob_ (perfCell wells j).toNat
              else
                d.cell_phasemob_.getD
                  (K.props_.numPhases * (perfCell wells j).toNat + phase) 0))

/-- What the well pass needs of the wells and of the cell caches to run without a fault: a
perforation table `well_connpos` with `number_of_wells + 1` non-decreasing entries, a type for
every well, an owning cell in `[0, number_of_cells)` for every perforation, and the caches
`cell_A_`, `cell_phasemob_` of the cell pass. -/
def WellPassReady (K : TpfaFixed) (wells : Wells) (d : TpfaData) : Prop :=
  wells.number_of_wells < wells.well_connpos.length ∧
  wells.number_of_wells ≤ wells.type.length ∧
  (∀ w, w < wells.number_of_wells → connPos wells w ≤ connPos wells (w + 1)) ∧
  connPos wells wells.number_of_wells ≤ wells.well_cells.length ∧
  (∀ j, j < connPos wells wells.number_of_wells →
    0 ≤ perfCell wells j ∧ perfCell wells j < (K.grid_.number_of_cells : Int)) ∧
  K.grid_.number_of_cells * K.props_.numPhases * K.props_.numPhases ≤ d.cell_A_.length ∧
  K.grid_.number_of_cells * K.props_.numPhases ≤ d.cell_phasemob_.length

instance instDecidableWellPassReady (K : TpfaFixed) (wells : Wells) (d : TpfaData) :
    Decidable (WellPassReady K wells d) := by
  delta WellPassReady
  infer_instance

/-! ## Further concrete inputs -/

/-- An injector perforated in cell 0 and a producer perforated in cell 1. -/
def twoWells (np : Nat) : Wells :=
  { number_of_wells := 2, number_of_phases := np,
    type := [WellType.INJECTOR, WellType.PRODUCER], depth_ref := [0, 0],
    well_connpos := [0, 1, 2], well_cells := [0, 1] }

/-- The two-phase two-cell solver with the injector and the producer of `twoWells`. -/
def twoWellFixed : TpfaFixed :=
  { twoPhaseFixed with wells_ := some (twoWells 2) }

/-- The single-phase two-cell solver constructed with `wells = NULL`. -/
def noWellsFixed : TpfaFixed :=
  { noGravFixed with wells_ := none }

/-- The mutable members of a freshly constructed solver for two cells and no wells. -/
def noWellsData : TpfaData :=
  { freshData with pressure_increment_ := [0, 0] }

/-- Two cells in a row with their three faces: face 0 is a boundary face with cell 0 on side 1,
face 1 joins cells 0 and 1, face 2 is a boundary face with cell 1 on side 0.  Depths as in
`twoCellGrid`, boundary faces at depth 3. -/
def boundaryGrid : UnstructuredGrid :=
  { dimensions := 2, number_of_cells := 2, number_of_faces := 3, face_cells := [-1, 0, 0, 1, 1, -1],
    face_centroids := [0, 3, 1 / 2, 1, 1, 3], cell_centroids := [0, 1, 1, 0],
    cell_facepos := [0, 2, 4] }

/-- The single-phase solver with gravity `(0, 1)` and phase density `2` on `boundaryGrid`. -/
def boundaryFixed : TpfaFixed :=
  { gravFixed with grid_ := boundaryGrid, trans_ := [1, 1, 1] }

/-- A state for `boundaryGrid`: cell pressures `2, 1`, face pressures `7, 8, 9`. -/
def boundaryState : BlackoilState :=
  { gravState with facepressure := [7, 8, 9] }

/-- The caches of `boundaryFixed` after the cell pass on `boundaryState`. -/
def boundaryData : TpfaData := afterCellPass boundaryFixed boundaryState

/-! ## The linear system of the Newton step -/

/-- The scalar product of a matrix row with a vector. -/
def dot (row x : List ℚ) : ℚ := (List.zipWith (fun a b => a * b) row x).sum

/-- The product `J * x` of a matrix, given by its rows, with a vector. -/
def matVec (J : List (List ℚ)) (x : List ℚ) : List ℚ := J.map (fun row => dot row x)

/-- The single-phase two-cell solver with gravity `(0, 3)` and phase density `2`. -/
def strongGravFixed : TpfaFixed := twoCellFixed 1 [2] (some [0, 3]) [0, 0, 0] 1

/-- The caches of `strongGravFixed` after the cell pass on `gravState`. -/
def strongGravData : TpfaData := afterCellPass strongGravFixed gravState

/-- The mutable members of a freshly constructed solver for two cells and two wells. -/
def twoWellFresh : TpfaData :=
  { freshData with pressure_increment_ := [0, 0, 0, 0] }

/-! ## The polymer properties (`PolymerProperties.cpp`)

The numbers are taken from an ordered field `R`, so that the same definitions run on rational
inputs and can be differentiated over the reals.  Arrays passed by pointer are vectors with
checked access, a pointer that may be null is an `Option`, and every member function returns
the new contents of the arguments it writes through. -/

/-- The routines `PolymerProperties.cpp` calls and does not define: `std::pow` and the two
table look-ups of `opm/core/utility/linearInterpolation.hpp`. -/
structure Numerics (R : Type) where
  pow : R → R → R
  linearInterpolation : List R → List R → R → R
  linearInterpolationDerivative : List R → List R → R → R

/-- The data members of `PolymerProperties` that the member functions read, the two
enumerators `Desorption` and `NoDesorption` that `ads_index_` is compared with (their values
are declared in the header), and the external routines. -/
structure PolymerProperties (R : Type) where
  c_max_ : R
  mix_param_ : R
  rock_density_ : R
  dead_pore_vol_ : R
  res_factor_ : R
  c_max_ads_ : R
  ads_index_ : Int
  c_vals_visc_ : List R
  visc_mult_vals_ : List R
  c_vals_ads_ : List R
  ads_vals_ : List R
  Desorption : Int
  NoDesorption : Int
  lib : Numerics R

/-- The member function `PolymerProperties::viscMult`. -/
def PolymerProperties.viscMult {R : Type} (P : PolymerProperties R) (c : R) : R :=
  P.lib.linearInterpolation P.c_vals_visc_ P.visc_mult_vals_ c

/-- The member function `PolymerProperties::viscMultWithDer`: the returned value and `*der`. -/
def PolymerProperties.viscMultWithDer {R : Type} (P : PolymerProperties R) (c : R) : R × R :=
  (P.lib.linearInterpolation P.c_vals_visc_ P.visc_mult_vals_ c,
   P.lib.linearInterpolationDerivative P.c_vals_visc_ P.visc_mult_vals_ c)

/-- The member function `PolymerProperties::simpleAdsorptionBoth`: `c_ads` and `dc_ads_dc`. -/
def PolymerProperties.simpleAdsorptionBoth {R : Type} [LinearOrderedField R]
    (P : PolymerProperties R) (c : R) (if_with_der : Bool) : R × R :=
  (P.lib.linearInterpolation P.c_vals_ads_ P.ads_vals_ c,
   if if_with_der then P.lib.linearInterpolationDerivative P.c_vals_ads_ P.ads_vals_ c else 0)

/-- The member function `PolymerProperties::simpleAdsorption`: `c_ads`. -/
def PolymerProperties.simpleAdsorption {R : Type} [LinearOrderedField R]
    (P : PolymerProperties R) (c : R) : R :=
  (P.simpleAdsorptionBoth c false).1

/-- The member function `PolymerProperties::simpleAdsorptionWithDer`. -/
def PolymerProperties.simpleAdsorptionWithDer {R : Type} [LinearOrderedField R]
    (P : PolymerProperties R) (c : R) : R × R :=
  P.simpleAdsorptionBoth c true

/-- The member function `PolymerProperties::adsorptionBoth`: `c_ads` and `dc_ads_dc`, or the
exception of `THROW`. -/
def PolymerProperties.adsorptionBoth {R : Type} [LinearOrderedField R]
    (P : PolymerProperties R) (c cmax : R) (if_with_der : Bool) : Except Fault (R × R) :=
  if P.ads_index_ = P.Desorption then
    .ok (P.simpleAdsorptionBoth c if_with_der)
  else if P.ads_index_ = P.NoDesorption then
    if c < cmax then
      .ok (P.simpleAdsorption cmax, 0)
    else
      .ok (P.simpleAdsorptionBoth c if_with_der)
  else
    .error .thrown

/-- The member function `PolymerProperties::adsorption`: `c_ads`. -/
def PolymerProperties.adsorption {R : Type} [LinearOrderedField R]
    (P : PolymerProperties R) (c cmax : R) : Except Fault R := do
  let r ← P.adsorptionBoth c cmax false
  pure r.1

/-- The member function `PolymerProperties::adsorptionWithDer`. -/
def PolymerProperties.adsorptionWithDer {R : Type} [LinearOrderedField R]
    (P : PolymerProperties R) (c cmax : R) : Except Fault (R × R) :=
  P.adsorptionBoth c cmax true

/-- The member function `PolymerProperties::effectiveViscBoth`.  It reads `visc[0..1]`, writes
`visc_eff[0..1]` and, with derivatives, `dvisc_eff_dc[0..1]`; the result holds the new
contents of `visc_eff` and of `dvisc_eff_dc`.  The buffers are taken not to overlap `visc`. -/
def PolymerProperties.effectiveViscBoth {R : Type} [LinearOrderedField R]
    (P : PolymerProperties R) (c : R) (visc visc_eff : List R)
    (dvisc_eff_dc : Option (List R)) (if_with_der : Bool) :
    Except Fault (List R × Option (List R)) := do
  let cbar := c / P.c_max_
  let mu_w ← readAt visc 0
  let omega := P.mix_param_
  let mu_m := if if_with_der then (P.viscMultWithDer c).1 * mu_w else P.viscMult c * mu_w
  let mu_p := P.viscMult P.c_max_ * mu_w
  let mu_m_omega := P.lib.pow mu_m P.mix_param_
  let mu_w_e := mu_m_omega * P.lib.pow mu_w (1 - P.mix_param_)
  let mu_p_eff := mu_m_omega * P.lib.pow mu_p (1 - P.mix_param_)
  let mu_w_eff := 1 / ((1 - cbar) / mu_w_e + cbar / mu_p_eff)
  let visc_eff ← writeAt visc_eff 0 mu_w_eff
  let visc1 ← readAt visc 1
  let visc_eff ← writeAt visc_eff 1 visc1
  if if_with_der then
    match dvisc_eff_dc with
    | none => .error .nullPointer
    | some dv => do
      let mu_m_dc := (P.viscMultWithDer c).2 * mu_w
      let mu_w_e_dc := omega * mu_m_dc * P.lib.pow mu_m (omega - 1) * P.lib.pow mu_w (1 - omega)
      let mu_p_eff_dc := omega * mu_m_dc * P.lib.pow mu_m (omega - 1) * P.lib.pow mu_p (1 - omega)
      let dv ← writeAt dv 0
        (-1 / P.c_max_ * mu_w_eff * mu_w_eff * (1 / mu_p_eff - 1 / mu_w_e)
          + (1 - cbar) * (mu_w_eff * mu_w_eff / (mu_w_e * mu_w_e)) * mu_w_e_dc
          + cbar * (mu_w_eff * mu_w_eff / (mu_p_eff * mu_p_eff)) * mu_p_eff_dc)
      let dv ← writeAt dv 1 0
      pure (visc_eff, some dv)
  else
    pure (visc_eff, dvisc_eff_dc)

/-- The member function `PolymerProperties::effectiveVisc`: the new contents of `visc_eff`. -/
def PolymerProperties.effectiveVisc {R : Type} [LinearOrderedField R]
    (P : PolymerProperties R) (c : R) (visc visc_eff : List R) : Except Fault (List R) := do
  let r ← P.effectiveViscBoth c visc visc_eff none false
  pure r.1

/-- The member function `PolymerProperties::effectiveInvVisc`: the new contents of
`inv_visc_eff`. -/
def PolymerProperties.effectiveInvVisc {R : Type} [LinearOrderedField R]
    (P : PolymerProperties R) (c : R) (visc inv_visc_eff : List R) : Except Fault (List R) := do
  let r ← P.effectiveViscBoth c visc inv_visc_eff none false
  let v0 ← readAt r.1 0
  let b ← writeAt r.1 0 (1 / v0)
  let v1 ← readAt b 1
  writeAt b 1 (1 / v1)

/-- The member function `PolymerProperties::effectiveViscWithDer`. -/
def PolymerProperties.effectiveViscWithDer {R : Type} [LinearOrderedField R]
    (P : PolymerProperties R) (c : R) (visc visc_eff : List R) (dvisc_eff_dc : Option (List R)) :
    Except Fault (List R × Option (List R)) :=
  P.effectiveViscBoth c visc visc_eff dvisc_eff_dc true

/-- The member function `PolymerProperties::effectiveRelpermBoth`: `eff_relperm_wat`,
`deff_relperm_wat_ds` and `deff_relperm_wat_dc`. -/
def PolymerProperties.effectiveRelpermBoth {R : Type} [LinearOrderedField R]
    (P : PolymerProperties R) (c cmax : R) (relperm : List R) (drelperm_ds : Option (List R))
    (if_with_der : Bool) : Except Fault (R × R × R) := do
  let ads ← P.adsorptionBoth c cmax if_with_der
  let c_ads := ads.1
  let dc_ads_dc := ads.2
  let rk := 1 + (P.res_factor_ - 1) * c_ads / P.c_max_ads_
  let relperm0 ← readAt relperm 0
  let eff_relperm_wat := relperm0 / rk
  if if_with_der then
    match drelperm_ds with
    | none => .error .nullPointer
    | some dkr => do
      let dkr0 ← readAt dkr 0
      pure (eff_relperm_wat, dkr0 / rk, dc_ads_dc * relperm0 / (rk * rk * P.c_max_ads_))
  else
    pure (eff_relperm_wat, -1, -1)

/-- The member function `PolymerProperties::effectiveRelperm`: `eff_relperm_wat`. -/
def PolymerProperties.effectiveRelperm {R : Type} [LinearOrderedField R]
    (P : PolymerProperties R) (c cmax : R) (relperm : List R) : Except Fault R := do
  let r ← P.effectiveRelpermBoth c cmax relperm none false
  pure r.1

/-- The member function `PolymerProperties::effectiveRelpermWithDer`. -/
def PolymerProperties.effectiveRelpermWithDer {R : Type} [LinearOrderedField R]
    (P : PolymerProperties R) (c cmax : R) (relperm : List R) (drelperm_ds : Option (List R)) :
    Except Fault (R × R × R) :=
  P.effectiveRelpermBoth c cmax relperm drelperm_ds true

/-- The member function `PolymerProperties::effectiveMobilitiesBoth`: the new contents of `mob`
and `dmob_ds` and the new value of `dmobwat_dc`.  The local arrays `visc_eff[2]` and
`dvisc_eff_dc[2]` start with two zero entries; what they hold before they are written has no
effect on the result. -/
def PolymerProperties.effectiveMobilitiesBoth {R : Type} [LinearOrderedField R]
    (P : PolymerProperties R) (c cmax : R) (visc relperm : List R)
    (drelperm_ds : Option (List R)) (mob dmob_ds : List R) (dmobwat_dc : R)
    (if_with_der : Bool) : Except Fault (List R × List R × R) := do
  let v ← P.effectiveViscBoth c visc [0, 0] (some [0, 0]) if_with_der
  let visc_eff := v.1
  let mu_w_eff ← readAt visc_eff 0
  let mu_w_eff_dc ←
    match v.2 with
    | some dv => readAt dv 0
    | none => .error .nullPointer
  let e ← P.effectiveRelpermBoth c cmax relperm drelperm_ds if_with_der
  let eff_relperm_wat := e.1
  let deff_relperm_wat_ds := e.2.1
  let deff_relperm_wat_dc := e.2.2
  let visc_eff0 ← readAt visc_eff 0
  let mob ← writeAt mob 0 (eff_relperm_wat / visc_eff0)
  let relperm1 ← readAt relperm 1
  let visc_eff1 ← readAt visc_eff 1
  let mob ← writeAt mob 1 (relperm1 / visc_eff1)
  if if_with_der then
    match drelperm_ds with
    | none => .error .nullPointer
    | some dkr => do
      let mob0 ← readAt mob 0
      let dmobwat_dc := -mob0 * mu_w_eff_dc / (mu_w_eff * mu_w_eff)
        + deff_relperm_wat_dc / mu_w_eff
      let dmob_ds ← writeAt dmob_ds 0 (deff_relperm_wat_ds / visc_eff0)
      let dmob0 ← readAt dmob_ds 0
      let dmob_ds ← writeAt dmob_ds 1 (-dmob0)
      let dkr2 ← readAt dkr 2
      let dmob_ds ← writeAt dmob_ds 2 (dkr2 / visc_eff1)
      let dkr3 ← readAt dkr 3
      let dmob_ds ← writeAt dmob_ds 3 (dkr3 / visc_eff1)
      pure (mob, dmob_ds, dmobwat_dc)
  else
    pure ([], [], dmobwat_dc)

/-- The member function `PolymerProperties::effectiveMobilities`: the new contents of `mob`.
The locals `dummy2[2]` and `dummy1` are passed as zeros, `dummy3` is an empty vector. -/
def PolymerProperties.effectiveMobilities {R : Type} [LinearOrderedField R]
    (P : PolymerProperties R) (c cmax : R) (visc relperm mob : List R) :
    Except Fault (List R) := do
  let r ← P.effectiveMobilitiesBoth c cmax visc relperm (some [0, 0]) mob [] 0 false
  pure r.1

/-- The member function `PolymerProperties::effectiveMobilitiesWithDer`. -/
def PolymerProperties.effectiveMobilitiesWithDer {R : Type} [LinearOrderedField R]
    (P : PolymerProperties R) (c cmax : R) (visc relperm : List R)
    (drelpermds : Option (List R)) (mob dmobds : List R) (dmobwatdc : R) :
    Except Fault (List R × List R × R) :=
  P.effectiveMobilitiesBoth c cmax visc relperm drelpermds mob dmobds dmobwatdc true

/-- The member function `PolymerProperties::computeMcBoth`: `mc` and `dmc_dc`. -/
def PolymerProperties.computeMcBoth {R : Type} [LinearOrderedField R]
    (P : PolymerProperties R) (c : R) (if_with_der : Bool) : R × R :=
  let cbar := c / P.c_max_
  let omega := P.mix_param_
  let r := P.lib.pow (P.viscMult P.c_max_) (1 - omega)
  (c / (cbar + (1 - cbar) * r),
   if if_with_der then r / P.lib.pow (cbar + (1 - cbar) * r) 2 else 0)

/-- The overload of `PolymerProperties::computeMcWithDer` with the argument `dmc_dc`. -/
def PolymerProperties.computeMcWithDer {R : Type} [LinearOrderedField R]
    (P : PolymerProperties R) (c : R) : R × R :=
  P.computeMcBoth c true

/-! ## Polymer properties used to run the code on concrete inputs -/

/-- A power routine that agrees with `std::pow` at the exponents `-1`, `0`, `1` and `2`, the
only ones the sample polymers raise to. -/
def samplePow {R : Type} [LinearOrderedField R] (x w : R) : R :=
  if w = 0 then 1 else if w = 1 then x else if w = 2 then x * x
  else if w = -1 then 1 / x else 1

/-- The straight line through the first two points of a table. -/
def sampleLine {R : Type} [LinearOrderedField R] (xs ys : List R) (c : R) : R :=
  match xs, ys with
  | x0 :: x1 :: _, y0 :: y1 :: _ => y0 + (y1 - y0) / (x1 - x0) * (c - x0)
  | _, _ => 0

/-- The slope of the straight line through the first two points of a table. -/
def sampleSlope {R : Type} [LinearOrderedField R] (xs ys : List R) (_c : R) : R :=
  match xs, ys with
  | x0 :: x1 :: _, y0 :: y1 :: _ => (y1 - y0) / (x1 - x0)
  | _, _ => 0

/-- A polymer with mixing parameter `omega` and adsorption index `index` (`1` is `Desorption`,
`2` is `NoDesorption`): `c_max = 1`, residual resistance factor `2`, `c_max_ads = 1`, viscosity
multiplier `1 + 2*c` and adsorption `c`, both given by two-point tables. -/
def samplePolymer (R : Type) [LinearOrderedField R] (omega : R) (index : Int) :
    PolymerProperties R :=
  { c_max_ := 1, mix_param_ := omega, rock_density_ := 1, dead_pore_vol_ := 0,
    res_factor_ := 2, c_max_ads_ := 1, ads_index_ := index,
    c_vals_visc_ := [0, 1], visc_mult_vals_ := [1, 3], c_vals_ads_ := [0, 1],
    ads_vals_ := [0, 1], Desorption := 1, NoDesorption := 2,
    lib := { pow := samplePow, linearInterpolation := sampleLine,
             linearInterpolationDerivative := sampleSlope } }

/-! ## Basic facts about checked accesses and loops -/

@[simp] theorem bind_ok_eq {α β : Type} (x : α) (f : α → Except Fault β) :
    (Except.ok x >>= f) = f x := rfl

@[simp] theorem bind_error_eq {α β : Type} (e : Fault) (f : α → Except Fault β) :
    ((Except.error e : Except Fault α) >>= f) = Except.error e := rfl

@[simp] theorem pure_eq_ok {α : Type} (x : α) : (pure x : Except Fault α) = Except.ok x := rfl

theorem readAt_natCast {α : Type} {v : List α} {n : Nat} {x : α} (h : v[n]? = some x) :
    readAt v (n : Int) = .ok x := by
  simp [readAt, h]

theorem readAt_natCast_iff {α : Type} (v : List α) (n : Nat) (x : α) :
    readAt v (n : Int) = .ok x ↔ v[n]? = some x := by
  unfold readAt
  simp only [Int.toNat_ofNat]
  have h0 : ¬ ((n : Int) < 0) := by omega
  rw [if_neg h0]
  cases h : v[n]? <;> simp

theorem readAt_getElem {α : Type} (v : List α) (n : Nat) (h : n < v.length) :
    readAt v (n : Int) = .ok v[n] :=
  readAt_natCast (List.getElem?_eq_getElem h)

theorem writeAt_natCast {α : Type} (v : List α) (n : Nat) (x : α) (h : n < v.length) :
    writeAt v (n : Int) x = .ok (v.set n x) := by
  unfold writeAt
  simp only [Int.toNat_ofNat]
  have h0 : ¬ ((n : Int) < 0) := by omega
  rw [if_neg h0, if_pos h]

theorem slice_natCast (v : List ℚ) (n len : Nat) (h : n + len ≤ v.length) :
    slice v (n : Int) len = .ok ((v.drop n).take len) := by
  unfold slice
  simp only [Int.toNat_ofNat]
  have h0 : ¬ ((n : Int) < 0) := by omega
  rw [if_neg h0, if_pos h]

theorem forLoop_spec {σ : Type} (body : Nat → σ → Except Fault σ) (I : Nat → σ → Prop) :
    ∀ (n lo : Nat) (s : σ), I lo s →
      (∀ i t, lo ≤ i → i < lo + n → I i t → ∃ t', body i t = .ok t' ∧ I (i + 1) t') →
      ∃ s', forLoop body n lo s = .ok s' ∧ I (lo + n) s' := by
  intro n
  induction n with
  | zero => intro lo s h0 _; exact ⟨s, rfl, by simpa using h0⟩
  | succ n ih =>
    intro lo s h0 hstep
    obtain ⟨t, ht, hI⟩ := hstep lo s (Nat.le_refl _) (by omega) h0
    obtain ⟨s', hs', hI'⟩ := ih (lo + 1) t hI (fun i u h1 h2 h3 => hstep i u (by omega) (by omega) h3)
    refine ⟨s', ?_, ?_⟩
    · simp only [forLoop, ht]; exact hs'
    · have : lo + (n + 1) = lo + 1 + n := by omega
      rw [this]; exact hI'

theorem forRange_spec {σ : Type} (lo hi : Nat) (body : Nat → σ → Except Fault σ)
    (I : Nat → σ → Prop) (s : σ) (hle : lo ≤ hi) (h0 : I lo s)
    (hstep : ∀ i t, lo ≤ i → i < hi → I i t → ∃ t', body i t = .ok t' ∧ I (i + 1) t') :
    ∃ s', forRange lo hi body s = .ok s' ∧ I hi s' := by
  obtain ⟨s', h1, h2⟩ := forLoop_spec body I (hi - lo) lo s h0
    (fun i t a b c => hstep i t a (by omega) c)
  refine ⟨s', h1, ?_⟩
  have : lo + (hi - lo) = hi := by omega
  rw [this] at h2; exact h2

theorem forLoop_congr {σ : Type} (f g : Nat → σ → Except Fault σ) :
    ∀ (n lo : Nat) (s : σ), (∀ i t, lo ≤ i → i < lo + n → f i t = g i t) →
      forLoop f n lo s = forLoop g n lo s := by
  intro n
  induction n with
  | zero => intro lo s _; rfl
  | succ n ih =>
    intro lo s h
    simp only [forLoop]
    rw [h lo s (Nat.le_refl _) (by omega)]
    cases g lo s with
    | error e => rfl
    | ok t => exact ih (lo + 1) t (fun i u h1 h2 => h i u (by omega) (by omega))

theorem lexLess_irrefl (a : List ℚ) : lexLess a a = false := by
  induction a with
  | nil => rfl
  | cons x xs ih => simp [lexLess, ih]

theorem getD_of_lt (v : List ℚ) (n : Nat) (h : n < v.length) : v[n]? = some (v.getD n 0) := by
  simp [List.getElem?_eq_getElem h]

/-- Effect of the first phase loop of a face. -/
theorem facePotentials_spec (np face : Nat) (cp0 cp1 : ℚ) (g0 g1 : List ℚ) (l : PotLocals)
    (hg0 : g0.length = np) (hg1 : g1.length = np)
    (hp0 : l.pot0.length = np) (hp1 : l.pot1.length = np)
    (hlen : np * face + np ≤ l.face_gravcap_.length) :
    ∃ l', facePotentials np face cp0 cp1 g0 g1 l = .ok l' ∧
      l'.face_gravcap_.length = l.face_gravcap_.length ∧
      (∀ phase, phase < np →
        l'.face_gravcap_[np * face + phase]? = some (g0.getD phase 0 - g1.getD phase 0)) ∧
      (∀ i, (i < np * face ∨ np * face + np ≤ i) → l'.face_gravcap_[i]? = l.face_gravcap_[i]?) ∧
      l'.pot0 = (List.range np).map (fun p => cp0 + (g0.getD p 0 - g1.getD p 0)) ∧
      l'.pot1 = List.replicate np cp1 := by
  have key := forRange_spec 0 np
    (facePotentialsPhase np face cp0 cp1 g0 g1)
    (fun k t =>
      t.face_gravcap_.length = l.face_gravcap_.length ∧ t.pot0.length = np ∧ t.pot1.length = np ∧
      (∀ phase, phase < k →
        t.face_gravcap_[np * face + phase]? = some (g0.getD phase 0 - g1.getD phase 0) ∧
        t.pot0[phase]? = some (cp0 + (g0.getD phase 0 - g1.getD phase 0)) ∧
        t.pot1[phase]? = some cp1) ∧
      (∀ i, (i < np * face ∨ np * face + k ≤ i) → t.face_gravcap_[i]? = l.face_gravcap_[i]?))
    l (Nat.zero_le _)
    ⟨rfl, hp0, hp1, fun _ h => absurd h (Nat.not_lt_zero _), fun _ _ => rfl⟩
    (by
      intro k t _ hk ⟨hL, h0, h1, hdone, hrest⟩
      have e : ((np : Int) * face + k) = ((np * face + k : Nat) : Int) := by push_cast; ring
      have hidx : np * face + k < t.face_gravcap_.length := by omega
      refine ⟨{ face_gravcap_ := t.face_gravcap_.set (np * face + k) (g0.getD k 0 - g1.getD k 0),
                pot0 := t.pot0.set k (cp0 + (g0.getD k 0 - g1.getD k 0)),
                pot1 := t.pot1.set k cp1 }, ?_, ?_⟩
      · simp only [facePotentialsPhase, e]
        rw [readAt_natCast (getD_of_lt g0 k (by omega)), bind_ok_eq,
          readAt_natCast (getD_of_lt g1 k (by omega)), bind_ok_eq,
          writeAt_natCast _ _ _ hidx, bind_ok_eq,
          readAt_natCast (List.getElem?_set_self hidx), bind_ok_eq,
          writeAt_natCast _ _ _ (by omega), bind_ok_eq,
          writeAt_natCast _ _ _ (by omega), bind_ok_eq]
        rfl
      · refine ⟨by simpa using hL, by simpa using h0, by simpa using h1, ?_, ?_⟩
        · intro phase hph
          by_cases hpk : phase = k
          · subst hpk
            exact ⟨List.getElem?_set_self hidx, List.getElem?_set_self (by omega),
              List.getElem?_set_self (by omega)⟩
          · have hlt : phase < k := by omega
            obtain ⟨a, b, c⟩ := hdone phase hlt
            refine ⟨?_, ?_, ?_⟩
            · rw [List.getElem?_set_ne (by omega)]; exact a
            · rw [List.getElem?_set_ne (by omega)]; exact b
            · rw [List.getElem?_set_ne (by omega)]; exact c
        · intro i hi
          show (t.face_gravcap_.set (np * face + k) _)[i]? = _
          rw [List.getElem?_set_ne (by omega)]
          exact hrest i (by omega))
  obtain ⟨l', hrun, hL, h0, h1, hdone, hrest⟩ := key
  refine ⟨l', hrun, hL, fun phase h => (hdone phase h).1, fun i hi => hrest i hi, ?_, ?_⟩
  · apply List.ext_getElem?
    intro n
    by_cases hn : n < np
    · rw [(hdone n hn).2.1]
      simp [List.getElem?_range hn]
    · rw [List.getElem?_eq_none (by omega), List.getElem?_eq_none (by simp; omega)]
  · apply List.ext_getElem?
    intro n
    by_cases hn : n < np
    · rw [(hdone n hn).2.2]
      simp [hn]
    · rw [List.getElem?_eq_none (by omega), List.getElem?_eq_none (by simp; omega)]

theorem idx_lt_sq (np phase q : Nat) (hph : phase < np) (hq : q < np) :
    phase + np * q < np * np := by
  have h := Nat.mul_le_mul_left np (Nat.succ_le_of_lt hq)
  rw [Nat.mul_succ] at h
  omega

theorem idx_inj (np p q p' q' : Nat) (hp : p < np) (hp' : p' < np)
    (h : p + np * q = p' + np * q') : p = p' ∧ q = q' := by
  have h1 : (p + np * q) % np = (p' + np * q') % np := by rw [h]
  rw [Nat.add_mul_mod_self_left, Nat.add_mul_mod_self_left, Nat.mod_eq_of_lt hp,
    Nat.mod_eq_of_lt hp'] at h1
  subst h1
  have h2 : np * q = np * q' := by omega
  exact ⟨rfl, Nat.eq_of_mul_eq_mul_left (by omega) h2⟩

/-- Effect of the column loop of the second phase loop, for one phase. -/
theorem faceUpwind_inner_spec (np face phase u : Nat) (d : TpfaData) (hph : phase < np)
    (hA : np * np * u + np * np ≤ d.cell_A_.length)
    (hF : np * np * face + np * np ≤ d.face_A_.length) :
    ∃ fa, faceUpwindColumns np face phase (u : Int) d = .ok { d with face_A_ := fa } ∧
      fa.length = d.face_A_.length ∧
      (∀ q, q < np → fa[np * np * face + (phase + np * q)]? = d.cell_A_[np * np * u + (phase + np * q)]?) ∧
      (∀ i, (∀ q, q < np → i ≠ np * np * face + (phase + np * q)) → fa[i]? = d.face_A_[i]?) := by
  have key := forRange_spec 0 np
    (fun p2 d => do
        let a ← readAt d.cell_A_ ((np : Int) * np * (u : Int) + phase + (np : Int) * p2)
        let fa ← writeAt d.face_A_ ((np : Int) * np * face + phase + (np : Int) * p2) a
        pure { d with face_A_ := fa })
    (fun k t => ∃ fa, t = { d with face_A_ := fa } ∧ fa.length = d.face_A_.length ∧
      (∀ q, q < k → fa[np * np * face + (phase + np * q)]? = d.cell_A_[np * np * u + (phase + np * q)]?) ∧
      (∀ i, (∀ q, q < k → i ≠ np * np * face + (phase + np * q)) → fa[i]? = d.face_A_[i]?))
    d (Nat.zero_le _)
    ⟨d.face_A_, rfl, rfl, fun _ h => absurd h (Nat.not_lt_zero _), fun _ _ => rfl⟩
    (by
      intro k t _ hk ⟨fa, ht, hL, hdone, hrest⟩
      subst ht
      have e1 : ((np : Int) * np * (u : Int) + phase + (np : Int) * k)
          = ((np * np * u + (phase + np * k) : Nat) : Int) := by push_cast; ring
      have e2 : ((np : Int) * np * face + phase + (np : Int) * k)
          = ((np * np * face + (phase + np * k) : Nat) : Int) := by push_cast; ring
      have hb := idx_lt_sq np phase k hph hk
      have hi1 : np * np * u + (phase + np * k) < d.cell_A_.length := by omega
      have hi2 : np * np * face + (phase + np * k) < fa.length := by omega
      refine ⟨{ d with face_A_ := (fa.set (np * np * face + (phase + np * k))
                  (d.cell_A_[np * np * u + (phase + np * k)])) }, ?_, ?_⟩
      · simp only [e1, e2]
        rw [readAt_getElem _ _ hi1, bind_ok_eq, writeAt_natCast _ _ _ hi2, bind_ok_eq]
        rfl
      · refine ⟨_, rfl, by simpa using hL, ?_, ?_⟩
        · intro q hq
          by_cases hqk : q = k
          · subst hqk
            rw [List.getElem?_set_self hi2, List.getElem?_eq_getElem hi1]
          · have hne : np * np * face + (phase + np * k) ≠ np * np * face + (phase + np * q) := by
              intro h
              have := (idx_inj np phase k phase q hph hph (by omega)).2
              omega
            rw [List.getElem?_set_ne hne]
            exact hdone q (by omega)
        · intro i hi
          rw [List.getElem?_set_ne (fun h => hi k (Nat.lt_succ_self k) h.symm)]
          exact hrest i (fun q hq => hi q (by omega)))
  obtain ⟨t, hrun, fa, ht, hL, hdone, hrest⟩ := key
  subst ht
  exact ⟨fa, hrun, hL, hdone, hrest⟩

/-- Effect of the second phase loop of a face, when the upwind cell is the cell `u`. -/
theorem faceUpwind_spec (np face u : Nat) (c0 c1 : Int) (pot0 pot1 : List ℚ) (d : TpfaData)
    (hu : upwindCell c0 c1 pot0 pot1 = (u : Int))
    (hA : np * np * u + np * np ≤ d.cell_A_.length)
    (hM : np * u + np ≤ d.cell_phasemob_.length)
    (hFA : np * np * face + np * np ≤ d.face_A_.length)
    (hFM : np * face + np ≤ d.face_phasemob_.length) :
    ∃ fa fm, faceUpwind np face c0 c1 pot0 pot1 d
        = .ok { d with face_A_ := fa, face_phasemob_ := fm } ∧
      fa.length = d.face_A_.length ∧ fm.length = d.face_phasemob_.length ∧
      (∀ phase, phase < np →
        fm[np * face + phase]? = d.cell_phasemob_[np * u + phase]? ∧
        ∀ q, q < np →
          fa[np * np * face + (phase + np * q)]? = d.cell_A_[np * np * u + (phase + np * q)]?) ∧
      (∀ i, (i < np * face ∨ np * face + np ≤ i) → fm[i]? = d.face_phasemob_[i]?) ∧
      (∀ i, (i < np * np * face ∨ np * np * face + np * np ≤ i) → fa[i]? = d.face_A_[i]?) := by
  have key := forRange_spec 0 np (faceUpwindPhase np face c0 c1 pot0 pot1)
    (fun k t => ∃ fa fm, t = { d with face_A_ := fa, face_phasemob_ := fm } ∧
      fa.length = d.face_A_.length ∧ fm.length = d.face_phasemob_.length ∧
      (∀ phase, phase < k →
        fm[np * face + phase]? = d.cell_phasemob_[np * u + phase]? ∧
        ∀ q, q < np →
          fa[np * np * face + (phase + np * q)]? = d.cell_A_[np * np * u + (phase + np * q)]?) ∧
      (∀ i, (i < np * face ∨ np * face + k ≤ i) → fm[i]? = d.face_phasemob_[i]?) ∧
      (∀ i, (i < np * np * face ∨ np * np * face + np * np ≤ i) → fa[i]? = d.face_A_[i]?))
    d (Nat.zero_le _)
    ⟨d.face_A_, d.face_phasemob_, rfl, rfl, rfl, fun _ h => absurd h (Nat.not_lt_zero _),
      fun _ _ => rfl, fun _ _ => rfl⟩
    (by
      intro k t _ hk ⟨fa, fm, ht, hLa, hLm, hdone, hrestm, hresta⟩
      subst ht
      have e1 : ((np : Int) * (u : Int) + k) = ((np * u + k : Nat) : Int) := by push_cast; ring
      have e2 : ((np : Int) * face + k) = ((np * face + k : Nat) : Int) := by push_cast; ring
      have hi1 : np * u + k < d.cell_phasemob_.length := by omega
      have hi2 : np * face + k < fm.length := by omega
      obtain ⟨fa', hrun, hLa', hnew, hold⟩ := faceUpwind_inner_spec np face k u
        { d with face_A_ := fa,
                 face_phasemob_ := (fm.set (np * face + k) (d.cell_phasemob_[np * u + k])) }
        hk hA (by show _ ≤ fa.length; omega)
      refine ⟨{ d with face_A_ := fa',
                       face_phasemob_ := (fm.set (np * face + k) (d.cell_phasemob_[np * u + k])) },
        ?_, ?_⟩
      · simp only [faceUpwindPhase, hu, e1, e2]
        rw [readAt_getElem _ _ hi1, bind_ok_eq, writeAt_natCast _ _ _ hi2, bind_ok_eq]
        exact hrun
      · refine ⟨_, _, rfl, by rw [hLa']; exact hLa, by simpa using hLm, ?_, ?_, ?_⟩
        · intro phase hphase
          by_cases hpk : phase = k
          · subst hpk
            refine ⟨?_, fun q hq => hnew q hq⟩
            rw [List.getElem?_set_self hi2, List.getElem?_eq_getElem hi1]
          · have hlt : phase < k := by omega
            obtain ⟨a, b⟩ := hdone phase hlt
            refine ⟨?_, ?_⟩
            · rw [List.getElem?_set_ne (by omega)]; exact a
            · intro q hq
              rw [hold _ ?_]
              · exact b q hq
              · intro q' hq' h
                have := (idx_inj np phase q k q' (by omega) hk (by omega)).1
                omega
        · intro i hi
          rw [List.getElem?_set_ne (by omega)]
          exact hrestm i (by omega)
        · intro i hi
          rw [hold i ?_]
          · exact hresta i hi
          · intro q hq h
            have := idx_lt_sq np k q hk hq
            omega)
  obtain ⟨t, hrun, fa, fm, ht, hLa, hLm, hdone, hrestm, hresta⟩ := key
  subst ht
  exact ⟨fa, fm, hrun, hLa, hLm, hdone, hrestm, hresta⟩

theorem length_resize (v : List ℚ) (n : Nat) : (resize v n).length = n := by
  simp [resize]; omega

theorem block_le (a n c : Nat) (L : Nat) (hc : c < n) (hL : n * a ≤ L) : a * c + a ≤ L := by
  have h := Nat.mul_le_mul_left a (Nat.succ_le_of_lt hc)
  rw [Nat.mul_succ, Nat.mul_comm a n] at h
  omega

theorem replicate_eq_map_range (n : Nat) (a : ℚ) (f : Nat → ℚ) (h : ∀ i, i < n → f i = a) :
    List.replicate n a = (List.range n).map f := by
  apply List.ext_getElem?
  intro i
  by_cases hi : i < n
  · simp [hi, List.getElem?_range hi, h i hi]
  · rw [List.getElem?_eq_none (by simp; omega), List.getElem?_eq_none (by simp; omega)]

/-- Effect of the evaluation of one side of a face. -/
theorem faceSide_spec (K : TpfaFixed) (state : BlackoilState) (d : TpfaData) (grav : ℚ)
    (face : Nat) (c : Int)
    (hdim : 1 ≤ K.grid_.dimensions)
    (hc : c < (K.grid_.number_of_cells : Int))
    (hface : face < K.grid_.number_of_faces)
    (hcc : K.grid_.number_of_cells * K.grid_.dimensions ≤ K.grid_.cell_centroids.length)
    (hp : K.grid_.number_of_cells ≤ state.pressure.length)
    (hfp : K.grid_.number_of_faces ≤ state.facepressure.length)
    (hA : K.grid_.number_of_cells * K.props_.numPhases * K.props_.numPhases ≤ d.cell_A_.length) :
    faceSide K state d grav face (faceDepth K face) c
      = .ok (sidePressure state face c,
          (List.range K.props_.numPhases).map (sideGravcontrib K d.cell_A_ grav face c)) := by
  unfold faceSide sidePressure
  by_cases h0 : 0 ≤ c
  · obtain ⟨n, rfl⟩ := Int.eq_ofNat_of_zero_le h0
    have hn : n < K.grid_.number_of_cells := by omega
    simp only [ge_iff_le, h0, if_true, Int.toNat_ofNat]
    rw [readAt_natCast (getD_of_lt _ n (by omega)), bind_ok_eq]
    by_cases hg : grav = 0
    · subst hg
      simp only [ne_eq, not_true_eq_false, if_false, pure_eq_ok]
      congr 2
      exact replicate_eq_map_range _ _ _ (fun i _ => by simp [sideGravcontrib])
    · simp only [ne_eq, hg, not_false_eq_true, if_true]
      have e1 : ((n : Int) * (K.grid_.dimensions : Int) + (K.grid_.dimensions : Int) - 1)
          = ((n * K.grid_.dimensions + K.grid_.dimensions - 1 : Nat) : Int) := by omega
      have hb := block_le K.grid_.dimensions K.grid_.number_of_cells n _ hn hcc
      have e2 : ((K.props_.numPhases : Int) * (K.props_.numPhases : Int) * (n : Int))
          = ((K.props_.numPhases * K.props_.numPhases * n : Nat) : Int) := by push_cast; ring
      have hb2 := block_le (K.props_.numPhases * K.props_.numPhases) K.grid_.number_of_cells n
        d.cell_A_.length hn (by rw [← Nat.mul_assoc]; exact hA)
      rw [e1, readAt_natCast (getD_of_lt _ _ (by rw [Nat.mul_comm]; omega)), bind_ok_eq, e2,
        slice_natCast _ _ _ hb2, bind_ok_eq, pure_eq_ok]
      congr 2
      rw [List.map_map]
      apply List.map_congr_left
      intro phase _
      simp [sideGravcontrib, cellBlock, faceDepth, cellDepth, h0, hg]
  · have hneg : ¬ (c ≥ 0) := h0
    simp only [hneg, h0, if_false]
    rw [readAt_natCast (getD_of_lt _ face (by omega)), bind_ok_eq, pure_eq_ok]
    congr 2
    exact replicate_eq_map_range _ _ _ (fun i _ => by simp [sideGravcontrib, h0])

theorem upwindCell_cases (c0 c1 : Int) (a b : List ℚ) :
    upwindCell c0 c1 a b = c0 ∨ upwindCell c0 c1 a b = c1 := by
  unfold upwindCell
  split_ifs <;> simp

theorem upwindCell_nonneg (c0 c1 : Int) (a b : List ℚ) (h : 0 ≤ c0 ∨ 0 ≤ c1) :
    0 ≤ upwindCell c0 c1 a b := by
  unfold upwindCell
  split_ifs with h1 h2 h3 <;> omega

theorem faceCell_lt (K : TpfaFixed) (face side : Nat)
    (hall : ∀ c ∈ K.grid_.face_cells, c < (K.grid_.number_of_cells : Int))
    (hi : 2 * face + side < K.grid_.face_cells.length) :
    faceCell K face side < (K.grid_.number_of_cells : Int) := by
  unfold faceCell
  rw [List.getD_eq_getElem _ _ hi]
  exact hall _ (List.getElem_mem _)

theorem faceCell_read (K : TpfaFixed) (face side : Nat)
    (hi : 2 * face + side < K.grid_.face_cells.length) :
    K.grid_.face_cells[2 * face + side]? = some (faceCell K face side) := by
  unfold faceCell
  rw [List.getD_eq_getElem _ _ hi, List.getElem?_eq_getElem hi]

/-- Effect of the body of the face loop on one face. -/
theorem faceBody_spec (K : TpfaFixed) (state : BlackoilState) (grav : ℚ) (face : Nat)
    (d : TpfaData) (hwf : FacePassReady K state d) (hface : face < K.grid_.number_of_faces)
    (hFA : K.grid_.number_of_faces * K.props_.numPhases * K.props_.numPhases ≤ d.face_A_.length)
    (hFM : K.grid_.number_of_faces * K.props_.numPhases ≤ d.face_phasemob_.length)
    (hFG : K.grid_.number_of_faces * K.props_.numPhases ≤ d.face_gravcap_.length) :
    ∃ fa fm fg, faceBody K state grav face d
        = .ok { d with face_A_ := fa, face_phasemob_ := fm, face_gravcap_ := fg } ∧
      fa.length = d.face_A_.length ∧ fm.length = d.face_phasemob_.length ∧
      fg.length = d.face_gravcap_.length ∧
      (∀ phase, phase < K.props_.numPhases →
        fg[K.props_.numPhases * face + phase]? = some (faceGravcap K d.cell_A_ grav face phase) ∧
        fm[K.props_.numPhases * face + phase]?
          = d.cell_phasemob_[K.props_.numPhases
              * (faceUpwindCell K state d.cell_A_ grav face).toNat + phase]? ∧
        ∀ q, q < K.props_.numPhases →
          fa[K.props_.numPhases * K.props_.numPhases * face + (phase + K.props_.numPhases * q)]?
            = d.cell_A_[K.props_.numPhases * K.props_.numPhases
                * (faceUpwindCell K state d.cell_A_ grav face).toNat
                + (phase + K.props_.numPhases * q)]?) ∧
      (∀ i, (i < K.props_.numPhases * face ∨ K.props_.numPhases * face + K.props_.numPhases ≤ i) →
        fg[i]? = d.face_gravcap_[i]? ∧ fm[i]? = d.face_phasemob_[i]?) ∧
      (∀ i, (i < K.props_.numPhases * K.props_.numPhases * face ∨
          K.props_.numPhases * K.props_.numPhases * face
            + K.props_.numPhases * K.props_.numPhases ≤ i) → fa[i]? = d.face_A_[i]?) := by
  obtain ⟨hdim, hfc, hall, hone, hfcen, hccen, hp, hfp, hA, hM⟩ := hwf
  have hc0lt := faceCell_lt K face 0 hall (by omega)
  have hc1lt := faceCell_lt K face 1 hall (by omega)
  have hr0 := faceCell_read K face 0 (by omega)
  have hr1 := faceCell_read K face 1 (by omega)
  -- the reads at the head of the body
  have e0 : ((face : Int) * (K.grid_.dimensions : Int) + (K.grid_.dimensions : Int) - 1)
      = ((face * K.grid_.dimensions + K.grid_.dimensions - 1 : Nat) : Int) := by omega
  have hbd := block_le K.grid_.dimensions K.grid_.number_of_faces face _ hface hfcen
  have hdepth : readAt K.grid_.face_centroids ((face : Int) * (K.grid_.dimensions : Int) + (K.grid_.dimensions : Int) - 1)
      = .ok (faceDepth K face) := by
    rw [e0]
    unfold faceDepth
    exact readAt_natCast (getD_of_lt _ _ (by rw [Nat.mul_comm]; omega))
  have hcell0 : readAt K.grid_.face_cells (2 * (face : Int)) = .ok (faceCell K face 0) := by
    have : (2 * (face : Int)) = ((2 * face + 0 : Nat) : Int) := by omega
    rw [this]; exact readAt_natCast hr0
  have hcell1 : readAt K.grid_.face_cells (2 * (face : Int) + 1) = .ok (faceCell K face 1) := by
    have : (2 * (face : Int) + 1) = ((2 * face + 1 : Nat) : Int) := by omega
    rw [this]; exact readAt_natCast hr1
  have hs0 := faceSide_spec K state d grav face (faceCell K face 0) hdim hc0lt hface hccen hp hfp hA
  have hs1 := faceSide_spec K state d grav face (faceCell K face 1) hdim hc1lt hface hccen hp hfp hA
  -- first phase loop
  have hblockG := block_le K.props_.numPhases K.grid_.number_of_faces face _ hface hFG
  obtain ⟨l', hpot, hLg, hgnew, hgold, hpot0, hpot1⟩ := facePotentials_spec K.props_.numPhases face
    (sidePressure state face (faceCell K face 0)) (sidePressure state face (faceCell K face 1))
    ((List.range K.props_.numPhases).map (sideGravcontrib K d.cell_A_ grav face (faceCell K face 0)))
    ((List.range K.props_.numPhases).map (sideGravcontrib K d.cell_A_ grav face (faceCell K face 1)))
    { face_gravcap_ := d.face_gravcap_, pot0 := resize [] K.props_.numPhases, pot1 := resize [] K.props_.numPhases }
    (by simp) (by simp) (length_resize _ _) (length_resize _ _) hblockG
  have hgetD : ∀ (f : Nat → ℚ) (p : Nat), p < K.props_.numPhases → ((List.range K.props_.numPhases).map f).getD p 0 = f p := by
    intro f p hp
    simp [List.getElem?_range hp]
  have hp0' : l'.pot0 = facePot0 K state d.cell_A_ grav face := by
    rw [hpot0]
    unfold facePot0 faceGravcap
    apply List.map_congr_left
    intro p hpmem
    have hp : p < K.props_.numPhases := List.mem_range.mp hpmem
    rw [hgetD _ p hp, hgetD _ p hp]
  have hp1' : l'.pot1 = facePot1 K state face := by
    rw [hpot1]; rfl
  -- second phase loop
  have hunn : 0 ≤ faceUpwindCell K state d.cell_A_ grav face :=
    upwindCell_nonneg _ _ _ _ (hone face hface)
  have hult : faceUpwindCell K state d.cell_A_ grav face < (K.grid_.number_of_cells : Int) := by
    rcases upwindCell_cases (faceCell K face 0) (faceCell K face 1)
      (facePot0 K state d.cell_A_ grav face) (facePot1 K state face) with h | h
    · unfold faceUpwindCell; rw [h]; exact hc0lt
    · unfold faceUpwindCell; rw [h]; exact hc1lt
  generalize hU : faceUpwindCell K state d.cell_A_ grav face = U at *
  obtain ⟨u, rfl⟩ := Int.eq_ofNat_of_zero_le hunn
  have hun : u < K.grid_.number_of_cells := by omega
  have hupw : upwindCell (faceCell K face 0) (faceCell K face 1) l'.pot0 l'.pot1 = (u : Int) := by
    rw [hp0', hp1']; exact hU
  obtain ⟨fa, fm, hrun, hLa, hLm, hnew, holdm, holda⟩ := faceUpwind_spec K.props_.numPhases face u
    (faceCell K face 0) (faceCell K face 1) l'.pot0 l'.pot1
    { d with face_gravcap_ := l'.face_gravcap_ } hupw
    (block_le (K.props_.numPhases * K.props_.numPhases) K.grid_.number_of_cells u _ hun (by rw [← Nat.mul_assoc]; exact hA))
    (block_le K.props_.numPhases K.grid_.number_of_cells u _ hun hM)
    (block_le (K.props_.numPhases * K.props_.numPhases) K.grid_.number_of_faces face _ hface (by rw [← Nat.mul_assoc]; exact hFA))
    (block_le K.props_.numPhases K.grid_.number_of_faces face _ hface hFM)
  refine ⟨fa, fm, l'.face_gravcap_, ?_, hLa, hLm, hLg, ?_, ?_, holda⟩
  · simp only [faceBody, hdepth, hcell0, hcell1, hs0, hs1, hpot, bind_ok_eq]
    exact hrun
  · intro phase hphase
    refine ⟨?_, (hnew phase hphase).1, (hnew phase hphase).2⟩
    rw [hgnew phase hphase, hgetD _ phase hphase, hgetD _ phase hphase]
    rfl
  · intro i hi
    exact ⟨hgold i hi, holdm i hi⟩

theorem block_lt (a f i p : Nat) (hf : f < i) (hp : p < a) : a * f + p < a * i := by
  have h := Nat.mul_le_mul_left a (Nat.succ_le_of_lt hf)
  rw [Nat.mul_succ] at h
  omega

/-- Effect of the face pass: it runs without a fault on inputs that are ready for it, changes
only `face_A_`, `face_phasemob_` and `face_gravcap_`, and fills them face by face and phase by
phase from the gravity terms and the upwind cell's cached values. -/
theorem computeFaceDynamicData_spec (K : TpfaFixed) (dt : ℚ) (state : BlackoilState)
    (ws : WellState) (d : TpfaData) (grav : ℚ) (hgrav : gravComponent K = .ok grav)
    (hwf : FacePassReady K state d) :
    ∃ fa fm fg, computeFaceDynamicData K dt state ws d
        = .ok { d with face_A_ := fa, face_phasemob_ := fm, face_gravcap_ := fg } ∧
      fa.length = K.grid_.number_of_faces * K.props_.numPhases * K.props_.numPhases ∧
      fm.length = K.grid_.number_of_faces * K.props_.numPhases ∧
      fg.length = K.grid_.number_of_faces * K.props_.numPhases ∧
      ∀ face, face < K.grid_.number_of_faces → ∀ phase, phase < K.props_.numPhases →
        fg[K.props_.numPhases * face + phase]? = some (faceGravcap K d.cell_A_ grav face phase) ∧
        fm[K.props_.numPhases * face + phase]?
          = d.cell_phasemob_[K.props_.numPhases
              * (faceUpwindCell K state d.cell_A_ grav face).toNat + phase]? ∧
        ∀ q, q < K.props_.numPhases →
          fa[K.props_.numPhases * K.props_.numPhases * face + (phase + K.props_.numPhases * q)]?
            = d.cell_A_[K.props_.numPhases * K.props_.numPhases
                * (faceUpwindCell K state d.cell_A_ grav face).toNat
                + (phase + K.props_.numPhases * q)]? := by
  have key := forRange_spec 0 K.grid_.number_of_faces (faceBody K state grav)
    (fun k t => ∃ fa fm fg,
      t = { d with face_A_ := fa, face_phasemob_ := fm, face_gravcap_ := fg } ∧
      fa.length = K.grid_.number_of_faces * K.props_.numPhases * K.props_.numPhases ∧
      fm.length = K.grid_.number_of_faces * K.props_.numPhases ∧
      fg.length = K.grid_.number_of_faces * K.props_.numPhases ∧
      ∀ face, face < k → ∀ phase, phase < K.props_.numPhases →
        fg[K.props_.numPhases * face + phase]? = some (faceGravcap K d.cell_A_ grav face phase) ∧
        fm[K.props_.numPhases * face + phase]?
          = d.cell_phasemob_[K.props_.numPhases
              * (faceUpwindCell K state d.cell_A_ grav face).toNat + phase]? ∧
        ∀ q, q < K.props_.numPhases →
          fa[K.props_.numPhases * K.props_.numPhases * face + (phase + K.props_.numPhases * q)]?
            = d.cell_A_[K.props_.numPhases * K.props_.numPhases
                * (faceUpwindCell K state d.cell_A_ grav face).toNat
                + (phase + K.props_.numPhases * q)]?)
    { d with face_A_ := resize d.face_A_ (K.grid_.number_of_faces * K.props_.numPhases * K.props_.numPhases),
             face_phasemob_ := resize d.face_phasemob_ (K.grid_.number_of_faces * K.props_.numPhases),
             face_gravcap_ := resize d.face_gravcap_ (K.grid_.number_of_faces * K.props_.numPhases) }
    (Nat.zero_le _)
    ⟨_, _, _, rfl, length_resize _ _, length_resize _ _, length_resize _ _,
      fun _ h => absurd h (Nat.not_lt_zero _)⟩
    (by
      intro k t _ hk ⟨fa, fm, fg, ht, hLa, hLm, hLg, hdone⟩
      subst ht
      obtain ⟨fa', fm', fg', hrun, hLa', hLm', hLg', hnew, holdgm, holda⟩ :=
        faceBody_spec K state grav k
          { d with face_A_ := fa, face_phasemob_ := fm, face_gravcap_ := fg }
          hwf hk (Nat.le_of_eq hLa.symm) (Nat.le_of_eq hLm.symm) (Nat.le_of_eq hLg.symm)
      refine ⟨_, hrun, fa', fm', fg', rfl, hLa'.trans hLa, hLm'.trans hLm, hLg'.trans hLg, ?_⟩
      intro face hface phase hphase
      by_cases hfk : face = k
      · subst hfk
        exact hnew phase hphase
      · have hlt : face < k := by omega
        obtain ⟨a, b, c⟩ := hdone face hlt phase hphase
        have h1 := block_lt K.props_.numPhases face k phase hlt hphase
        refine ⟨?_, ?_, ?_⟩
        · rw [(holdgm _ (Or.inl h1)).1]; exact a
        · rw [(holdgm _ (Or.inl h1)).2]; exact b
        · intro q hq
          have h2 := block_lt (K.props_.numPhases * K.props_.numPhases) face k
            (phase + K.props_.numPhases * q) hlt (idx_lt_sq _ _ _ hphase hq)
          rw [holda _ (Or.inl h2)]
          exact c q hq)
  obtain ⟨t, hrun, fa, fm, fg, ht, hLa, hLm, hLg, hdone⟩ := key
  subst ht
  refine ⟨fa, fm, fg, ?_, hLa, hLm, hLg, hdone⟩
  simp only [computeFaceDynamicData, hgrav, bind_ok_eq]
  exact hrun

theorem lexLess_first_difference :
    ∀ (a b : List ℚ) (p : Nat), a.length = b.length → p < a.length →
      (∀ i, i < p → a.getD i 0 = b.getD i 0) → a.getD p 0 ≠ b.getD p 0 →
      lexLess a b = decide (a.getD p 0 < b.getD p 0) := by
  intro a
  induction a with
  | nil => intro b p _ hp; simp at hp
  | cons x xs ih =>
    intro b p hlen hp heq hne
    cases b with
    | nil => simp at hlen
    | cons y ys =>
      cases p with
      | zero =>
        simp only [List.getD_cons_zero] at hne
        simp only [List.getD_cons_zero, lexLess]
        by_cases hxy : x < y
        · simp [hxy]
        · have hyx : y < x := lt_of_le_of_ne (not_lt.mp hxy) (Ne.symm hne)
          simp [hxy, hyx]
      | succ p' =>
        have hx : x = y := by simpa using heq 0 (Nat.succ_pos _)
        subst hx
        simp only [List.getD_cons_succ, lexLess, lt_irrefl, if_false]
        simp only [List.getD_cons_succ] at hne
        exact ih ys p' (by simpa using hlen) (by simpa using hp)
          (fun i hi => by simpa using heq (i + 1) (by omega)) hne

theorem facePot0_getD (K : TpfaFixed) (state : BlackoilState) (cell_A : List ℚ) (grav : ℚ)
    (face phase : Nat) (h : phase < K.props_.numPhases) :
    (facePot0 K state cell_A grav face).getD phase 0 = facePot K state cell_A grav face 0 phase := by
  simp [facePot0, facePot, List.getElem?_range h]

theorem facePot1_getD (K : TpfaFixed) (state : BlackoilState) (cell_A : List ℚ) (grav : ℚ)
    (face phase : Nat) (h : phase < K.props_.numPhases) :
    (facePot1 K state face).getD phase 0 = facePot K state cell_A grav face 1 phase := by
  simp [facePot1, facePot, h]

/-- The face pass in the vocabulary of `UpwindFrom`. -/
theorem computeFaceDynamicData_upwind (K : TpfaFixed) (dt : ℚ) (state : BlackoilState)
    (ws : WellState) (d : TpfaData) (grav : ℚ) (hgrav : gravComponent K = .ok grav)
    (hwf : FacePassReady K state d) :
    ∃ d', computeFaceDynamicData K dt state ws d = .ok d' ∧
      d'.face_A_.length = K.grid_.number_of_faces * K.props_.numPhases * K.props_.numPhases ∧
      d'.face_phasemob_.length = K.grid_.number_of_faces * K.props_.numPhases ∧
      d'.face_gravcap_.length = K.grid_.number_of_faces * K.props_.numPhases ∧
      ∀ face, face < K.grid_.number_of_faces → ∀ phase, phase < K.props_.numPhases →
        d'.face_gravcap_[K.props_.numPhases * face + phase]?
          = some (faceGravcap K d.cell_A_ grav face phase) ∧
        UpwindFrom K d d' face phase (faceUpwindCell K state d.cell_A_ grav face).toNat := by
  obtain ⟨fa, fm, fg, hrun, hLa, hLm, hLg, hall⟩ :=
    computeFaceDynamicData_spec K dt state ws d grav hgrav hwf
  refine ⟨_, hrun, hLa, hLm, hLg, ?_⟩
  intro face hface phase hphase
  obtain ⟨a, b, c⟩ := hall face hface phase hphase
  refine ⟨a, b, ?_⟩
  intro q hq
  have := c q hq
  simp only [Nat.add_assoc]
  exact this

/-! ## Partial runs: what a successful run implies -/

theorem bind_ok_inv {α β : Type} {x : Except Fault α} {f : α → Except Fault β} {b : β}
    (h : (x >>= f) = .ok b) : ∃ a, x = .ok a ∧ f a = .ok b := by
  cases x with
  | error e => exact absurd h (by simp)
  | ok a => exact ⟨a, rfl, h⟩

theorem forLoop_preserves {σ : Type} (body : Nat → σ → Except Fault σ) (P : σ → Prop)
    (hbody : ∀ i s t, body i s = .ok t → P s → P t) :
    ∀ (n lo : Nat) (s t : σ), forLoop body n lo s = .ok t → P s → P t := by
  intro n
  induction n with
  | zero =>
    intro lo s t h hP
    simp only [forLoop, Except.ok.injEq] at h
    exact h ▸ hP
  | succ n ih =>
    intro lo s t h hP
    simp only [forLoop] at h
    cases hb : body lo s with
    | error e => rw [hb] at h; exact absurd h (by simp)
    | ok u =>
      rw [hb] at h
      exact ih (lo + 1) u t h (hbody lo s u hb hP)

theorem forRange_preserves {σ : Type} (lo hi : Nat) (body : Nat → σ → Except Fault σ)
    (P : σ → Prop) (hbody : ∀ i s t, body i s = .ok t → P s → P t) (s t : σ)
    (h : forRange lo hi body s = .ok t) (hP : P s) : P t :=
  forLoop_preserves body P hbody (hi - lo) lo s t h hP

/-! ## Members that the passes leave alone -/

theorem computeCellDynamicData_gpot (K : TpfaFixed) (dt : ℚ) (state : BlackoilState)
    (ws : WellState) (d d' : TpfaData) (h : computeCellDynamicData K dt state ws d = .ok d') :
    d'.wellperf_gpot_ = d.wellperf_gpot_ := by
  simp only [computeCellDynamicData] at h
  obtain ⟨a1, -, h⟩ := bind_ok_inv h
  obtain ⟨a2, -, h⟩ := bind_ok_inv h
  obtain ⟨a3, -, h⟩ := bind_ok_inv h
  obtain ⟨a4, -, h⟩ := bind_ok_inv h
  simp only [pure_eq_ok, Except.ok.injEq] at h
  rw [← h]

theorem faceUpwindColumns_gpot (np face phase : Nat) (upwindc : Int) (d d' : TpfaData)
    (h : faceUpwindColumns np face phase upwindc d = .ok d') :
    d'.wellperf_gpot_ = d.wellperf_gpot_ := by
  refine forRange_preserves 0 np _ (fun t => t.wellperf_gpot_ = d.wellperf_gpot_) ?_ d d' h rfl
  intro i s t hb hP
  obtain ⟨a, -, hb⟩ := bind_ok_inv hb
  obtain ⟨fa, -, hb⟩ := bind_ok_inv hb
  simp only [pure_eq_ok, Except.ok.injEq] at hb
  rw [← hb]
  exact hP

theorem faceUpwind_gpot (np face : Nat) (c0 c1 : Int) (pot0 pot1 : List ℚ) (d d' : TpfaData)
    (h : faceUpwind np face c0 c1 pot0 pot1 d = .ok d') :
    d'.wellperf_gpot_ = d.wellperf_gpot_ := by
  refine forRange_preserves 0 np _ (fun t => t.wellperf_gpot_ = d.wellperf_gpot_) ?_ d d' h rfl
  intro i s t hb hP
  simp only [faceUpwindPhase] at hb
  obtain ⟨m, -, hb⟩ := bind_ok_inv hb
  obtain ⟨fm, -, hb⟩ := bind_ok_inv hb
  exact (faceUpwindColumns_gpot _ _ _ _ _ _ hb).trans hP

theorem faceBody_gpot (K : TpfaFixed) (state : BlackoilState) (grav : ℚ) (face : Nat)
    (d d' : TpfaData) (h : faceBody K state grav face d = .ok d') :
    d'.wellperf_gpot_ = d.wellperf_gpot_ := by
  simp only [faceBody] at h
  obtain ⟨fd, -, h⟩ := bind_ok_inv h
  obtain ⟨c0, -, h⟩ := bind_ok_inv h
  obtain ⟨c1, -, h⟩ := bind_ok_inv h
  obtain ⟨s0, -, h⟩ := bind_ok_inv h
  obtain ⟨s1, -, h⟩ := bind_ok_inv h
  obtain ⟨l, -, h⟩ := bind_ok_inv h
  rw [faceUpwind_gpot _ _ _ _ _ _ _ _ h]

theorem computeFaceDynamicData_gpot (K : TpfaFixed) (dt : ℚ) (state : BlackoilState)
    (ws : WellState) (d d' : TpfaData) (h : computeFaceDynamicData K dt state ws d = .ok d') :
    d'.wellperf_gpot_ = d.wellperf_gpot_ := by
  simp only [computeFaceDynamicData] at h
  obtain ⟨grav, -, h⟩ := bind_ok_inv h
  exact forRange_preserves 0 _ _ (fun t => t.wellperf_gpot_ = d.wellperf_gpot_)
    (fun i s t hb hP => (faceBody_gpot K state grav i s t hb).trans hP) _ d' h rfl

theorem wellPerfBody_gpot (np : Nat) (wells : Wells) (inj : Bool) (j : Nat) (d d' : TpfaData)
    (h : wellPerfBody np wells inj j d = .ok d') :
    d'.wellperf_gpot_ = d.wellperf_gpot_ := by
  simp only [wellPerfBody] at h
  obtain ⟨c, -, h⟩ := bind_ok_inv h
  obtain ⟨cA, -, h⟩ := bind_ok_inv h
  obtain ⟨wpA, -, h⟩ := bind_ok_inv h
  obtain ⟨cM, -, h⟩ := bind_ok_inv h
  split at h
  · obtain ⟨tot, -, h⟩ := bind_ok_inv h
    obtain ⟨wpM, -, h⟩ := bind_ok_inv h
    simp only [pure_eq_ok, Except.ok.injEq] at h
    rw [← h]
  · obtain ⟨wpM, -, h⟩ := bind_ok_inv h
    simp only [pure_eq_ok, Except.ok.injEq] at h
    rw [← h]

theorem computeWellDynamicData_gpot (K : TpfaFixed) (dt : ℚ) (state : BlackoilState)
    (ws : WellState) (d d' : TpfaData) (h : computeWellDynamicData K dt state ws d = .ok d') :
    d'.wellperf_gpot_ = d.wellperf_gpot_ := by
  simp only [computeWellDynamicData] at h
  cases hw : K.wells_ with
  | none =>
    rw [hw] at h
    exact absurd h (by simp)
  | some wells =>
    rw [hw] at h
    simp only [pure_eq_ok, bind_ok_eq] at h
    obtain ⟨nperf, -, h⟩ := bind_ok_inv h
    refine forRange_preserves 0 _ _ (fun t => t.wellperf_gpot_ = d.wellperf_gpot_) ?_ _ d' h rfl
    intro w s t hb hP
    obtain ⟨ty, -, hb⟩ := bind_ok_inv hb
    obtain ⟨lo, -, hb⟩ := bind_ok_inv hb
    obtain ⟨hi, -, hb⟩ := bind_ok_inv hb
    exact forRange_preserves lo hi _ (fun t => t.wellperf_gpot_ = d.wellperf_gpot_)
      (fun j u v hj hQ => (wellPerfBody_gpot _ _ _ _ _ _ hj).trans hQ) s t hb hP

theorem computePerIterationDynamicData_gpot (K : TpfaFixed) (dt : ℚ) (state : BlackoilState)
    (ws : WellState) (d d' : TpfaData)
    (h : computePerIterationDynamicData K dt state ws d = .ok d') :
    d'.wellperf_gpot_ = d.wellperf_gpot_ := by
  simp only [computePerIterationDynamicData] at h
  obtain ⟨d1, h1, h⟩ := bind_ok_inv h
  obtain ⟨d2, h2, h⟩ := bind_ok_inv h
  rw [computeWellDynamicData_gpot K dt state ws d2 d' h,
    computeFaceDynamicData_gpot K dt state ws d1 d2 h2,
    computeCellDynamicData_gpot K dt state ws d d1 h1]

theorem stdCopy_ok_inv {src dst out : List ℚ} {first last : Nat}
    (h : stdCopy src first last dst = .ok out) :
    first ≤ last ∧ last ≤ src.length ∧ last - first ≤ dst.length ∧
      out = (src.drop first).take (last - first) ++ dst.drop (last - first) := by
  unfold stdCopy at h
  split at h
  · rename_i hc
    simp only [Except.ok.injEq] at h
    exact ⟨hc.1, hc.2.1, hc.2.2, h.symm⟩
  · exact absurd h (by simp)

theorem stdCopy_length {src dst out : List ℚ} {first last : Nat}
    (h : stdCopy src first last dst = .ok out) : out.length = dst.length := by
  obtain ⟨h1, h2, h3, rfl⟩ := stdCopy_ok_inv h
  simp
  omega

theorem stdCopy_getElem? {src dst out : List ℚ} {first last : Nat}
    (h : stdCopy src first last dst = .ok out) (i : Nat) (hi : first + i < last) :
    out[i]? = src[first + i]? := by
  obtain ⟨h1, h2, h3, rfl⟩ := stdCopy_ok_inv h
  rw [List.getElem?_append_left (by simp; omega), List.getElem?_take_of_lt (by omega),
    List.getElem?_drop]

theorem solveIncrement_inv (K : TpfaFixed) (d d' : TpfaData) (h : solveIncrement K d = .ok d') :
    d'.pressure_increment_.length = d.pressure_increment_.length ∧
    d'.wellperf_gpot_ = d.wellperf_gpot_ := by
  simp only [solveIncrement] at h
  obtain ⟨incr, hc, h⟩ := bind_ok_inv h
  simp only [pure_eq_ok, Except.ok.injEq] at h
  rw [← h]
  exact ⟨by simpa using stdCopy_length hc, rfl⟩

/-! ## The cell pass -/

/-- Effect of a batch query whose per-cell query succeeds with the values `F c`. -/
theorem batchQuery_spec (K : TpfaFixed) (nc per : Nat)
    (q : Nat → Int → Except Fault (Nat → ℚ)) (F : Nat → Nat → ℚ)
    (hcells : ∀ c, c < nc → K.allcells_[c]? = some (c : Int))
    (hq : ∀ c, c < nc → q c (c : Int) = .ok (F c)) :
    ∃ out, batchQuery K nc per q = .ok out ∧ out.length = per * nc ∧
      ∀ c, c < nc → ∀ k, k < per → out[per * c + k]? = some (F c k) := by
  have key := forRange_spec 0 nc
    (fun i out => do
      let cell ← readAt K.allcells_ i
      let f ← q i cell
      pure (out ++ (List.range per).map f))
    (fun i out => out.length = per * i ∧
      ∀ c, c < i → ∀ k, k < per → out[per * c + k]? = some (F c k))
    [] (Nat.zero_le _) ⟨by simp, fun _ h => absurd h (Nat.not_lt_zero _)⟩
    (by
      intro i out _ hi ⟨hlen, hdone⟩
      refine ⟨out ++ (List.range per).map (F i), ?_, ?_, ?_⟩
      · dsimp only
        rw [readAt_natCast (hcells i hi), bind_ok_eq, hq i hi, bind_ok_eq, pure_eq_ok]
      · rw [List.length_append, hlen, List.length_map, List.length_range, Nat.mul_succ]
      · intro c hc k hk
        by_cases hci : c = i
        · subst hci
          rw [List.getElem?_append_right (by omega), hlen]
          simp [List.getElem?_range hk]
        · have hlt : c < i := by omega
          have := block_lt per c i k hlt hk
          rw [List.getElem?_append_left (by omega)]
          exact hdone c hlt k hk)
  obtain ⟨out, hrun, hlen, hdone⟩ := key
  exact ⟨out, hrun, hlen, hdone⟩

/-- Effect of the cell pass: it runs without a fault on inputs that are ready for it and fills
`cell_phasemob_` with the quotients of relative permeability and viscosity, cell by cell and
phase by phase; `cell_A_` and `cell_phasemob_` get their full lengths. -/
theorem computeCellDynamicData_spec (K : TpfaFixed) (dt : ℚ) (state : BlackoilState)
    (ws : WellState) (d : TpfaData) (hready : CellPassReady K state) :
    ∃ d', computeCellDynamicData K dt state ws d = .ok d' ∧
      d'.cell_A_.length = K.props_.numPhases * K.props_.numPhases * K.grid_.number_of_cells ∧
      d'.cell_phasemob_.length = K.props_.numPhases * K.grid_.number_of_cells ∧
      ∀ c, c < K.grid_.number_of_cells → ∀ p, p < K.props_.numPhases →
        d'.cell_phasemob_[K.props_.numPhases * c + p]?
          = some (cellRelperm K state c p / cellViscosity K state c p) := by
  obtain ⟨hcells, hp, hz, hs⟩ := hready
  have hpz : ∀ (g : ℚ → List ℚ → Int → Nat → ℚ) (c : Nat), c < K.grid_.number_of_cells →
      (do
        let p ← readAt state.pressure c
        let z ← slice state.surfacevol ((K.props_.numPhases : Int) * c) K.props_.numPhases
        pure (g p z (c : Int)) : Except Fault (Nat → ℚ))
      = .ok (g (state.pressure.getD c 0) (cellSurfacevol K.props_.numPhases state c) (c : Int)) := by
    intro g c hc
    have e : ((K.props_.numPhases : Int) * (c : Int)) = ((K.props_.numPhases * c : Nat) : Int) := by
      push_cast; ring
    have hb := block_le K.props_.numPhases K.grid_.number_of_cells c state.surfacevol.length hc
      (by rw [Nat.mul_comm]; exact hz)
    rw [readAt_natCast (getD_of_lt _ c (by omega)), bind_ok_eq, e, slice_natCast _ _ _ hb,
      bind_ok_eq, pure_eq_ok]
    rfl
  have hsat : ∀ (c : Nat), c < K.grid_.number_of_cells →
      (do
        let s ← slice state.saturation ((K.props_.numPhases : Int) * c) K.props_.numPhases
        pure (K.props_.relperm s (c : Int)) : Except Fault (Nat → ℚ))
      = .ok (K.props_.relperm (cellSaturation K.props_.numPhases state c) (c : Int)) := by
    intro c hc
    have e : ((K.props_.numPhases : Int) * (c : Int)) = ((K.props_.numPhases * c : Nat) : Int) := by
      push_cast; ring
    have hb := block_le K.props_.numPhases K.grid_.number_of_cells c state.saturation.length hc
      (by rw [Nat.mul_comm]; exact hs)
    rw [e, slice_natCast _ _ _ hb, bind_ok_eq, pure_eq_ok]
    rfl
  obtain ⟨cA, hA, hAlen, -⟩ := batchQuery_spec K K.grid_.number_of_cells
    (K.props_.numPhases * K.props_.numPhases)
    (fun i cell => do
      let p ← readAt state.pressure i
      let z ← slice state.surfacevol ((K.props_.numPhases : Int) * i) K.props_.numPhases
      pure (K.props_.matrix p z cell))
    (fun c => K.props_.matrix (state.pressure.getD c 0)
      (cellSurfacevol K.props_.numPhases state c) (c : Int))
    hcells (hpz K.props_.matrix)
  obtain ⟨cdA, hdA, -, -⟩ := batchQuery_spec K K.grid_.number_of_cells
    (K.props_.numPhases * K.props_.numPhases)
    (fun i cell => do
      let p ← readAt state.pressure i
      let z ← slice state.surfacevol ((K.props_.numPhases : Int) * i) K.props_.numPhases
      pure (K.props_.dmatrix p z cell))
    (fun c => K.props_.dmatrix (state.pressure.getD c 0)
      (cellSurfacevol K.props_.numPhases state c) (c : Int))
    hcells (hpz K.props_.dmatrix)
  obtain ⟨mu, hmu, hmulen, hmuval⟩ := batchQuery_spec K K.grid_.number_of_cells
    K.props_.numPhases
    (fun i cell => do
      let p ← readAt state.pressure i
      let z ← slice state.surfacevol ((K.props_.numPhases : Int) * i) K.props_.numPhases
      pure (K.props_.viscosity p z cell))
    (fun c => K.props_.viscosity (state.pressure.getD c 0)
      (cellSurfacevol K.props_.numPhases state c) (c : Int))
    hcells (hpz K.props_.viscosity)
  obtain ⟨kr, hkr, hkrlen, hkrval⟩ := batchQuery_spec K K.grid_.number_of_cells
    K.props_.numPhases
    (fun i cell => do
      let s ← slice state.saturation ((K.props_.numPhases : Int) * i) K.props_.numPhases
      pure (K.props_.relperm s cell))
    (fun c => K.props_.relperm (cellSaturation K.props_.numPhases state c) (c : Int))
    hcells hsat
  refine ⟨{ d with cell_A_ := cA, cell_dA_ := cdA, cell_viscosity_ := mu,
                   cell_phasemob_ := List.zipWith (fun kr mu => kr / mu) kr mu,
                   cell_voldisc_ := resize [] K.grid_.number_of_cells }, ?_, ?_, ?_, ?_⟩
  · simp only [computeCellDynamicData]
    rw [hA, bind_ok_eq, hdA, bind_ok_eq, hmu, bind_ok_eq, hkr, bind_ok_eq, pure_eq_ok]
  · exact hAlen
  · simp [hkrlen, hmulen]
  · intro c hc p hp
    show (List.zipWith (fun kr mu => kr / mu) kr mu)[K.props_.numPhases * c + p]? = _
    rw [List.getElem?_zipWith, hkrval c hc p hp, hmuval c hc p hp]
    rfl

/-! ## The well pass -/

/-- A loop that writes `f k` to entry `base + k` for `k < n` fills that block and nothing else. -/
theorem forRange_fill (n base : Nat) (f : Nat → ℚ)
    (body : Nat → List ℚ → Except Fault (List ℚ))
    (hbody : ∀ k out, k < n → body k out = writeAt out ((base + k : Nat) : Int) (f k))
    (out : List ℚ) (h : base + n ≤ out.length) :
    ∃ out', forRange 0 n body out = .ok out' ∧ out'.length = out.length ∧
      (∀ k, k < n → out'[base + k]? = some (f k)) ∧
      ∀ i, (i < base ∨ base + n ≤ i) → out'[i]? = out[i]? := by
  have key := forRange_spec 0 n body
    (fun k t => t.length = out.length ∧ (∀ k', k' < k → t[base + k']? = some (f k')) ∧
      ∀ i, (i < base ∨ base + k ≤ i) → t[i]? = out[i]?)
    out (Nat.zero_le _) ⟨rfl, fun _ h => absurd h (Nat.not_lt_zero _), fun _ _ => rfl⟩
    (by
      intro k t _ hk ⟨hL, hdone, hrest⟩
      have hidx : base + k < t.length := by omega
      refine ⟨t.set (base + k) (f k), ?_, by simpa using hL, ?_, ?_⟩
      · rw [hbody k t hk, writeAt_natCast _ _ _ hidx]
      · intro k' hk'
        by_cases hkk : k' = k
        · subst hkk
          exact List.getElem?_set_self hidx
        · rw [List.getElem?_set_ne (by omega)]
          exact hdone k' (by omega)
      · intro i hi
        rw [List.getElem?_set_ne (by omega)]
        exact hrest i (by omega))
  obtain ⟨t, hrun, hL, hdone, hrest⟩ := key
  exact ⟨t, hrun, hL, hdone, hrest⟩

/-- The loop that adds up the `np` entries of a cell's mobilities. -/
theorem totmob_loop (np : Nat) (cM : List ℚ) (h : np ≤ cM.length) :
    forRange 0 np (fun phase tot => do
        let m ← readAt cM phase
        pure (tot + m)) (0 : ℚ)
      = .ok (((List.range np).map (fun q => cM.getD q 0)).sum) := by
  have key := forRange_spec 0 np
    (fun phase tot => do
        let m ← readAt cM phase
        pure (tot + m))
    (fun k tot => tot = ((List.range k).map (fun q => cM.getD q 0)).sum)
    (0 : ℚ) (Nat.zero_le _) (by simp)
    (by
      intro k tot _ hk htot
      refine ⟨tot + cM.getD k 0, ?_, ?_⟩
      · dsimp only
        rw [readAt_natCast (getD_of_lt cM k (by omega)), bind_ok_eq, pure_eq_ok]
      · show tot + cM.getD k 0 = ((List.range (k + 1)).map (fun q => cM.getD q 0)).sum
        rw [List.sum_range_succ, htot])
  obtain ⟨t, hrun, ht⟩ := key
  rw [hrun, ht]

theorem slice_getD (v : List ℚ) (start len q : Nat) (hq : q < len) :
    ((v.drop start).take len).getD q 0 = v.getD (start + q) 0 := by
  simp [List.getElem?_take_of_lt hq, List.getElem?_drop]

theorem slice_getElem? (v : List ℚ) (start len q : Nat) (hq : q < len) :
    ((v.drop start).take len)[q]? = v[start + q]? := by
  rw [List.getElem?_take_of_lt hq, List.getElem?_drop]

/-- Effect of the well pass on one perforation `j` whose owning cell is `c`. -/
theorem wellPerfBody_spec (np : Nat) (wells : Wells) (inj : Bool) (j c : Nat) (d : TpfaData)
    (hcell : wells.well_cells[j]? = some (c : Int))
    (hA : np * np * c + np * np ≤ d.cell_A_.length)
    (hM : np * c + np ≤ d.cell_phasemob_.length)
    (hWA : np * np * j + np * np ≤ d.wellperf_A_.length)
    (hWM : np * j + np ≤ d.wellperf_phasemob_.length) :
    ∃ wa wm, wellPerfBody np wells inj j d
        = .ok { d with wellperf_A_ := wa, wellperf_phasemob_ := wm } ∧
      wa.length = d.wellperf_A_.length ∧ wm.length = d.wellperf_phasemob_.length ∧
      (∀ k, k < np * np → wa[np * np * j + k]? = d.cell_A_[np * np * c + k]?) ∧
      (∀ i, (i < np * np * j ∨ np * np * j + np * np ≤ i) → wa[i]? = d.wellperf_A_[i]?) ∧
      (∀ phase, phase < np → wm[np * j + phase]?
        = some (if inj then totalMobility np d.cell_phasemob_ c
                else d.cell_phasemob_.getD (np * c + phase) 0)) ∧
      (∀ i, (i < np * j ∨ np * j + np ≤ i) → wm[i]? = d.wellperf_phasemob_[i]?) := by
  have eA : ((np : Int) * np * (c : Int)) = ((np * np * c : Nat) : Int) := by push_cast; ring
  have eM : ((np : Int) * (c : Int)) = ((np * c : Nat) : Int) := by push_cast; ring
  have hlenA : ((d.cell_A_.drop (np * np * c)).take (np * np)).length = np * np := by
    simp; omega
  have hlenM : ((d.cell_phasemob_.drop (np * c)).take np).length = np := by
    simp; omega
  obtain ⟨wa, hwa, hwaL, hwanew, hwaold⟩ := forRange_fill (np * np) (np * np * j)
    (fun k => ((d.cell_A_.drop (np * np * c)).take (np * np)).getD k 0)
    (fun k out => do
      let a ← readAt ((d.cell_A_.drop (np * np * c)).take (np * np)) k
      writeAt out ((np : Int) * np * j + k) a)
    (by
      intro k out hk
      have e : ((np : Int) * np * j + k) = ((np * np * j + k : Nat) : Int) := by push_cast; ring
      dsimp only
      rw [readAt_natCast (getD_of_lt _ k (by omega)), bind_ok_eq, e])
    d.wellperf_A_ hWA
  have hprod : ∃ wm, (forRange 0 np (fun phase out => do
        let m ← readAt ((d.cell_phasemob_.drop (np * c)).take np) phase
        writeAt out ((np : Int) * j + phase) m) d.wellperf_phasemob_) = .ok wm ∧
      wm.length = d.wellperf_phasemob_.length ∧
      (∀ phase, phase < np → wm[np * j + phase]? = some (d.cell_phasemob_.getD (np * c + phase) 0)) ∧
      (∀ i, (i < np * j ∨ np * j + np ≤ i) → wm[i]? = d.wellperf_phasemob_[i]?) := by
    obtain ⟨wm, h1, h2, h3, h4⟩ := forRange_fill np (np * j)
      (fun k => ((d.cell_phasemob_.drop (np * c)).take np).getD k 0)
      (fun phase out => do
        let m ← readAt ((d.cell_phasemob_.drop (np * c)).take np) phase
        writeAt out ((np : Int) * j + phase) m)
      (by
        intro k out hk
        have e : ((np : Int) * j + k) = ((np * j + k : Nat) : Int) := by push_cast; ring
        dsimp only
        rw [readAt_natCast (getD_of_lt _ k (by omega)), bind_ok_eq, e])
      d.wellperf_phasemob_ hWM
    refine ⟨wm, h1, h2, ?_, h4⟩
    intro phase hphase
    rw [h3 phase hphase, slice_getD _ _ _ _ hphase]
  have hinj : ∃ wm, (forRange 0 np (fun phase out =>
        writeAt out ((np : Int) * j + phase) (totalMobility np d.cell_phasemob_ c))
        d.wellperf_phasemob_) = .ok wm ∧
      wm.length = d.wellperf_phasemob_.length ∧
      (∀ phase, phase < np → wm[np * j + phase]? = some (totalMobility np d.cell_phasemob_ c)) ∧
      (∀ i, (i < np * j ∨ np * j + np ≤ i) → wm[i]? = d.wellperf_phasemob_[i]?) :=
    forRange_fill np (np * j) (fun _ => totalMobility np d.cell_phasemob_ c)
      (fun phase out => writeAt out ((np : Int) * j + phase) (totalMobility np d.cell_phasemob_ c))
      (by
        intro k out hk
        have e : ((np : Int) * j + k) = ((np * j + k : Nat) : Int) := by push_cast; ring
        dsimp only
        rw [e])
      d.wellperf_phasemob_ hWM
  have htot : forRange 0 np (fun phase tot => do
        let m ← readAt ((d.cell_phasemob_.drop (np * c)).take np) phase
        pure (tot + m)) (0 : ℚ) = .ok (totalMobility np d.cell_phasemob_ c) := by
    rw [totmob_loop np _ (by omega)]
    unfold totalMobility
    congr 2
    apply List.map_congr_left
    intro q hq
    exact slice_getD _ _ _ _ (List.mem_range.mp hq)
  have hwanew' : ∀ k, k < np * np → wa[np * np * j + k]? = d.cell_A_[np * np * c + k]? := by
    intro k hk
    rw [hwanew k hk, ← getD_of_lt _ k (by omega), slice_getElem? _ _ _ _ hk]
  cases inj with
  | true =>
    obtain ⟨wm, h1, h2, h3, h4⟩ := hinj
    refine ⟨wa, wm, ?_, hwaL, h2, hwanew', hwaold, ?_, h4⟩
    · simp only [pure_eq_ok] at htot
      simp only [wellPerfBody, readAt_natCast hcell, bind_ok_eq, eA, eM,
        slice_natCast _ _ _ hA, slice_natCast _ _ _ hM, hwa, if_true, pure_eq_ok]
      rw [htot, bind_ok_eq, h1, bind_ok_eq]
    · intro phase hphase
      simpa using h3 phase hphase
  | false =>
    obtain ⟨wm, h1, h2, h3, h4⟩ := hprod
    refine ⟨wa, wm, ?_, hwaL, h2, hwanew', hwaold, ?_, h4⟩
    · simp only [wellPerfBody, readAt_natCast hcell, bind_ok_eq, eA, eM,
        slice_natCast _ _ _ hA, slice_natCast _ _ _ hM, hwa, h1, pure_eq_ok]
      rfl
    · intro phase hphase
      simpa using h3 phase hphase

theorem connPos_mono (wells : Wells)
    (hmono : ∀ w, w < wells.number_of_wells → connPos wells w ≤ connPos wells (w + 1)) :
    ∀ b a, a ≤ b → b ≤ wells.number_of_wells → connPos wells a ≤ connPos wells b := by
  intro b
  induction b with
  | zero =>
    intro a ha _
    have : a = 0 := by omega
    rw [this]
  | succ b ih =>
    intro a ha hb
    by_cases hab : a = b + 1
    · rw [hab]
    · exact Nat.le_trans (ih a (by omega) (by omega)) (hmono b (by omega))

theorem connPos_read (wells : Wells) (w : Nat) (h : w < wells.well_connpos.length) :
    wells.well_connpos[w]? = some (connPos wells w) := by
  unfold connPos
  rw [List.getD_eq_getElem _ _ h, List.getElem?_eq_getElem h]

/-- Effect of the well pass: with wells present and inputs that are ready for it, it runs
without a fault, changes only `wellperf_A_` and `wellperf_phasemob_`, gives them their full
lengths and fills the entries of every perforation of every well. -/
theorem computeWellDynamicData_spec (K : TpfaFixed) (dt : ℚ) (state : BlackoilState)
    (ws : WellState) (d : TpfaData) (wells : Wells) (hwells : K.wells_ = some wells)
    (hready : WellPassReady K wells d) :
    ∃ wa wm, computeWellDynamicData K dt state ws d
        = .ok { d with wellperf_A_ := wa, wellperf_phasemob_ := wm } ∧
      wa.length = connPos wells wells.number_of_wells * K.props_.numPhases * K.props_.numPhases ∧
      wm.length = connPos wells wells.number_of_wells * K.props_.numPhases ∧
      ∀ w, w < wells.number_of_wells → ∀ j, connPos wells w ≤ j → j < connPos wells (w + 1) →
        PerfFilled K wells d wa wm w j := by
  obtain ⟨hcp, hty, hmono, hwc, hcells, hA, hM⟩ := hready
  have hmono' := connPos_mono wells hmono
  have hnperf : readAt wells.well_connpos (wells.number_of_wells : Int)
      = .ok (connPos wells wells.number_of_wells) :=
    readAt_natCast (connPos_read wells _ hcp)
  have key := forRange_spec 0 wells.number_of_wells
    (fun w d => do
      let t ← readAt wells.type w
      let is_injector := decide (t = WellType.INJECTOR)
      let lo ← readAt wells.well_connpos w
      let hi ← readAt wells.well_connpos ((w : Int) + 1)
      forRange lo hi (wellPerfBody K.props_.numPhases wells is_injector) d)
    (fun i t => ∃ wa wm, t = { d with wellperf_A_ := wa, wellperf_phasemob_ := wm } ∧
      wa.length = connPos wells wells.number_of_wells * K.props_.numPhases * K.props_.numPhases ∧
      wm.length = connPos wells wells.number_of_wells * K.props_.numPhases ∧
      ∀ w, w < i → ∀ j, connPos wells w ≤ j → j < connPos wells (w + 1) →
        PerfFilled K wells d wa wm w j)
    { d with
        wellperf_A_ := resize d.wellperf_A_
          (connPos wells wells.number_of_wells * K.props_.numPhases * K.props_.numPhases),
        wellperf_phasemob_ := resize d.wellperf_phasemob_
          (connPos wells wells.number_of_wells * K.props_.numPhases) }
    (Nat.zero_le _)
    ⟨_, _, rfl, length_resize _ _, length_resize _ _, fun _ h => absurd h (Nat.not_lt_zero _)⟩
    (by
      intro i t _ hi ⟨wa, wm, ht, hLa, hLm, hdone⟩
      subst ht
      have hity : i < wells.type.length := by omega
      have e1 : ((i : Int) + 1) = ((i + 1 : Nat) : Int) := by push_cast; ring
      have hle : connPos wells i ≤ connPos wells (i + 1) := hmono i hi
      have hinner := forRange_spec (connPos wells i) (connPos wells (i + 1))
        (wellPerfBody K.props_.numPhases wells (decide (wells.type[i] = WellType.INJECTOR)))
        (fun j0 t => ∃ wa wm, t = { d with wellperf_A_ := wa, wellperf_phasemob_ := wm } ∧
          wa.length = connPos wells wells.number_of_wells * K.props_.numPhases * K.props_.numPhases ∧
          wm.length = connPos wells wells.number_of_wells * K.props_.numPhases ∧
          (∀ w, w < i → ∀ j, connPos wells w ≤ j → j < connPos wells (w + 1) →
            PerfFilled K wells d wa wm w j) ∧
          (∀ j, connPos wells i ≤ j → j < j0 → PerfFilled K wells d wa wm i j))
        { d with wellperf_A_ := wa, wellperf_phasemob_ := wm } hle
        ⟨wa, wm, rfl, hLa, hLm, hdone, fun j h1 h2 => absurd h2 (by omega)⟩
        (by
          intro j0 t hlo hhi ⟨wa, wm, ht, hLa, hLm, hprev, hcur⟩
          subst ht
          have hj0 : j0 < connPos wells wells.number_of_wells :=
            Nat.lt_of_lt_of_le hhi (hmono' _ _ (by omega) (by omega))
          obtain ⟨hc0, hclt⟩ := hcells j0 hj0
          have hcast : (((perfCell wells j0).toNat : Nat) : Int) = perfCell wells j0 :=
            Int.toNat_of_nonneg hc0
          have hcn : (perfCell wells j0).toNat < K.grid_.number_of_cells := by omega
          have hcell : wells.well_cells[j0]? = some (((perfCell wells j0).toNat : Nat) : Int) := by
            rw [hcast]
            unfold perfCell
            rw [List.getD_eq_getElem _ _ (by omega), List.getElem?_eq_getElem (by omega)]
          obtain ⟨wa', wm', hrun, hLa', hLm', hanew, haold, hmnew, hmold⟩ :=
            wellPerfBody_spec K.props_.numPhases wells
              (decide (wells.type[i] = WellType.INJECTOR)) j0 (perfCell wells j0).toNat
              { d with wellperf_A_ := wa, wellperf_phasemob_ := wm } hcell
              (block_le (K.props_.numPhases * K.props_.numPhases) K.grid_.number_of_cells _ _ hcn
                (by rw [← Nat.mul_assoc]; exact hA))
              (block_le K.props_.numPhases K.grid_.number_of_cells _ _ hcn hM)
              (block_le (K.props_.numPhases * K.props_.numPhases)
                (connPos wells wells.number_of_wells) j0 wa.length hj0
                (by rw [← Nat.mul_assoc]; exact Nat.le_of_eq hLa.symm))
              (block_le K.props_.numPhases (connPos wells wells.number_of_wells) j0 wm.length hj0
                (Nat.le_of_eq hLm.symm))
          have hkeep : ∀ w j, j < j0 → PerfFilled K wells d wa wm w j →
              PerfFilled K wells d wa' wm' w j := by
            intro w j hj ⟨ha, hm⟩
            constructor
            · intro k hk
              rw [haold _ (Or.inl (block_lt _ j j0 k hj hk))]
              exact ha k hk
            · intro phase hphase
              rw [hmold _ (Or.inl (block_lt _ j j0 phase hj hphase))]
              exact hm phase hphase
          refine ⟨_, hrun, wa', wm', rfl, hLa'.trans hLa, hLm'.trans hLm, ?_, ?_⟩
          · intro w hw j hj1 hj2
            have : connPos wells (w + 1) ≤ connPos wells i := hmono' _ _ (by omega) (by omega)
            exact hkeep w j (by omega) (hprev w hw j hj1 hj2)
          · intro j hj1 hj2
            by_cases hjj : j = j0
            · subst hjj
              refine ⟨hanew, ?_⟩
              intro phase hphase
              rw [hmnew phase hphase]
              have hty' : wells.type[i]? = some wells.type[i] := List.getElem?_eq_getElem hity
              by_cases hinj : wells.type[i] = WellType.INJECTOR
              · simp [hty', hinj]
              · simp [hty', hinj]
            · exact hkeep i j (by omega) (hcur j hj1 (by omega)))
      obtain ⟨t, hrun, wa', wm', ht, hLa', hLm', hprev, hcur⟩ := hinner
      subst ht
      refine ⟨_, ?_, wa', wm', rfl, hLa', hLm', ?_⟩
      · dsimp only
        rw [readAt_getElem _ _ hity, bind_ok_eq,
          readAt_natCast (connPos_read wells i (by omega)), bind_ok_eq, e1,
          readAt_natCast (connPos_read wells (i + 1) (by omega)), bind_ok_eq]
        exact hrun
      · intro w hw j hj1 hj2
        by_cases hwi : w = i
        · subst hwi
          exact hcur j hj1 hj2
        · exact hprev w (by omega) j hj1 hj2)
  obtain ⟨t, hrun, wa, wm, ht, hLa, hLm, hdone⟩ := key
  subst ht
  refine ⟨wa, wm, ?_, hLa, hLm, hdone⟩
  simp only [computeWellDynamicData, hwells, pure_eq_ok, bind_ok_eq, hnperf]
  exact hrun

theorem ok_of_toBool {α : Type} {x : Except Fault α} (h : x.toBool = true) : ∃ a, x = .ok a := by
  cases x with
  | error e => exact absurd h (by simp [Except.toBool])
  | ok a => exact ⟨a, rfl⟩

/-! ## The linear system of the Newton step -/

theorem dot_neg (row x : List ℚ) : dot row (x.map (fun v => -v)) = - dot row x := by
  unfold dot
  induction row generalizing x with
  | nil => simp
  | cons a row ih =>
    cases x with
    | nil => simp
    | cons b x =>
      simp only [List.map_cons, List.zipWith_cons_cons, List.sum_cons, ih]
      ring

theorem matVec_neg (J : List (List ℚ)) (x : List ℚ) :
    matVec J (x.map (fun v => -v)) = (matVec J x).map (fun v => -v) := by
  unfold matVec
  simp [dot_neg]

theorem stdCopy_all (x dst : List ℚ) (h : x.length = dst.length) :
    stdCopy x 0 x.length dst = .ok x := by
  unfold stdCopy
  rw [if_pos ⟨Nat.zero_le _, le_refl _, by omega⟩]
  simp [h]

/-! ## The polymer properties -/

/-- Without derivatives `effectiveMobilitiesBoth` can only return cleared vectors. -/
theorem effectiveMobilitiesBoth_false {R : Type} [LinearOrderedField R]
    (P : PolymerProperties R) (c cmax : R) (visc relperm : List R)
    (drelperm_ds : Option (List R)) (mob dmob_ds : List R) (dmobwat_dc : R)
    (r : List R × List R × R)
    (h : P.effectiveMobilitiesBoth c cmax visc relperm drelperm_ds mob dmob_ds dmobwat_dc false
      = .ok r) : r = ([], [], dmobwat_dc) := by
  simp only [PolymerProperties.effectiveMobilitiesBoth, Bool.false_eq_true, if_false] at h
  obtain ⟨v, _, h⟩ := bind_ok_inv h
  obtain ⟨mu_w_eff, _, h⟩ := bind_ok_inv h
  split at h
  swap
  · exact absurd h (by simp)
  obtain ⟨mu_w_eff_dc, _, h⟩ := bind_ok_inv h
  obtain ⟨e, _, h⟩ := bind_ok_inv h
  obtain ⟨visc_eff0, _, h⟩ := bind_ok_inv h
  obtain ⟨mob1, _, h⟩ := bind_ok_inv h
  obtain ⟨relperm1, _, h⟩ := bind_ok_inv h
  obtain ⟨visc_eff1, _, h⟩ := bind_ok_inv h
  obtain ⟨mob2, _, h⟩ := bind_ok_inv h
  simp only [pure_eq_ok, Except.ok.injEq] at h
  exact h.symm

/-- Reading back the two entries written at the front of a buffer. -/
theorem set_front_two {α : Type} (l : List α) (a b : α) (h : 2 ≤ l.length) :
    ((l.set 0 a).set 1 b)[0]? = some a ∧ ((l.set 0 a).set 1 b)[1]? = some b := by
  match l, h with
  | _ :: _ :: _, _ => simp

/-! ## The Newton driver -/

theorem solveLoop_false_stuck (K : TpfaFixed) (dt : ℚ) (r : Run)
    (hfix : newtonIteration K dt r = .ok r) :
    ∀ fuel, solveLoop K dt fuel false r = none := by
  intro fuel
  induction fuel with
  | zero => simp [solveLoop]
  | succ n ih => simp [solveLoop, hfix, ih]

theorem solveLoop_false_cases (K : TpfaFixed) (dt : ℚ) :
    ∀ (fuel : Nat) (r : Run), solveLoop K dt fuel false r = none ∨
      ∃ e, solveLoop K dt fuel false r = some (.error e) := by
  intro fuel
  induction fuel with
  | zero => intro r; left; simp [solveLoop]
  | succ n ih =>
    intro r
    cases h : newtonIteration K dt r with
    | error e => right; exact ⟨e, by simp [solveLoop, h]⟩
    | ok r' =>
      rcases ih r' with h1 | ⟨e, h1⟩
      · left; simp [solveLoop, h, h1]
      · right; exact ⟨e, by simp [solveLoop, h, h1]⟩

/-- C1 (the code departs from the claim): one Newton iteration on the two-cell run with cell
pressures `1, 1`, well pressure `5` and increment `2, 3, 4` leaves the cell pressures `2, 3` and
the well pressure `4`: the increment overwrites the pressures, where adding it would give
`3, 4` and `9`. -/
theorem newton_update_overwrites :
    (newtonIteration (twoCellFixed 1 [2] none [-2, -3, -4] 1) 1
        (twoCellRunAssembled [-2, -3, -4])).map
      (fun r => (r.data.pressure_increment_, r.state.pressure, r.well_state.bhp))
      = .ok ([2, 3, 4], [2, 3], [4]) ∧
    (twoCellRunAssembled [-2, -3, -4]).state.pressure = [1, 1] ∧
    (twoCellRunAssembled [-2, -3, -4]).well_state.bhp = [5] := by
  decide!

/-- C2 (the code departs from the claim): `solve` never returns normally, whatever the
residual and the increment are: for every solver, input and number of loop passes it is either
still in its loop or has stopped with a fault. -/
theorem solve_never_returns (K : TpfaFixed) (fuel : Nat) (dt : ℚ) (r : Run) :
    solve K fuel dt r = none ∨ ∃ e, solve K fuel dt r = some (.error e) := by
  unfold solve
  cases h1 : computePerSolveDynamicData K dt r.state r.well_state r.data with
  | error e => right; exact ⟨e, rfl⟩
  | ok d =>
    dsimp only
    cases h2 : computePerIterationDynamicData K dt r.state r.well_state d with
    | error e => right; exact ⟨e, rfl⟩
    | ok d' => exact solveLoop_false_cases K dt fuel _

/-- C3 (the code departs from the claim): with `maxiter = 1` the two-cell run neither returns
nor reports a failure; after any number of loop passes `solve` is still iterating. -/
theorem solve_ignores_maxiter (fuel : Nat) :
    (twoCellFixed 1 [2] none [-2, -3, -4] 1).maxiter_ = 1 ∧
    solve (twoCellFixed 1 [2] none [-2, -3, -4] 1) fuel 1 twoCellRun = none := by
  refine ⟨rfl, ?_⟩
  have hinit : solve (twoCellFixed 1 [2] none [-2, -3, -4] 1) fuel 1 twoCellRun
      = solveLoop (twoCellFixed 1 [2] none [-2, -3, -4] 1) 1 fuel false
          (twoCellRunAssembled [-2, -3, -4]) := by
    have h1 : computePerSolveDynamicData (twoCellFixed 1 [2] none [-2, -3, -4] 1) 1
        twoCellRun.state twoCellRun.well_state twoCellRun.data
        = .ok { freshData with wellperf_gpot_ := [0] } := by decide!
    have h2 : computePerIterationDynamicData (twoCellFixed 1 [2] none [-2, -3, -4] 1) 1
        twoCellRun.state twoCellRun.well_state { freshData with wellperf_gpot_ := [0] }
        = .ok { (twoCellRunAssembled [0, 0, 0]).data with
                  h_ := { J := [[1, 0, 0], [0, 1, 0], [0, 0, 1]], F := [0, 0, 0] } } := by decide!
    unfold solve
    rw [h1]
    simp only [h2]
    rfl
  rw [hinit]
  cases fuel with
  | zero => simp [solveLoop]
  | succ n =>
    have hstep : newtonIteration (twoCellFixed 1 [2] none [-2, -3, -4] 1) 1
        (twoCellRunAssembled [-2, -3, -4]) = .ok twoCellRunIterated := by decide!
    have hfix : newtonIteration (twoCellFixed 1 [2] none [-2, -3, -4] 1) 1 twoCellRunIterated
        = .ok twoCellRunIterated := by decide!
    simp [solveLoop, hstep, solveLoop_false_stuck _ _ _ hfix n]

/-! ## The face pass -/

theorem faceUpwindCell_of_tie (K : TpfaFixed) (state : BlackoilState) (cell_A : List ℚ)
    (grav : ℚ) (face : Nat)
    (htie : ∀ phase, phase < K.props_.numPhases →
      facePot K state cell_A grav face 0 phase = facePot K state cell_A grav face 1 phase)
    (h0 : 0 ≤ faceCell K face 0) (h1 : 0 ≤ faceCell K face 1) :
    faceUpwindCell K state cell_A grav face = faceCell K face 0 := by
  have heq : facePot0 K state cell_A grav face = facePot1 K state face := by
    unfold facePot0 facePot1
    symm
    apply replicate_eq_map_range
    intro i hi
    have := htie i hi
    simpa [facePot] using this
  unfold faceUpwindCell upwindCell
  rw [heq, lexLess_irrefl]
  simp [h0, h1]

theorem faceUpwindCell_of_first_difference (K : TpfaFixed) (state : BlackoilState)
    (cell_A : List ℚ) (grav : ℚ) (face p : Nat) (hp : p < K.props_.numPhases)
    (hties : ∀ phase, phase < p →
      facePot K state cell_A grav face 0 phase = facePot K state cell_A grav face 1 phase)
    (hdiff : facePot K state cell_A grav face 0 p ≠ facePot K state cell_A grav face 1 p)
    (h0 : 0 ≤ faceCell K face 0) (h1 : 0 ≤ faceCell K face 1) :
    faceUpwindCell K state cell_A grav face
      = if facePot K state cell_A grav face 0 p < facePot K state cell_A grav face 1 p
        then faceCell K face 1 else faceCell K face 0 := by
  have hlex := lexLess_first_difference (facePot0 K state cell_A grav face)
    (facePot1 K state face) p (by simp [facePot0, facePot1]) (by simpa [facePot0] using hp)
    (fun i hi => by
      rw [facePot0_getD K state cell_A grav face i (by omega),
        facePot1_getD K state cell_A grav face i (by omega)]
      exact hties i hi)
    (by
      rw [facePot0_getD K state cell_A grav face p hp, facePot1_getD K state cell_A grav face p hp]
      exact hdiff)
  rw [facePot0_getD K state cell_A grav face p hp,
    facePot1_getD K state cell_A grav face p hp] at hlex
  unfold faceUpwindCell upwindCell
  rw [hlex]
  simp [h0, h1]

/-- C4 (the code departs from the claim): on the two-cell reservoir with two phases, cell
mobilities `10, 11` (cell 0) and `20, 21` (cell 1) and potentials `pot[0] = [1, 5]`,
`pot[1] = [3, 3]`, the face pass takes both face mobilities from cell 1 (`20, 21`).  The
comparison `pot[0] < pot[1]` is between the two vectors, so phase 0 decides for every phase;
selecting per phase would take phase 1 from cell 0 (`11`), since `5 < 3` is false. -/
theorem upwind_choice_is_not_per_phase :
    facePot0 twoPhaseFixed (twoCellState 2 6 3)
      (afterCellPass twoPhaseFixed (twoCellState 2 6 3)).cell_A_
      1 0 = [1, 5] ∧
    facePot1 twoPhaseFixed (twoCellState 2 6 3) 0 = [3, 3] ∧
    (afterCellPass twoPhaseFixed
      (twoCellState 2 6 3)).cell_phasemob_ = [10, 11, 20, 21] ∧
    (computeFaceDynamicData twoPhaseFixed 1
        (twoCellState 2 6 3) { bhp := [5] }
        (afterCellPass twoPhaseFixed
          (twoCellState 2 6 3))).map (fun d => d.face_phasemob_) = .ok [20, 21] := by
  decide!

/-- C5, counterexample: on the single-phase two-cell reservoir without gravity and with cell
pressures `1` and `2`, side 0 has the lower potential, yet the face mobility is that of cell 1
(`20`), not that of cell 0 (`10`). -/
theorem upwind_lower_potential_counterexample :
    facePot noGravFixed (twoCellState 1 1 2)
      (afterCellPass noGravFixed (twoCellState 1 1 2)).cell_A_ 0 0 0 0
      = 1 ∧
    facePot noGravFixed (twoCellState 1 1 2)
      (afterCellPass noGravFixed (twoCellState 1 1 2)).cell_A_ 0 0 1 0
      = 2 ∧
    (afterCellPass noGravFixed (twoCellState 1 1 2)).cell_phasemob_
      = [10, 20] ∧
    (computeFaceDynamicData noGravFixed 1 (twoCellState 1 1 2)
        { bhp := [5] }
        (afterCellPass noGravFixed (twoCellState 1 1 2))).map
      (fun d => d.face_phasemob_) = .ok [20] := by
  decide!

/-- C5, amended: for a face with two existing neighbours and a phase `p` whose two side
potentials differ while those of all earlier phases are equal (always so for phase 0, hence
for every single-phase run), the face pass takes the face's mobility and row `p` of `A` from
the neighbour with the higher potential: from side 1 if `pot[0][p] < pot[1][p]`, from side 0
otherwise. -/
theorem upwind_cell_has_higher_potential (K : TpfaFixed) (dt : ℚ) (state : BlackoilState)
    (ws : WellState) (d : TpfaData) (grav : ℚ) (hgrav : gravComponent K = .ok grav)
    (hwf : FacePassReady K state d) (face : Nat) (hface : face < K.grid_.number_of_faces)
    (h0 : 0 ≤ faceCell K face 0) (h1 : 0 ≤ faceCell K face 1)
    (p : Nat) (hp : p < K.props_.numPhases)
    (hties : ∀ phase, phase < p →
      facePot K state d.cell_A_ grav face 0 phase = facePot K state d.cell_A_ grav face 1 phase)
    (hdiff : facePot K state d.cell_A_ grav face 0 p ≠ facePot K state d.cell_A_ grav face 1 p) :
    ∃ d', computeFaceDynamicData K dt state ws d = .ok d' ∧
      d'.face_phasemob_.length = K.grid_.number_of_faces * K.props_.numPhases ∧
      d'.face_A_.length = K.grid_.number_of_faces * K.props_.numPhases * K.props_.numPhases ∧
      UpwindFrom K d d' face p
        (if facePot K state d.cell_A_ grav face 0 p < facePot K state d.cell_A_ grav face 1 p
          then faceCell K face 1 else faceCell K face 0).toNat := by
  obtain ⟨d', hrun, hLa, hLm, _, hall⟩ := computeFaceDynamicData_upwind K dt state ws d grav hgrav hwf
  refine ⟨d', hrun, hLm, hLa, ?_⟩
  rw [← faceUpwindCell_of_first_difference K state d.cell_A_ grav face p hp hties hdiff h0 h1]
  exact (hall face hface p hp).2

/-- C7: for a face with two existing neighbours whose side potentials are equal for every
phase, the face pass runs without a fault and takes the face's mobility and row of `A` from
side 0, the cell `face_cells[2*face]`, for every phase. -/
theorem upwind_tie_goes_to_side0 (K : TpfaFixed) (dt : ℚ) (state : BlackoilState)
    (ws : WellState) (d : TpfaData) (grav : ℚ) (hgrav : gravComponent K = .ok grav)
    (hwf : FacePassReady K state d) (face : Nat) (hface : face < K.grid_.number_of_faces)
    (h0 : 0 ≤ faceCell K face 0) (h1 : 0 ≤ faceCell K face 1)
    (htie : ∀ phase, phase < K.props_.numPhases →
      facePot K state d.cell_A_ grav face 0 phase = facePot K state d.cell_A_ grav face 1 phase) :
    ∃ d', computeFaceDynamicData K dt state ws d = .ok d' ∧
      d'.face_phasemob_.length = K.grid_.number_of_faces * K.props_.numPhases ∧
      d'.face_A_.length = K.grid_.number_of_faces * K.props_.numPhases * K.props_.numPhases ∧
      K.grid_.face_cells[2 * face]? = some (faceCell K face 0) ∧
      ∀ phase, phase < K.props_.numPhases →
        UpwindFrom K d d' face phase (faceCell K face 0).toNat := by
  obtain ⟨d', hrun, hLa, hLm, _, hall⟩ := computeFaceDynamicData_upwind K dt state ws d grav hgrav hwf
  refine ⟨d', hrun, hLm, hLa, ?_, ?_⟩
  · have := faceCell_read K face 0 (by have := hwf.2.1; omega)
    simpa using this
  · intro phase hphase
    rw [← faceUpwindCell_of_tie K state d.cell_A_ grav face htie h0 h1]
    exact (hall face hface phase hphase).2

/-- C8: the face pass runs without a fault on inputs that are ready for it, and for every face
and phase `face_gravcap_[np*face + phase]` is the gravity contribution of side 0 minus that of
side 1, where the contribution of a side is `density * (face_depth - cell_depth)` for an
existing neighbour and a nonzero vertical gravity component, and `0` for a boundary side or a
zero vertical gravity component. -/
theorem face_gravcap_is_side0_minus_side1 (K : TpfaFixed) (dt : ℚ) (state : BlackoilState)
    (ws : WellState) (d : TpfaData) (grav : ℚ) (hgrav : gravComponent K = .ok grav)
    (hwf : FacePassReady K state d) :
    ∃ d', computeFaceDynamicData K dt state ws d = .ok d' ∧
      ∀ face, face < K.grid_.number_of_faces → ∀ phase, phase < K.props_.numPhases →
        d'.face_gravcap_[K.props_.numPhases * face + phase]?
          = some (sideGravcontrib K d.cell_A_ grav face (faceCell K face 0) phase
              - sideGravcontrib K d.cell_A_ grav face (faceCell K face 1) phase) ∧
        ∀ side, side < 2 →
          (0 ≤ faceCell K face side → grav ≠ 0 →
            sideGravcontrib K d.cell_A_ grav face (faceCell K face side) phase
              = K.props_.density
                  (cellBlock K.props_.numPhases d.cell_A_ (faceCell K face side).toNat) phase
                * (faceDepth K face - cellDepth K (faceCell K face side).toNat)) ∧
          (faceCell K face side < 0 ∨ grav = 0 →
            sideGravcontrib K d.cell_A_ grav face (faceCell K face side) phase = 0) := by
  obtain ⟨d', hrun, _, _, _, hall⟩ := computeFaceDynamicData_upwind K dt state ws d grav hgrav hwf
  refine ⟨d', hrun, ?_⟩
  intro face hface phase hphase
  refine ⟨(hall face hface phase hphase).1, ?_⟩
  intro side _
  constructor
  · intro hc hg
    simp [sideGravcontrib, hc, hg]
  · intro h
    rcases h with h | h
    · have : ¬ (0 ≤ faceCell K face side) := by omega
      simp [sideGravcontrib, this]
    · simp [sideGravcontrib, h]

theorem gravComponent_zero (K : TpfaFixed)
    (hg : K.gravity_ = none ∨
      ∃ g, K.gravity_ = some g ∧ readAt g ((K.grid_.dimensions : Int) - 1) = .ok 0) :
    gravComponent K = .ok 0 := by
  unfold gravComponent
  rcases hg with h | ⟨g, h, hz⟩
  · rw [h]
  · rw [h]; exact hz

theorem faceBody_withDensity (K : TpfaFixed) (rho : List ℚ → Nat → ℚ) (state : BlackoilState) :
    faceBody (withDensity K rho) state 0 = faceBody K state 0 := by
  funext face d
  simp [faceBody, faceSide, withDensity]

theorem index_split (np nf i : Nat) (h : i < nf * np) :
    i / np < nf ∧ i % np < np ∧ np * (i / np) + i % np = i := by
  have hpos : 0 < np := by
    rcases Nat.eq_zero_or_pos np with h0 | h0
    · subst h0; simp at h
    · exact h0
  refine ⟨?_, Nat.mod_lt _ hpos, Nat.div_add_mod i np⟩
  exact (Nat.div_lt_iff_lt_mul hpos).mpr h

/-- C6, counterexample: on the single-phase two-cell reservoir with gravity, cell pressures
`2` and `1` and gravity contributions `0` (side 0) and `2` (side 1), the sum
`pressure[0] + gravcontrib[0] = 2` is not below `pressure[1] = 1`, yet the face mobility is that
of cell 1 (`20`), not that of cell 0 (`10`): the value of `gravcontrib[1]` decides. -/
theorem upwind_potential_counterexample :
    sidePressure (twoCellState 1 2 1) 0 (faceCell gravFixed 0 0) = 2 ∧
    sideGravcontrib gravFixed (afterCellPass gravFixed (twoCellState 1 2 1)).cell_A_ 1 0
      (faceCell gravFixed 0 0) 0 = 0 ∧
    sideGravcontrib gravFixed (afterCellPass gravFixed (twoCellState 1 2 1)).cell_A_ 1 0
      (faceCell gravFixed 0 1) 0 = 2 ∧
    sidePressure (twoCellState 1 2 1) 0 (faceCell gravFixed 0 1) = 1 ∧
    (afterCellPass gravFixed (twoCellState 1 2 1)).cell_phasemob_ = [10, 20] ∧
    (computeFaceDynamicData gravFixed 1 (twoCellState 1 2 1) { bhp := [5] }
        (afterCellPass gravFixed (twoCellState 1 2 1))).map
      (fun d => d.face_phasemob_) = .ok [20] := by
  decide!

/-- C6, amended: the potentials compared for upwinding are
`pot[0][phase] = pressure[0] + (gravcontrib[0][phase] - gravcontrib[1][phase])` and
`pot[1][phase] = pressure[1]`; for a single-phase face with two existing neighbours the upwind
cell is side 1 exactly when `pressure[0] + (gravcontrib[0] - gravcontrib[1]) < pressure[1]`, and
side 0 otherwise. -/
theorem upwind_potential_includes_both_contributions (K : TpfaFixed) (dt : ℚ)
    (state : BlackoilState) (ws : WellState) (d : TpfaData) (grav : ℚ)
    (hgrav : gravComponent K = .ok grav) (hwf : FacePassReady K state d)
    (face : Nat) (hface : face < K.grid_.number_of_faces)
    (h0 : 0 ≤ faceCell K face 0) (h1 : 0 ≤ faceCell K face 1) :
    (∀ l : PotLocals, l.pot0.length = K.props_.numPhases → l.pot1.length = K.props_.numPhases →
      K.props_.numPhases * face + K.props_.numPhases ≤ l.face_gravcap_.length →
      ∃ l', facePotentials K.props_.numPhases face
          (state.pressure.getD (faceCell K face 0).toNat 0)
          (state.pressure.getD (faceCell K face 1).toNat 0)
          ((List.range K.props_.numPhases).map
            (sideGravcontrib K d.cell_A_ grav face (faceCell K face 0)))
          ((List.range K.props_.numPhases).map
            (sideGravcontrib K d.cell_A_ grav face (faceCell K face 1))) l = .ok l' ∧
        ∀ phase, phase < K.props_.numPhases →
          l'.pot0[phase]? = some (state.pressure.getD (faceCell K face 0).toNat 0
            + (sideGravcontrib K d.cell_A_ grav face (faceCell K face 0) phase
                - sideGravcontrib K d.cell_A_ grav face (faceCell K face 1) phase)) ∧
          l'.pot1[phase]? = some (state.pressure.getD (faceCell K face 1).toNat 0)) ∧
    (K.props_.numPhases = 1 →
      ∃ d', computeFaceDynamicData K dt state ws d = .ok d' ∧
        d'.face_phasemob_.length = K.grid_.number_of_faces ∧
        d'.face_A_.length = K.grid_.number_of_faces ∧
        UpwindFrom K d d' face 0
          (if state.pressure.getD (faceCell K face 0).toNat 0
              + (sideGravcontrib K d.cell_A_ grav face (faceCell K face 0) 0
                  - sideGravcontrib K d.cell_A_ grav face (faceCell K face 1) 0)
              < state.pressure.getD (faceCell K face 1).toNat 0
            then faceCell K face 1 else faceCell K face 0).toNat) := by
  constructor
  · intro l hl0 hl1 hlen
    obtain ⟨l', hrun, _, _, _, hp0, hp1⟩ := facePotentials_spec K.props_.numPhases face
      (state.pressure.getD (faceCell K face 0).toNat 0)
      (state.pressure.getD (faceCell K face 1).toNat 0)
      ((List.range K.props_.numPhases).map
        (sideGravcontrib K d.cell_A_ grav face (faceCell K face 0)))
      ((List.range K.props_.numPhases).map
        (sideGravcontrib K d.cell_A_ grav face (faceCell K face 1))) l
      (by simp) (by simp) hl0 hl1 hlen
    refine ⟨l', hrun, ?_⟩
    intro phase hphase
    rw [hp0, hp1]
    simp [hphase, List.getElem?_range hphase]
  · intro hnp
    obtain ⟨d', hrun, hLa, hLm, _, hall⟩ :=
      computeFaceDynamicData_upwind K dt state ws d grav hgrav hwf
    refine ⟨d', hrun, by rw [hLm, hnp]; simp, by rw [hLa, hnp]; simp, ?_⟩
    have hup := (hall face hface 0 (by omega)).2
    have hcell : faceUpwindCell K state d.cell_A_ grav face
        = if state.pressure.getD (faceCell K face 0).toNat 0
              + (sideGravcontrib K d.cell_A_ grav face (faceCell K face 0) 0
                  - sideGravcontrib K d.cell_A_ grav face (faceCell K face 1) 0)
              < state.pressure.getD (faceCell K face 1).toNat 0
          then faceCell K face 1 else faceCell K face 0 := by
      unfold faceUpwindCell upwindCell facePot0 facePot1
      rw [hnp]
      simp only [List.range_succ, List.range_zero, List.nil_append, List.map_cons, List.map_nil,
        List.replicate, lexLess, sidePressure, faceGravcap, h0, h1, if_true, and_self, ge_iff_le]
      by_cases hlt : state.pressure.getD (faceCell K face 0).toNat 0
              + (sideGravcontrib K d.cell_A_ grav face (faceCell K face 0) 0
                  - sideGravcontrib K d.cell_A_ grav face (faceCell K face 1) 0)
              < state.pressure.getD (faceCell K face 1).toNat 0
      · simp [hlt]
      · simp [hlt]
    rw [← hcell]
    exact hup

/-- C9 (the code departs from the claim): the constructor leaves `wellperf_gpot_` empty, and on
such a fresh solver for the two-cell reservoir with one perforation, one phase and vertical
gravity component `1`, `computeWellPotentials` writes `wellperf_gpot_[0]` into the still empty
vector: the write is out of bounds.  With the same wells and no gravity vector the vector is
resized to its `np*nperf = 1` entries. -/
theorem well_potentials_written_unsized :
    (construct twoCellGrid (constProps 1 [2]) (constKernels [0, 0, 0]) 1 1 1 (some [0, 1])
        (some (oneProducer 1))).map
      (fun x => x.2) = .ok freshData ∧
    freshData.wellperf_gpot_ = [] ∧
    gravComponent gravFixed = .ok 1 ∧
    computeWellPotentials gravFixed (twoCellState 1 2 1) freshData = .error .outOfBounds ∧
    (computeWellPotentials noGravFixed (twoCellState 1 2 1) freshData).map
      (fun d => d.wellperf_gpot_) = .ok [0] := by
  decide!

/-- C10: if the gravity vector is null or its last component is `0`, then
`computeWellPotentials` leaves `wellperf_gpot_` with `np*nperf` entries, all `0`, the face pass
leaves `face_gravcap_` with `nf*np` entries, all `0`, and both passes give the same result for
every density function of the property evaluator. -/
theorem zero_gravity_zero_terms (K : TpfaFixed) (dt : ℚ) (state : BlackoilState)
    (ws : WellState) (d : TpfaData) (wells : Wells) (nperf : Nat)
    (hg : K.gravity_ = none ∨
      ∃ g, K.gravity_ = some g ∧ readAt g ((K.grid_.dimensions : Int) - 1) = .ok 0)
    (hwells : K.wells_ = some wells)
    (hnperf : wells.well_connpos[wells.number_of_wells]? = some nperf)
    (hwf : FacePassReady K state d) :
    (∃ d', computeWellPotentials K state d = .ok d' ∧
      d'.wellperf_gpot_ = List.replicate (K.props_.numPhases * nperf) 0) ∧
    (∃ d', computeFaceDynamicData K dt state ws d = .ok d' ∧
      d'.face_gravcap_ = List.replicate (K.grid_.number_of_faces * K.props_.numPhases) 0) ∧
    (∀ rho : List ℚ → Nat → ℚ,
      computeWellPotentials (withDensity K rho) state d = computeWellPotentials K state d ∧
      computeFaceDynamicData (withDensity K rho) dt state ws d
        = computeFaceDynamicData K dt state ws d) := by
  have hgrav := gravComponent_zero K hg
  have hgrav' : ∀ rho, gravComponent (withDensity K rho) = .ok 0 := fun rho => hgrav
  refine ⟨?_, ?_, ?_⟩
  · refine ⟨{ d with wellperf_gpot_ := resize [] (K.props_.numPhases * nperf) }, ?_, ?_⟩
    · simp only [computeWellPotentials, hwells, readAt_natCast hnperf, hgrav, bind_ok_eq,
        if_true, pure_eq_ok]
    · simp [resize]
  · obtain ⟨d', hrun, _, _, hLg, hall⟩ :=
      computeFaceDynamicData_upwind K dt state ws d 0 hgrav hwf
    refine ⟨d', hrun, ?_⟩
    apply List.ext_getElem?
    intro i
    by_cases hi : i < K.grid_.number_of_faces * K.props_.numPhases
    · obtain ⟨h1, h2, h3⟩ := index_split K.props_.numPhases K.grid_.number_of_faces i hi
      have := (hall _ h1 _ h2).1
      rw [h3] at this
      rw [this]
      simp [faceGravcap, sideGravcontrib, hi]
    · rw [List.getElem?_eq_none (by omega), List.getElem?_eq_none (by simp; omega)]
  · intro rho
    constructor
    · have hw : (withDensity K rho).wells_ = some wells := hwells
      simp only [computeWellPotentials, hwells, hw, readAt_natCast hnperf, hgrav, hgrav' rho,
        bind_ok_eq, if_true, pure_eq_ok]
      rfl
    · simp only [computeFaceDynamicData, hgrav, hgrav' rho, bind_ok_eq]
      rw [faceBody_withDensity]
      rfl

/-! ## Construction and the null wells argument -/

/-- C14: on a grid whose `cell_facepos` table has its entry `number_of_cells`, construction
throws if and only if wells is non-null and its phase count differs from the property
evaluator's; with wells null, or with equal phase counts, construction succeeds. -/
theorem construct_throws_iff_phase_mismatch (grid : UnstructuredGrid)
    (props : BlackoilPropertiesInterface) (kernels : Kernels) (residual_tol change_tol : ℚ)
    (maxiter : Int) (gravity : Option (List ℚ)) (wells : Option Wells)
    (hgrid : grid.number_of_cells < grid.cell_facepos.length) :
    (construct grid props kernels residual_tol change_tol maxiter gravity wells = .error .thrown
      ↔ ∃ w, wells = some w ∧ w.number_of_phases ≠ props.numPhases) ∧
    ((wells = none ∨ ∃ w, wells = some w ∧ w.number_of_phases = props.numPhases) →
      ∃ x, construct grid props kernels residual_tol change_tol maxiter gravity wells = .ok x) := by
  have hread := readAt_getElem grid.cell_facepos grid.number_of_cells hgrid
  cases wells with
  | none =>
    constructor
    · constructor
      · intro h
        simp [construct, hread] at h
      · rintro ⟨w, hw, _⟩
        exact absurd hw (by simp)
    · intro _
      simp [construct, hread]
  | some w =>
    by_cases hph : w.number_of_phases = props.numPhases
    · constructor
      · constructor
        · intro h
          simp [construct, hread, hph] at h
        · rintro ⟨w', hw', hne⟩
          cases hw'
          exact absurd hph hne
      · intro _
        simp [construct, hread, hph]
    · constructor
      · constructor
        · intro _
          exact ⟨w, rfl, hph⟩
        · intro _
          simp [construct, hread, hph]
      · rintro (h | ⟨w', hw', heq⟩)
        · exact absurd h (by simp)
        · cases hw'
          exact absurd heq hph

/-- C15 (the code departs from the claim): a solver for the two-cell reservoir constructed with
`wells = NULL` has no well structure; `computeWellPotentials` returns at once, the cell pass
and the face pass run, but the well pass reads `wells_->number_of_wells` through the null
pointer, so `computePerIterationDynamicData` does not complete. -/
theorem null_wells_dereferenced_by_well_pass :
    (construct twoCellGrid (constProps 1 [2]) (constKernels [0, 0, 0]) 1 1 1 none none).map
      (fun x => (x.2, x.1.wells_.isNone)) = .ok (noWellsData, true) ∧
    noWellsFixed.wells_.isNone = true ∧
    computeWellPotentials noWellsFixed tieState noWellsData = .ok noWellsData ∧
    ((computeCellDynamicData noWellsFixed 1 tieState { bhp := [] } noWellsData >>=
        computeFaceDynamicData noWellsFixed 1 tieState { bhp := [] }).map
      (fun d => (d.cell_phasemob_, d.face_phasemob_))) = .ok ([10, 20], [10]) ∧
    ((computeCellDynamicData noWellsFixed 1 tieState { bhp := [] } noWellsData >>=
        computeFaceDynamicData noWellsFixed 1 tieState { bhp := [] }) >>=
      computeWellDynamicData noWellsFixed 1 tieState { bhp := [] }) = .error .nullPointer ∧
    computePerIterationDynamicData noWellsFixed 1 tieState { bhp := [] } noWellsData
      = .error .nullPointer := by
  decide!

/-! ## The face pass: copies and boundary faces -/

theorem faceUpwindCell_of_side0_only (K : TpfaFixed) (state : BlackoilState) (cell_A : List ℚ)
    (grav : ℚ) (face : Nat) (h0 : 0 ≤ faceCell K face 0) (h1 : faceCell K face 1 < 0) :
    faceUpwindCell K state cell_A grav face = faceCell K face 0 := by
  unfold faceUpwindCell upwindCell
  have : ¬ (faceCell K face 1 ≥ 0) := by omega
  simp [h0, this]

theorem faceUpwindCell_of_side1_only (K : TpfaFixed) (state : BlackoilState) (cell_A : List ℚ)
    (grav : ℚ) (face : Nat) (h0 : faceCell K face 0 < 0) :
    faceUpwindCell K state cell_A grav face = faceCell K face 1 := by
  unfold faceUpwindCell upwindCell
  have : ¬ (faceCell K face 0 ≥ 0) := by omega
  simp [this]

theorem faceSide_absent (K : TpfaFixed) (state : BlackoilState) (d : TpfaData) (grav : ℚ)
    (face : Nat) (c : Int) (hwf : FacePassReady K state d)
    (hface : face < K.grid_.number_of_faces) (hc : c < 0) :
    faceSide K state d grav face (faceDepth K face) c
      = .ok (state.facepressure.getD face 0, List.replicate K.props_.numPhases 0) := by
  obtain ⟨hdim, _, _, _, _, hccen, hp, hfp, hA, _⟩ := hwf
  rw [faceSide_spec K state d grav face c hdim (by omega) hface hccen hp hfp hA]
  have hneg : ¬ (0 ≤ c) := by omega
  congr 2
  · simp [sidePressure, hneg]
  · symm
    exact replicate_eq_map_range _ _ _ (fun i _ => by simp [sideGravcontrib, hneg])

/-- C17: the face pass runs without a fault on inputs that are ready for it, and for every face
and every phase `p` there is an adjacent cell `u` (one of the two `face_cells` entries of the
face, an existing cell) whose cached mobility is the face's mobility for `p` and whose row `p`
of the column-major matrix `A` is the face's row `p`, column by column. -/
theorem face_values_copied_from_adjacent_cell (K : TpfaFixed) (dt : ℚ) (state : BlackoilState)
    (ws : WellState) (d : TpfaData) (grav : ℚ) (hgrav : gravComponent K = .ok grav)
    (hwf : FacePassReady K state d) :
    ∃ d', computeFaceDynamicData K dt state ws d = .ok d' ∧
      d'.face_phasemob_.length = K.grid_.number_of_faces * K.props_.numPhases ∧
      d'.face_A_.length = K.grid_.number_of_faces * K.props_.numPhases * K.props_.numPhases ∧
      ∀ face, face < K.grid_.number_of_faces → ∀ p, p < K.props_.numPhases →
        ∃ u : Nat, ((u : Int) = faceCell K face 0 ∨ (u : Int) = faceCell K face 1) ∧
          u < K.grid_.number_of_cells ∧ UpwindFrom K d d' face p u := by
  obtain ⟨d', hrun, hLa, hLm, _, hall⟩ := computeFaceDynamicData_upwind K dt state ws d grav hgrav hwf
  refine ⟨d', hrun, hLm, hLa, ?_⟩
  intro face hface p hp
  have hnn : 0 ≤ faceUpwindCell K state d.cell_A_ grav face :=
    upwindCell_nonneg _ _ _ _ (hwf.2.2.2.1 face hface)
  have hcast : (((faceUpwindCell K state d.cell_A_ grav face).toNat : Nat) : Int)
      = faceUpwindCell K state d.cell_A_ grav face := Int.toNat_of_nonneg hnn
  have hlen := hwf.2.1
  have hc0 := faceCell_lt K face 0 hwf.2.2.1 (by omega)
  have hc1 := faceCell_lt K face 1 hwf.2.2.1 (by omega)
  refine ⟨(faceUpwindCell K state d.cell_A_ grav face).toNat, ?_, ?_, (hall face hface p hp).2⟩
  · rw [hcast]
    exact upwindCell_cases _ _ _ _
  · rcases upwindCell_cases (faceCell K face 0) (faceCell K face 1)
      (facePot0 K state d.cell_A_ grav face) (facePot1 K state face) with h | h
    · have : faceUpwindCell K state d.cell_A_ grav face = faceCell K face 0 := h
      omega
    · have : faceUpwindCell K state d.cell_A_ grav face = faceCell K face 1 := h
      omega

/-- C18: for a face with exactly one existing neighbour cell `c`, the face pass takes the
face's mobility and row of `A` from `c` for every phase, whatever the pressures are; the
absent side is evaluated with pressure `facepressure[face]` and gravity contribution `0`, and
`face_gravcap_` is the gravity contribution of `c` when `c` is on side 0 and its negative
when `c` is on side 1. -/
theorem boundary_face_uses_existing_neighbour (K : TpfaFixed) (dt : ℚ) (state : BlackoilState)
    (ws : WellState) (d : TpfaData) (grav : ℚ) (hgrav : gravComponent K = .ok grav)
    (hwf : FacePassReady K state d) (face : Nat) (hface : face < K.grid_.number_of_faces) :
    ∃ d', computeFaceDynamicData K dt state ws d = .ok d' ∧
      (0 ≤ faceCell K face 0 → faceCell K face 1 < 0 →
        faceSide K state d grav face (faceDepth K face) (faceCell K face 1)
          = .ok (state.facepressure.getD face 0, List.replicate K.props_.numPhases 0) ∧
        ∀ p, p < K.props_.numPhases →
          UpwindFrom K d d' face p (faceCell K face 0).toNat ∧
          d'.face_gravcap_[K.props_.numPhases * face + p]?
            = some (sideGravcontrib K d.cell_A_ grav face (faceCell K face 0) p)) ∧
      (faceCell K face 0 < 0 → 0 ≤ faceCell K face 1 →
        faceSide K state d grav face (faceDepth K face) (faceCell K face 0)
          = .ok (state.facepressure.getD face 0, List.replicate K.props_.numPhases 0) ∧
        ∀ p, p < K.props_.numPhases →
          UpwindFrom K d d' face p (faceCell K face 1).toNat ∧
          d'.face_gravcap_[K.props_.numPhases * face + p]?
            = some (-sideGravcontrib K d.cell_A_ grav face (faceCell K face 1) p)) := by
  obtain ⟨d', hrun, _, _, _, hall⟩ := computeFaceDynamicData_upwind K dt state ws d grav hgrav hwf
  refine ⟨d', hrun, ?_, ?_⟩
  · intro h0 h1
    refine ⟨faceSide_absent K state d grav face _ hwf hface h1, ?_⟩
    intro p hp
    obtain ⟨hg, hu⟩ := hall face hface p hp
    rw [faceUpwindCell_of_side0_only K state d.cell_A_ grav face h0 h1] at hu
    refine ⟨hu, ?_⟩
    rw [hg]
    have hneg : ¬ (0 ≤ faceCell K face 1) := by omega
    simp [faceGravcap, sideGravcontrib, hneg]
  · intro h0 _
    refine ⟨faceSide_absent K state d grav face _ hwf hface h0, ?_⟩
    intro p hp
    obtain ⟨hg, hu⟩ := hall face hface p hp
    rw [faceUpwindCell_of_side1_only K state d.cell_A_ grav face h0] at hu
    refine ⟨hu, ?_⟩
    rw [hg]
    have hneg : ¬ (0 ≤ faceCell K face 0) := by omega
    simp [faceGravcap, sideGravcontrib, hneg]

/-! ## The Newton driver: ordering of the unknowns and fixed well potentials -/

/-- C13: the constructor sizes the increment vector to `numCells + numWells` entries
(`numWells` taken as `0` when wells is null), `solveIncrement` keeps that length, and in a
Newton iteration that runs without a fault entry `i < numCells` of the increment goes to the
pressure of cell `i` and entry `numCells + w` to the bottom-hole pressure of well `w`; the
lengths of both state vectors are unchanged. -/
theorem increment_entries_go_to_cells_then_wells (grid : UnstructuredGrid)
    (props : BlackoilPropertiesInterface) (kernels : Kernels) (residual_tol change_tol : ℚ)
    (maxiter : Int) (gravity : Option (List ℚ)) (wells : Option Wells) :
    (∀ K d, construct grid props kernels residual_tol change_tol maxiter gravity wells = .ok (K, d) →
      d.pressure_increment_.length = grid.number_of_cells +
        (match wells with
         | some w => w.number_of_wells
         | none => 0)) ∧
    (∀ K d d', solveIncrement K d = .ok d' →
      d'.pressure_increment_.length = d.pressure_increment_.length) ∧
    (∀ K dt r r', newtonIteration K dt r = .ok r' →
      ∃ dI, solveIncrement K r.data = .ok dI ∧
        r'.state.pressure.length = r.state.pressure.length ∧
        r'.well_state.bhp.length = r.well_state.bhp.length ∧
        (∀ i, i < K.grid_.number_of_cells →
          r'.state.pressure[i]? = dI.pressure_increment_[i]?) ∧
        (∀ w, K.grid_.number_of_cells + w < dI.pressure_increment_.length →
          r'.well_state.bhp[w]? = dI.pressure_increment_[K.grid_.number_of_cells + w]?)) := by
  refine ⟨?_, ?_, ?_⟩
  · intro K d h
    simp only [construct] at h
    obtain ⟨nfp, -, h⟩ := bind_ok_inv h
    split at h
    · exact absurd h (by simp)
    · simp only [Except.ok.injEq, Prod.mk.injEq] at h
      rw [← h.2]
      exact length_resize _ _
  · intro K d d' h
    exact (solveIncrement_inv K d d' h).1
  · intro K dt r r' h
    simp only [newtonIteration] at h
    obtain ⟨dI, hI, h⟩ := bind_ok_inv h
    obtain ⟨p, hp, h⟩ := bind_ok_inv h
    obtain ⟨b, hb, h⟩ := bind_ok_inv h
    obtain ⟨d2, -, h⟩ := bind_ok_inv h
    simp only [pure_eq_ok, Except.ok.injEq] at h
    refine ⟨dI, hI, ?_, ?_, ?_, ?_⟩
    · rw [← h]; exact stdCopy_length hp
    · rw [← h]; exact stdCopy_length hb
    · intro i hi
      rw [← h]
      have := stdCopy_getElem? hp i (by omega)
      simpa using this
    · intro w hw
      rw [← h]
      exact stdCopy_getElem? hb w hw

/-- C16: the well gravity potentials are not touched by the per-iteration passes: whenever the
cell pass, the face pass, the well pass, their composition `computePerIterationDynamicData`
or a whole Newton iteration runs without a fault, from any solver data, state and well state,
`wellperf_gpot_` afterwards is what it was before. -/
theorem well_potentials_fixed_through_iterations (K : TpfaFixed) (dt : ℚ)
    (state : BlackoilState) (ws : WellState) (d : TpfaData) :
    (∀ d', computeCellDynamicData K dt state ws d = .ok d' →
      d'.wellperf_gpot_ = d.wellperf_gpot_) ∧
    (∀ d', computeFaceDynamicData K dt state ws d = .ok d' →
      d'.wellperf_gpot_ = d.wellperf_gpot_) ∧
    (∀ d', computeWellDynamicData K dt state ws d = .ok d' →
      d'.wellperf_gpot_ = d.wellperf_gpot_) ∧
    (∀ d', computePerIterationDynamicData K dt state ws d = .ok d' →
      d'.wellperf_gpot_ = d.wellperf_gpot_) ∧
    (∀ r', newtonIteration K dt { data := d, state := state, well_state := ws } = .ok r' →
      r'.data.wellperf_gpot_ = d.wellperf_gpot_) := by
  refine ⟨fun d' h => computeCellDynamicData_gpot K dt state ws d d' h,
    fun d' h => computeFaceDynamicData_gpot K dt state ws d d' h,
    fun d' h => computeWellDynamicData_gpot K dt state ws d d' h,
    fun d' h => computePerIterationDynamicData_gpot K dt state ws d d' h, ?_⟩
  intro r' h
  simp only [newtonIteration] at h
  obtain ⟨dI, hI, h⟩ := bind_ok_inv h
  obtain ⟨p, -, h⟩ := bind_ok_inv h
  obtain ⟨b, -, h⟩ := bind_ok_inv h
  obtain ⟨d2, h2, h⟩ := bind_ok_inv h
  simp only [pure_eq_ok, Except.ok.injEq] at h
  rw [← h]
  show d2.wellperf_gpot_ = d.wellperf_gpot_
  rw [computePerIterationDynamicData_gpot K dt _ _ dI d2 h2]
  exact (solveIncrement_inv K d dI hI).2

/-! ## The cell pass and the well pass -/

theorem perforation_facts (K : TpfaFixed) (wells : Wells) (d : TpfaData)
    (hready : WellPassReady K wells d) (w j : Nat) (hw : w < wells.number_of_wells)
    (hj : j < connPos wells (w + 1)) :
    wells.well_cells[j]? = some (((perfCell wells j).toNat : Nat) : Int) ∧
    (perfCell wells j).toNat < K.grid_.number_of_cells := by
  obtain ⟨_, _, hmono, hwc, hcells, _, _⟩ := hready
  have hj0 : j < connPos wells wells.number_of_wells :=
    Nat.lt_of_lt_of_le hj (connPos_mono wells hmono _ _ (by omega) (by omega))
  obtain ⟨hc0, hclt⟩ := hcells j hj0
  have hcast : (((perfCell wells j).toNat : Nat) : Int) = perfCell wells j :=
    Int.toNat_of_nonneg hc0
  refine ⟨?_, by omega⟩
  rw [hcast]
  unfold perfCell
  rw [List.getD_eq_getElem _ _ (by omega), List.getElem?_eq_getElem (by omega)]

/-- C19: the cell pass runs without a fault on inputs that are ready for it, and for every
cell `c` and phase `p` the entry `cell_phasemob_[np*c + p]` is the property evaluator's relative
permeability of that cell and phase (at the cell's saturations) divided by its viscosity of
that cell and phase (at the cell's pressure and surface volumes). -/
theorem cell_mobility_is_relperm_over_viscosity (K : TpfaFixed) (dt : ℚ) (state : BlackoilState)
    (ws : WellState) (d : TpfaData) (hready : CellPassReady K state) :
    ∃ d', computeCellDynamicData K dt state ws d = .ok d' ∧
      d'.cell_phasemob_.length = K.props_.numPhases * K.grid_.number_of_cells ∧
      ∀ c, c < K.grid_.number_of_cells → ∀ p, p < K.props_.numPhases →
        d'.cell_phasemob_[K.props_.numPhases * c + p]?
          = some (K.props_.relperm ((state.saturation.drop (K.props_.numPhases * c)).take
                    K.props_.numPhases) (c : Int) p
                / K.props_.viscosity (state.pressure.getD c 0)
                    ((state.surfacevol.drop (K.props_.numPhases * c)).take K.props_.numPhases)
                    (c : Int) p) := by
  obtain ⟨d', hrun, _, hlen, hall⟩ := computeCellDynamicData_spec K dt state ws d hready
  exact ⟨d', hrun, hlen, hall⟩

/-- C11: with wells present and inputs that are ready for it, the well pass runs without a
fault, and for every well of type `INJECTOR`, every perforation `j` of that well and every
phase, `wellperf_phasemob_[np*j + phase]` is the sum over all phases `q` of
`cell_phasemob_[np*well_cells[j] + q]`. -/
theorem injector_perforation_gets_total_mobility (K : TpfaFixed) (dt : ℚ)
    (state : BlackoilState) (ws : WellState) (d : TpfaData) (wells : Wells)
    (hwells : K.wells_ = some wells) (hready : WellPassReady K wells d) :
    ∃ d', computeWellDynamicData K dt state ws d = .ok d' ∧
      ∀ w, w < wells.number_of_wells → wells.type[w]? = some WellType.INJECTOR →
        ∀ j, connPos wells w ≤ j → j < connPos wells (w + 1) →
          ∃ c : Nat, wells.well_cells[j]? = some (c : Int) ∧
            K.props_.numPhases * c + K.props_.numPhases ≤ d.cell_phasemob_.length ∧
            ∀ phase, phase < K.props_.numPhases →
              d'.wellperf_phasemob_[K.props_.numPhases * j + phase]?
                = some (((List.range K.props_.numPhases).map
                    (fun q => d.cell_phasemob_.getD (K.props_.numPhases * c + q) 0)).sum) := by
  obtain ⟨wa, wm, hrun, _, _, hall⟩ := computeWellDynamicData_spec K dt state ws d wells hwells hready
  refine ⟨_, hrun, ?_⟩
  intro w hw hinj j hj1 hj2
  obtain ⟨hcell, hcn⟩ := perforation_facts K wells d hready w j hw hj2
  refine ⟨(perfCell wells j).toNat, hcell,
    block_le K.props_.numPhases K.grid_.number_of_cells _ _ hcn hready.2.2.2.2.2.2, ?_⟩
  intro phase hphase
  have := (hall w hw j hj1 hj2).2 phase hphase
  rw [if_pos hinj] at this
  exact this

/-- C12: with wells present and inputs that are ready for it, the well pass runs without a
fault, and for every producer, every perforation `j` of that well and every phase,
`wellperf_phasemob_[np*j + phase]` is `cell_phasemob_[np*well_cells[j] + phase]`, an entry of
the cell cache. -/
theorem producer_perforation_copies_cell_mobility (K : TpfaFixed) (dt : ℚ)
    (state : BlackoilState) (ws : WellState) (d : TpfaData) (wells : Wells)
    (hwells : K.wells_ = some wells) (hready : WellPassReady K wells d) :
    ∃ d', computeWellDynamicData K dt state ws d = .ok d' ∧
      ∀ w, w < wells.number_of_wells → wells.type[w]? = some WellType.PRODUCER →
        ∀ j, connPos wells w ≤ j → j < connPos wells (w + 1) →
          ∃ c : Nat, wells.well_cells[j]? = some (c : Int) ∧
            ∀ phase, phase < K.props_.numPhases →
              ∃ m, d.cell_phasemob_[K.props_.numPhases * c + phase]? = some m ∧
                d'.wellperf_phasemob_[K.props_.numPhases * j + phase]? = some m := by
  obtain ⟨wa, wm, hrun, _, _, hall⟩ := computeWellDynamicData_spec K dt state ws d wells hwells hready
  refine ⟨_, hrun, ?_⟩
  intro w hw hprod j hj1 hj2
  obtain ⟨hcell, hcn⟩ := perforation_facts K wells d hready w j hw hj2
  refine ⟨(perfCell wells j).toNat, hcell, ?_⟩
  intro phase hphase
  have hb := block_le K.props_.numPhases K.grid_.number_of_cells _ _ hcn hready.2.2.2.2.2.2
  have := (hall w hw j hj1 hj2).2 phase hphase
  have hne : ¬ (wells.type[w]? = some WellType.INJECTOR) := by
    rw [hprod]; simp
  rw [if_neg hne] at this
  exact ⟨_, getD_of_lt _ _ (by omega), this⟩

/-- C20: with wells present and inputs that are ready for it, the well pass runs without a
fault, and for every perforation `j` of every well, injector or producer, and every
`k < np*np`, `wellperf_A_[np*np*j + k]` is `cell_A_[np*np*well_cells[j] + k]`, an entry of the
cell cache. -/
theorem perforation_copies_cell_matrix (K : TpfaFixed) (dt : ℚ)
    (state : BlackoilState) (ws : WellState) (d : TpfaData) (wells : Wells)
    (hwells : K.wells_ = some wells) (hready : WellPassReady K wells d) :
    ∃ d', computeWellDynamicData K dt state ws d = .ok d' ∧
      ∀ w, w < wells.number_of_wells →
        ∀ j, connPos wells w ≤ j → j < connPos wells (w + 1) →
          ∃ c : Nat, wells.well_cells[j]? = some (c : Int) ∧
            ∀ k, k < K.props_.numPhases * K.props_.numPhases →
              ∃ a, d.cell_A_[K.props_.numPhases * K.props_.numPhases * c + k]? = some a ∧
                d'.wellperf_A_[K.props_.numPhases * K.props_.numPhases * j + k]? = some a := by
  obtain ⟨wa, wm, hrun, _, _, hall⟩ := computeWellDynamicData_spec K dt state ws d wells hwells hready
  refine ⟨_, hrun, ?_⟩
  intro w hw j hj1 hj2
  obtain ⟨hcell, hcn⟩ := perforation_facts K wells d hready w j hw hj2
  refine ⟨(perfCell wells j).toNat, hcell, ?_⟩
  intro k hk
  have hb := block_le (K.props_.numPhases * K.props_.numPhases) K.grid_.number_of_cells
    (perfCell wells j).toNat d.cell_A_.length hcn
    (by rw [← Nat.mul_assoc]; exact hready.2.2.2.2.2.1)
  have := (hall w hw j hj1 hj2).1 k hk
  refine ⟨_, getD_of_lt _ _ (by omega), ?_⟩
  rw [this]
  exact getD_of_lt _ _ (by omega)

/-! ## The Newton increment, the well potentials and the face pass revisited -/

/-- C21: when the linear solver fills the whole increment vector, `solveIncrement` returns
and leaves in `pressure_increment_` the entrywise negation of the solver's vector `x` for
`(J, F)`; hence if `x` solves `J * x = F` exactly, the increment solves
`J * increment = -F`. -/
theorem increment_is_negated_solution (K : TpfaFixed) (d : TpfaData)
    (hlen : (K.kernels_.linsolve d.h_.J d.h_.F).length = d.pressure_increment_.length) :
    ∃ d', solveIncrement K d = .ok d' ∧
      d'.pressure_increment_ = (K.kernels_.linsolve d.h_.J d.h_.F).map (fun v => -v) ∧
      (matVec d.h_.J (K.kernels_.linsolve d.h_.J d.h_.F) = d.h_.F →
        matVec d.h_.J d'.pressure_increment_ = d.h_.F.map (fun v => -v)) := by
  refine ⟨{ d with pressure_increment_ :=
      (K.kernels_.linsolve d.h_.J d.h_.F).map (fun v => -v) }, ?_, rfl, ?_⟩
  · simp only [solveIncrement, stdCopy_all _ _ hlen, bind_ok_eq, pure_eq_ok]
  · intro hx
    show matVec d.h_.J ((K.kernels_.linsolve d.h_.J d.h_.F).map (fun v => -v)) = _
    rw [matVec_neg, hx]

/-- C22 (the code departs from the claim): on the two-cell run with cell pressures `1, 1` and
well pressure `5`, the residual is exactly zero and the linear solver returns the exact
solution `x = 0`, yet one Newton iteration leaves the cell pressures `0, 0` and the well
pressure `0`: the zero increment overwrites the pressures instead of being added to them. -/
theorem newton_zero_residual_moves_pressures :
    (twoCellRunAssembled [0, 0, 0]).data.h_.F = [0, 0, 0] ∧
    (twoCellFixed 1 [2] none [0, 0, 0] 1).kernels_.linsolve
        (twoCellRunAssembled [0, 0, 0]).data.h_.J (twoCellRunAssembled [0, 0, 0]).data.h_.F
      = [0, 0, 0] ∧
    matVec (twoCellRunAssembled [0, 0, 0]).data.h_.J [0, 0, 0]
      = (twoCellRunAssembled [0, 0, 0]).data.h_.F ∧
    (twoCellRunAssembled [0, 0, 0]).state.pressure = [1, 1] ∧
    (twoCellRunAssembled [0, 0, 0]).well_state.bhp = [5] ∧
    (newtonIteration (twoCellFixed 1 [2] none [0, 0, 0] 1) 1
        (twoCellRunAssembled [0, 0, 0])).map
      (fun r => (r.data.pressure_increment_, r.state.pressure, r.well_state.bhp))
      = .ok ([0, 0, 0], [0, 0], [0]) := by
  decide!

/-- C23 (the code departs from the claim): the constructor leaves `wellperf_gpot_` of the
two-phase two-cell solver with two wells empty, where `np*nperf = 4` entries are required, and
with the vertical gravity component `1` nothing resizes it: `computeWellPotentials` stops at
its first write `wellperf_gpot_[0]`, which is out of bounds. -/
theorem well_potentials_cache_has_no_entries :
    (construct twoCellGrid (constProps 2 [5, 1]) (constKernels [0, 0, 0]) 1 1 1 (some [0, 1])
        (some (twoWells 2))).map
      (fun x => x.2) = .ok twoWellFresh ∧
    twoWellFresh.wellperf_gpot_.length = 0 ∧
    gravComponent twoWellFixed = .ok 1 ∧
    readAt (twoWells 2).well_connpos (twoWells 2).number_of_wells = .ok 2 ∧
    twoWellFixed.props_.numPhases * 2 = 4 ∧
    writeAt twoWellFresh.wellperf_gpot_ 0 (0 : ℚ) = .error .outOfBounds ∧
    computeWellPotentials twoWellFixed twoPhaseState twoWellFresh = .error .outOfBounds := by
  decide!

/-- C24 (the code departs from the claim): on the two-cell reservoir with phase density `2`,
vertical gravity component `g = 3`, face depth `1` and cell depths `1, 0`, the face pass stores
the gravity term `rho_1*(z_12 - z_1) - rho_2*(z_12 - z_2) = -2`, without the factor `g`, where
`rho_1*g*(z_12 - z_1) - rho_2*g*(z_12 - z_2)` is `-6`. -/
theorem face_gravcap_lacks_gravity_factor :
    gravComponent strongGravFixed = .ok 3 ∧
    faceCell strongGravFixed 0 0 = 0 ∧ faceCell strongGravFixed 0 1 = 1 ∧
    (computeFaceDynamicData strongGravFixed 1 gravState { bhp := [5] } strongGravData).map
      (fun d => d.face_gravcap_) = .ok [-2] ∧
    strongGravFixed.props_.density (cellBlock 1 strongGravData.cell_A_ 0) 0 * 3
        * (faceDepth strongGravFixed 0 - cellDepth strongGravFixed 0)
      - strongGravFixed.props_.density (cellBlock 1 strongGravData.cell_A_ 1) 0 * 3
        * (faceDepth strongGravFixed 0 - cellDepth strongGravFixed 1) = -6 := by
  decide!

/-- C25: on inputs that are ready for the face pass (every `face_cells` entry below
`numCells`, every face with an existing neighbour, the cell caches filled) the pass runs
without a fault, and for every face the chosen upwind cell is one of the face's two
`face_cells` entries and lies in `[0, numCells)`, so that for every phase the reads
`cell_phasemob_[np*upwindc + phase]` and `cell_A_[np*np*upwindc + phase + np*p2]` are in
bounds; and whenever both entries of a face are negative the chosen upwind index is negative. -/
theorem upwind_index_is_in_bounds (K : TpfaFixed) (dt : ℚ) (state : BlackoilState)
    (ws : WellState) (d : TpfaData) (grav : ℚ) (hgrav : gravComponent K = .ok grav)
    (hwf : FacePassReady K state d) :
    (∃ d', computeFaceDynamicData K dt state ws d = .ok d') ∧
    (∀ face, face < K.grid_.number_of_faces →
      (faceUpwindCell K state d.cell_A_ grav face = faceCell K face 0 ∨
        faceUpwindCell K state d.cell_A_ grav face = faceCell K face 1) ∧
      0 ≤ faceUpwindCell K state d.cell_A_ grav face ∧
      faceUpwindCell K state d.cell_A_ grav face < (K.grid_.number_of_cells : Int) ∧
      ∀ phase, phase < K.props_.numPhases →
        (∃ m, readAt d.cell_phasemob_ ((K.props_.numPhases : Int)
            * faceUpwindCell K state d.cell_A_ grav face + phase) = .ok m) ∧
        ∀ p2, p2 < K.props_.numPhases →
          ∃ a, readAt d.cell_A_ ((K.props_.numPhases : Int) * K.props_.numPhases
            * faceUpwindCell K state d.cell_A_ grav face + phase
            + (K.props_.numPhases : Int) * p2) = .ok a) ∧
    (∀ (c0 c1 : Int) (pot0 pot1 : List ℚ), c0 < 0 → c1 < 0 →
      upwindCell c0 c1 pot0 pot1 < 0) := by
  obtain ⟨h1, hlen, hall, hex, _, _, _, _, hA, hM⟩ := hwf
  refine ⟨?_, ?_, ?_⟩
  · obtain ⟨fa, fm, fg, hrun, _⟩ := computeFaceDynamicData_spec K dt state ws d grav hgrav
      ⟨h1, hlen, hall, hex, by assumption, by assumption, by assumption, by assumption, hA, hM⟩
    exact ⟨_, hrun⟩
  · intro face hface
    have hcases := upwindCell_cases (faceCell K face 0) (faceCell K face 1)
      (facePot0 K state d.cell_A_ grav face) (facePot1 K state face)
    have hnn := upwindCell_nonneg (faceCell K face 0) (faceCell K face 1)
      (facePot0 K state d.cell_A_ grav face) (facePot1 K state face) (hex face hface)
    have hlt0 := faceCell_lt K face 0 hall (by omega)
    have hlt1 := faceCell_lt K face 1 hall (by omega)
    have hlt : faceUpwindCell K state d.cell_A_ grav face < (K.grid_.number_of_cells : Int) := by
      unfold faceUpwindCell
      rcases hcases with h | h <;> rw [h] <;> assumption
    refine ⟨hcases, hnn, hlt, ?_⟩
    intro phase hphase
    obtain ⟨u, hu⟩ := Int.eq_ofNat_of_zero_le hnn
    have hu' : faceUpwindCell K state d.cell_A_ grav face = (u : Int) := hu
    rw [hu'] at hlt ⊢
    have hun : u < K.grid_.number_of_cells := by omega
    refine ⟨?_, ?_⟩
    · have hb : K.props_.numPhases * u + phase < d.cell_phasemob_.length := by
        have := block_le K.props_.numPhases K.grid_.number_of_cells u d.cell_phasemob_.length
          hun hM
        omega
      refine ⟨d.cell_phasemob_[K.props_.numPhases * u + phase], ?_⟩
      have := readAt_getElem d.cell_phasemob_ (K.props_.numPhases * u + phase) hb
      rw [← this]
      congr 1
    · intro p2 hp2
      have hsq := idx_lt_sq K.props_.numPhases phase p2 hphase hp2
      have hb : K.props_.numPhases * K.props_.numPhases * u + phase + K.props_.numPhases * p2
          < d.cell_A_.length := by
        have := block_le (K.props_.numPhases * K.props_.numPhases) K.grid_.number_of_cells u
          d.cell_A_.length hun (by rw [← Nat.mul_assoc]; exact hA)
        omega
      refine ⟨d.cell_A_[K.props_.numPhases * K.props_.numPhases * u + phase
        + K.props_.numPhases * p2], ?_⟩
      have := readAt_getElem d.cell_A_
        (K.props_.numPhases * K.props_.numPhases * u + phase + K.props_.numPhases * p2) hb
      rw [← this]
      congr 1
  · intro c0 c1 pot0 pot1 h0 h1
    unfold upwindCell
    split_ifs <;> omega

/-! ## The polymer properties -/

/-- C26 (the code departs from the claim): `effectiveMobilities` never returns a mobility: for
all arguments it either faults or returns `mob` emptied, because without derivatives
`effectiveMobilitiesBoth` ends with `mob.clear()`.  On the sample polymer with `c = 1/2`,
`visc = [1, 4]`, `relperm = [1, 1]` it returns the empty vector, where
`effectiveMobilitiesWithDer` returns `[4/9, 1/4]`, which is `eff_relperm_wat / visc_eff[0]`
and `relperm[1] / visc_eff[1]` for `eff_relperm_wat = 2/3` and `visc_eff = [3/2, 4]`. -/
theorem effective_mobilities_returns_cleared_vector :
    (∀ (P : PolymerProperties ℚ) (c cmax : ℚ) (visc relperm mob : List ℚ),
      P.effectiveMobilities c cmax visc relperm mob = .ok [] ∨
      ∃ e, P.effectiveMobilities c cmax visc relperm mob = .error e) ∧
    (samplePolymer ℚ 0 1).effectiveMobilities (1 / 2) 0 [1, 4] [1, 1] [7, 7] = .ok [] ∧
    ((samplePolymer ℚ 0 1).effectiveMobilitiesWithDer (1 / 2) 0 [1, 4] [1, 1]
        (some [1, 0, 0, 1]) [7, 7] [0, 0, 0, 0] 0).map (fun r => r.1) = .ok [4 / 9, 1 / 4] ∧
    (samplePolymer ℚ 0 1).effectiveRelperm (1 / 2) 0 [1, 1] = .ok (2 / 3) ∧
    (samplePolymer ℚ 0 1).effectiveVisc (1 / 2) [1, 4] [0, 0] = .ok [3 / 2, 4] := by
  refine ⟨?_, by decide!, by decide!, by decide!, by decide!⟩
  intro P c cmax visc relperm mob
  unfold PolymerProperties.effectiveMobilities
  cases h : P.effectiveMobilitiesBoth c cmax visc relperm (some [0, 0]) mob [] 0 false with
  | error e => right; exact ⟨e, rfl⟩
  | ok r =>
    left
    rw [effectiveMobilitiesBoth_false P c cmax visc relperm _ mob [] 0 r h]
    rfl

/-- C28: with distinct enumerators, in `NoDesorption` mode `adsorption` returns
`simpleAdsorption(max(c, cmax))`, and for `c < cmax` the derivative returned by
`adsorptionWithDer` is `0`; in `Desorption` mode it returns `simpleAdsorption(c)` whatever
`cmax` is; for any other `ads_index_` the call throws. -/
theorem adsorption_follows_mode {R : Type} [LinearOrderedField R] (P : PolymerProperties R)
    (c cmax : R) (hdist : P.Desorption ≠ P.NoDesorption) :
    (P.ads_index_ = P.NoDesorption →
      P.adsorption c cmax = .ok (P.simpleAdsorption (max c cmax)) ∧
      (P.adsorptionWithDer c cmax).map (fun r => r.1) = .ok (P.simpleAdsorption (max c cmax)) ∧
      (c < cmax → (P.adsorptionWithDer c cmax).map (fun r => r.2) = .ok 0)) ∧
    (P.ads_index_ = P.Desorption →
      P.adsorption c cmax = .ok (P.simpleAdsorption c) ∧
      (P.adsorptionWithDer c cmax).map (fun r => r.1) = .ok (P.simpleAdsorption c)) ∧
    (P.ads_index_ ≠ P.Desorption → P.ads_index_ ≠ P.NoDesorption →
      P.adsorption c cmax = .error .thrown ∧ P.adsorptionWithDer c cmax = .error .thrown) := by
  refine ⟨?_, ?_, ?_⟩
  · intro hmode
    have hne : ¬ P.NoDesorption = P.Desorption := fun h => hdist h.symm
    by_cases hc : c < cmax
    · have hmax : max c cmax = cmax := max_eq_right (le_of_lt hc)
      simp [PolymerProperties.adsorption, PolymerProperties.adsorptionWithDer,
        PolymerProperties.adsorptionBoth, hne, hmode, hc, hmax, Except.map]
    · have hmax : max c cmax = c := max_eq_left (not_lt.mp hc)
      simp [PolymerProperties.adsorption, PolymerProperties.adsorptionWithDer,
        PolymerProperties.adsorptionBoth, hne, hmode, hc, hmax, Except.map,
        PolymerProperties.simpleAdsorption, PolymerProperties.simpleAdsorptionBoth]
  · intro hmode
    simp [PolymerProperties.adsorption, PolymerProperties.adsorptionWithDer,
      PolymerProperties.adsorptionBoth, hmode, Except.map,
      PolymerProperties.simpleAdsorption, PolymerProperties.simpleAdsorptionBoth]
  · intro h1 h2
    simp [PolymerProperties.adsorption, PolymerProperties.adsorptionWithDer,
      PolymerProperties.adsorptionBoth, h1, h2]

/-- C30: for `visc` with the entries `mu_w > 0` and `mu_o`, a buffer `visc_eff` of two
entries, `c_max != 0`, `viscMult(c_max) > 0` and a power routine with
`x^omega * x^(1 - omega) = x` for positive `x`, `effectiveVisc` at `c = c_max` returns
`visc_eff[0] = viscMult(c_max) * visc[0]`; and for every `c` it returns
`visc_eff[1] = visc[1]`. -/
theorem effective_visc_at_full_concentration {R : Type} [LinearOrderedField R]
    (P : PolymerProperties R) (visc visc_eff : List R) (mu_w mu_o : R)
    (hvisc0 : visc[0]? = some mu_w) (hvisc1 : visc[1]? = some mu_o)
    (hbuf : 2 ≤ visc_eff.length) (hcmax : P.c_max_ ≠ 0) (hw : 0 < mu_w)
    (hm : 0 < P.viscMult P.c_max_)
    (hpow : ∀ x, 0 < x → P.lib.pow x P.mix_param_ * P.lib.pow x (1 - P.mix_param_) = x) :
    (∃ out, P.effectiveVisc P.c_max_ visc visc_eff = .ok out ∧
      out[0]? = some (P.viscMult P.c_max_ * mu_w) ∧ out[1]? = some mu_o ∧
      out.length = visc_eff.length) ∧
    (∀ c, ∃ out, P.effectiveVisc c visc visc_eff = .ok out ∧ out[1]? = some mu_o ∧
      out.length = visc_eff.length) := by
  have hr0 : readAt visc 0 = .ok mu_w := readAt_natCast hvisc0
  have hr1 : readAt visc 1 = .ok mu_o := readAt_natCast hvisc1
  have hrun : ∀ c, ∃ x, P.effectiveVisc c visc visc_eff = .ok ((visc_eff.set 0 x).set 1 mu_o) ∧
      x = 1 / ((1 - c / P.c_max_)
            / (P.lib.pow (P.viscMult c * mu_w) P.mix_param_
                * P.lib.pow mu_w (1 - P.mix_param_))
          + c / P.c_max_
            / (P.lib.pow (P.viscMult c * mu_w) P.mix_param_
                * P.lib.pow (P.viscMult P.c_max_ * mu_w) (1 - P.mix_param_))) := by
    intro c
    refine ⟨_, ?_, rfl⟩
    have hw0 := writeAt_natCast visc_eff 0
      (1 / ((1 - c / P.c_max_)
            / (P.lib.pow (P.viscMult c * mu_w) P.mix_param_
                * P.lib.pow mu_w (1 - P.mix_param_))
          + c / P.c_max_
            / (P.lib.pow (P.viscMult c * mu_w) P.mix_param_
                * P.lib.pow (P.viscMult P.c_max_ * mu_w) (1 - P.mix_param_)))) (by omega)
    have hw1 := writeAt_natCast (visc_eff.set 0
      (1 / ((1 - c / P.c_max_)
            / (P.lib.pow (P.viscMult c * mu_w) P.mix_param_
                * P.lib.pow mu_w (1 - P.mix_param_))
          + c / P.c_max_
            / (P.lib.pow (P.viscMult c * mu_w) P.mix_param_
                * P.lib.pow (P.viscMult P.c_max_ * mu_w) (1 - P.mix_param_))))) 1 mu_o
      (by simp; omega)
    simp only [Nat.cast_zero, Nat.cast_one] at hw0 hw1
    simp only [PolymerProperties.effectiveVisc, PolymerProperties.effectiveViscBoth, hr0, hr1,
      bind_ok_eq, Bool.false_eq_true, if_false, hw0, hw1, pure_eq_ok]
  refine ⟨?_, ?_⟩
  · obtain ⟨x, hx, hval⟩ := hrun P.c_max_
    refine ⟨_, hx, ?_, ?_, by simp⟩
    · have hpos : 0 < P.viscMult P.c_max_ * mu_w := mul_pos hm hw
      rw [div_self hcmax, sub_self, zero_div, zero_add, hpow _ hpos, one_div_one_div] at hval
      rw [hval]
      exact (set_front_two visc_eff _ mu_o hbuf).1
    · exact (set_front_two visc_eff _ mu_o hbuf).2
  · intro c
    obtain ⟨x, hx, _⟩ := hrun c
    exact ⟨_, hx, (set_front_two visc_eff _ mu_o hbuf).2, by simp⟩

/-- C27 (the code departs from the claim): on the sample polymer in `Desorption` mode, with
adsorption `ads(c) = c`, `res_factor = 2`, `c_max_ads = 1` and `relperm[0] = 1`,
`effectiveRelpermWithDer` returns `eff_relperm_wat = 1/(1 + c)` for every `c` and at `c = 0`
the value `deff_relperm_wat_dc = 1`, whereas the derivative of `1/(1 + c)` at `0` is `-1`: the
returned `dc_ads_dc*relperm[0]/(rk*rk*c_max_ads)` lacks the factor `-(res_factor - 1)`. -/
theorem relperm_derivative_lacks_factor :
    (∀ c : ℝ, ((samplePolymer ℝ 0 1).effectiveRelpermWithDer c 0 [1, 1]
        (some [1, 0, 0, 1])).map (fun r => r.1) = .ok (1 / (1 + c))) ∧
    ((samplePolymer ℝ 0 1).effectiveRelpermWithDer 0 0 [1, 1] (some [1, 0, 0, 1])).map
      (fun r => r.2.2) = .ok 1 ∧
    HasDerivAt (fun c : ℝ => 1 / (1 + c)) (-1) 0 := by
  refine ⟨?_, ?_, ?_⟩
  · intro c
    simp [PolymerProperties.effectiveRelpermWithDer, PolymerProperties.effectiveRelpermBoth,
      PolymerProperties.adsorptionBoth, PolymerProperties.simpleAdsorptionBoth, samplePolymer,
      sampleLine, sampleSlope, readAt, Except.map]
    norm_num
  · simp [PolymerProperties.effectiveRelpermWithDer, PolymerProperties.effectiveRelpermBoth,
      PolymerProperties.adsorptionBoth, PolymerProperties.simpleAdsorptionBoth, samplePolymer,
      sampleLine, sampleSlope, readAt, Except.map]
  · have h := ((hasDerivAt_id (0 : ℝ)).const_add 1).inv (by norm_num)
    simp only [id, add_zero, one_pow, div_one] at h
    simpa [one_div] using h

/-- C29: for `c_max != 0`, a nonzero denominator and a power routine that squares at the
exponent `2`, `computeMcBoth` with derivatives returns
`mc = c / (c/c_max + (1 - c/c_max)*r)` and `dmc_dc = r / (c/c_max + (1 - c/c_max)*r)^2` with
`r = viscMult(c_max)^(1 - mix_param)`, and the returned `dmc_dc` is the derivative at `c` of
the returned `mc` as a function of the concentration. -/
theorem compute_mc_derivative_is_consistent (P : PolymerProperties ℝ) (c : ℝ)
    (_hcmax : P.c_max_ ≠ 0)
    (hden : c / P.c_max_
      + (1 - c / P.c_max_) * P.lib.pow (P.viscMult P.c_max_) (1 - P.mix_param_) ≠ 0)
    (hsq : ∀ x, P.lib.pow x 2 = x ^ 2) :
    (P.computeMcBoth c true).1
      = c / (c / P.c_max_
          + (1 - c / P.c_max_) * P.lib.pow (P.viscMult P.c_max_) (1 - P.mix_param_)) ∧
    (P.computeMcBoth c true).2
      = P.lib.pow (P.viscMult P.c_max_) (1 - P.mix_param_)
        / (c / P.c_max_
          + (1 - c / P.c_max_) * P.lib.pow (P.viscMult P.c_max_) (1 - P.mix_param_)) ^ 2 ∧
    HasDerivAt (fun x => (P.computeMcBoth x true).1) (P.computeMcBoth c true).2 c := by
  refine ⟨rfl, ?_, ?_⟩
  · simp only [PolymerProperties.computeMcBoth, if_true, hsq]
  · simp only [PolymerProperties.computeMcBoth, if_true, hsq]
    have hD : HasDerivAt
        (fun x : ℝ => x / P.c_max_
          + (1 - x / P.c_max_) * P.lib.pow (P.viscMult P.c_max_) (1 - P.mix_param_))
        (1 / P.c_max_
          + (-(1 / P.c_max_)) * P.lib.pow (P.viscMult P.c_max_) (1 - P.mix_param_)) c :=
      ((hasDerivAt_id c).div_const P.c_max_).add
        ((((hasDerivAt_id c).div_const P.c_max_).const_sub 1).mul_const _)
    have h := (hasDerivAt_id c).div hD hden
    convert h using 1
    congr 1
    simp only [id]
    ring

/-! ## Concrete instances of the conditional theorems -/

/-- C5, witness: the two-phase two-cell reservoir with potentials `pot[0] = [1, 5]` and
`pot[1] = [1, 1]` meets the hypotheses of the amended claim at phase 1 (tie at phase 0). -/
theorem upwind_cell_has_higher_potential_witness :
    gravComponent twoPhaseFixed = .ok 1 ∧ FacePassReady twoPhaseFixed twoPhaseState twoPhaseData ∧
    facePot twoPhaseFixed twoPhaseState twoPhaseData.cell_A_ 1 0 0 0
      = facePot twoPhaseFixed twoPhaseState twoPhaseData.cell_A_ 1 0 1 0 ∧
    facePot twoPhaseFixed twoPhaseState twoPhaseData.cell_A_ 1 0 0 1
      ≠ facePot twoPhaseFixed twoPhaseState twoPhaseData.cell_A_ 1 0 1 1 ∧
    (∃ d', computeFaceDynamicData twoPhaseFixed 1 twoPhaseState { bhp := [5] } twoPhaseData = .ok d' ∧
      d'.face_phasemob_.length = twoPhaseFixed.grid_.number_of_faces * twoPhaseFixed.props_.numPhases ∧
      d'.face_A_.length = twoPhaseFixed.grid_.number_of_faces * twoPhaseFixed.props_.numPhases * twoPhaseFixed.props_.numPhases ∧
      UpwindFrom twoPhaseFixed twoPhaseData d' 0 1
        (if facePot twoPhaseFixed twoPhaseState twoPhaseData.cell_A_ 1 0 0 1 < facePot twoPhaseFixed twoPhaseState twoPhaseData.cell_A_ 1 0 1 1
          then faceCell twoPhaseFixed 0 1 else faceCell twoPhaseFixed 0 0).toNat) :=
  ⟨by decide!, by decide!, by decide!, by decide!,
    upwind_cell_has_higher_potential twoPhaseFixed 1 twoPhaseState { bhp := [5] } twoPhaseData 1
      (by decide!) (by decide!) 0 (by decide) (by decide!) (by decide!) 1 (by decide)
      (by decide!) (by decide!)⟩

/-- C6, witness: the single-phase two-cell reservoir with gravity and cell pressures `2, 1`
meets the hypotheses of the amended claim. -/
theorem upwind_potential_includes_both_contributions_witness :
    gravComponent gravFixed = .ok 1 ∧ FacePassReady gravFixed gravState gravData ∧
    gravFixed.props_.numPhases = 1 ∧
    (
    (∀ l : PotLocals, l.pot0.length = gravFixed.props_.numPhases → l.pot1.length = gravFixed.props_.numPhases →
      gravFixed.props_.numPhases * 0 + gravFixed.props_.numPhases ≤ l.face_gravcap_.length →
      ∃ l', facePotentials gravFixed.props_.numPhases 0
          (gravState.pressure.getD (faceCell gravFixed 0 0).toNat 0)
          (gravState.pressure.getD (faceCell gravFixed 0 1).toNat 0)
          ((List.range gravFixed.props_.numPhases).map
            (sideGravcontrib gravFixed gravData.cell_A_ 1 0 (faceCell gravFixed 0 0)))
          ((List.range gravFixed.props_.numPhases).map
            (sideGravcontrib gravFixed gravData.cell_A_ 1 0 (faceCell gravFixed 0 1))) l = .ok l' ∧
        ∀ phase, phase < gravFixed.props_.numPhases →
          l'.pot0[phase]? = some (gravState.pressure.getD (faceCell gravFixed 0 0).toNat 0
            + (sideGravcontrib gravFixed gravData.cell_A_ 1 0 (faceCell gravFixed 0 0) phase
                - sideGravcontrib gravFixed gravData.cell_A_ 1 0 (faceCell gravFixed 0 1) phase)) ∧
          l'.pot1[phase]? = some (gravState.pressure.getD (faceCell gravFixed 0 1).toNat 0)) ∧
    (gravFixed.props_.numPhases = 1 →
      ∃ d', computeFaceDynamicData gravFixed 1 gravState { bhp := [5] } gravData = .ok d' ∧
        d'.face_phasemob_.length = gravFixed.grid_.number_of_faces ∧
        d'.face_A_.length = gravFixed.grid_.number_of_faces ∧
        UpwindFrom gravFixed gravData d' 0 0
          (if gravState.pressure.getD (faceCell gravFixed 0 0).toNat 0
              + (sideGravcontrib gravFixed gravData.cell_A_ 1 0 (faceCell gravFixed 0 0) 0
                  - sideGravcontrib gravFixed gravData.cell_A_ 1 0 (faceCell gravFixed 0 1) 0)
              < gravState.pressure.getD (faceCell gravFixed 0 1).toNat 0
            then faceCell gravFixed 0 1 else faceCell gravFixed 0 0).toNat)) :=
  ⟨by decide!, by decide!, by decide,
    upwind_potential_includes_both_contributions gravFixed 1 gravState { bhp := [5] } gravData 1
      (by decide!) (by decide!) 0 (by decide) (by decide!) (by decide!)⟩

/-- C7, witness: the single-phase two-cell reservoir without gravity and with equal cell
pressures meets the hypotheses of the tie-break claim. -/
theorem upwind_tie_goes_to_side0_witness :
    gravComponent noGravFixed = .ok 0 ∧ FacePassReady noGravFixed tieState tieData ∧
    facePot noGravFixed tieState tieData.cell_A_ 0 0 0 0
      = facePot noGravFixed tieState tieData.cell_A_ 0 0 1 0 ∧
    (
    ∃ d', computeFaceDynamicData noGravFixed 1 tieState { bhp := [5] } tieData = .ok d' ∧
      d'.face_phasemob_.length = noGravFixed.grid_.number_of_faces * noGravFixed.props_.numPhases ∧
      d'.face_A_.length = noGravFixed.grid_.number_of_faces * noGravFixed.props_.numPhases * noGravFixed.props_.numPhases ∧
      noGravFixed.grid_.face_cells[2 * 0]? = some (faceCell noGravFixed 0 0) ∧
      ∀ phase, phase < noGravFixed.props_.numPhases →
        UpwindFrom noGravFixed tieData d' 0 phase (faceCell noGravFixed 0 0).toNat) :=
  ⟨by decide!, by decide!, by decide!,
    upwind_tie_goes_to_side0 noGravFixed 1 tieState { bhp := [5] } tieData 0
      (by decide!) (by decide!) 0 (by decide) (by decide!) (by decide!) (by decide!)⟩

/-- C8, witness: the single-phase two-cell reservoir with gravity meets the hypotheses of the
claim on the gravity term. -/
theorem face_gravcap_is_side0_minus_side1_witness :
    gravComponent gravFixed = .ok 1 ∧ FacePassReady gravFixed gravState gravData ∧
    (
    ∃ d', computeFaceDynamicData gravFixed 1 gravState { bhp := [5] } gravData = .ok d' ∧
      ∀ face, face < gravFixed.grid_.number_of_faces → ∀ phase, phase < gravFixed.props_.numPhases →
        d'.face_gravcap_[gravFixed.props_.numPhases * face + phase]?
          = some (sideGravcontrib gravFixed gravData.cell_A_ 1 face (faceCell gravFixed face 0) phase
              - sideGravcontrib gravFixed gravData.cell_A_ 1 face (faceCell gravFixed face 1) phase) ∧
        ∀ side, side < 2 →
          (0 ≤ faceCell gravFixed face side → (1 : ℚ) ≠ 0 →
            sideGravcontrib gravFixed gravData.cell_A_ 1 face (faceCell gravFixed face side) phase
              = gravFixed.props_.density
                  (cellBlock gravFixed.props_.numPhases gravData.cell_A_ (faceCell gravFixed face side).toNat) phase
                * (faceDepth gravFixed face - cellDepth gravFixed (faceCell gravFixed face side).toNat)) ∧
          (faceCell gravFixed face side < 0 ∨ (1 : ℚ) = 0 →
            sideGravcontrib gravFixed gravData.cell_A_ 1 face (faceCell gravFixed face side) phase = 0)) :=
  ⟨by decide!, by decide!,
    face_gravcap_is_side0_minus_side1 gravFixed 1 gravState { bhp := [5] } gravData 1
      (by decide!) (by decide!)⟩

/-- C10, witness: the single-phase two-cell reservoir without a gravity vector, with its one
producer and one perforation, meets the hypotheses of the zero-gravity claim. -/
theorem zero_gravity_zero_terms_witness :
    noGravFixed.gravity_ = none ∧ noGravFixed.wells_ = some (oneProducer 1) ∧
    (oneProducer 1).well_connpos[(oneProducer 1).number_of_wells]? = some 1 ∧
    FacePassReady noGravFixed tieState tieData ∧
    (
    (∃ d', computeWellPotentials noGravFixed tieState tieData = .ok d' ∧
      d'.wellperf_gpot_ = List.replicate (noGravFixed.props_.numPhases * 1) 0) ∧
    (∃ d', computeFaceDynamicData noGravFixed 1 tieState { bhp := [5] } tieData = .ok d' ∧
      d'.face_gravcap_ = List.replicate (noGravFixed.grid_.number_of_faces * noGravFixed.props_.numPhases) 0) ∧
    (∀ rho : List ℚ → Nat → ℚ,
      computeWellPotentials (withDensity noGravFixed rho) tieState tieData = computeWellPotentials noGravFixed tieState tieData ∧
      computeFaceDynamicData (withDensity noGravFixed rho) 1 tieState { bhp := [5] } tieData
        = computeFaceDynamicData noGravFixed 1 tieState { bhp := [5] } tieData)) :=
  ⟨rfl, rfl, by decide, by decide!,
    zero_gravity_zero_terms noGravFixed 1 tieState { bhp := [5] } tieData (oneProducer 1) 1
      (Or.inl rfl) rfl (by decide) (by decide!)⟩

/-- C11, witness: the two-phase two-cell reservoir with an injector in cell 0 and a producer
in cell 1, after the cell pass, meets the hypotheses of the claim on injectors. -/
theorem injector_perforation_gets_total_mobility_witness :
    twoWellFixed.wells_.isSome = true ∧ WellPassReady twoWellFixed (twoWells 2) twoPhaseData ∧
    (
    ∃ d', computeWellDynamicData twoWellFixed 1 twoPhaseState { bhp := [5, 6] } twoPhaseData = .ok d' ∧
      ∀ w, w < (twoWells 2).number_of_wells → (twoWells 2).type[w]? = some WellType.INJECTOR →
        ∀ j, connPos (twoWells 2) w ≤ j → j < connPos (twoWells 2) (w + 1) →
          ∃ c : Nat, (twoWells 2).well_cells[j]? = some (c : Int) ∧
            twoWellFixed.props_.numPhases * c + twoWellFixed.props_.numPhases ≤ twoPhaseData.cell_phasemob_.length ∧
            ∀ phase, phase < twoWellFixed.props_.numPhases →
              d'.wellperf_phasemob_[twoWellFixed.props_.numPhases * j + phase]?
                = some (((List.range twoWellFixed.props_.numPhases).map
                    (fun q => twoPhaseData.cell_phasemob_.getD (twoWellFixed.props_.numPhases * c + q) 0)).sum)) :=
  ⟨rfl, by decide!,
    injector_perforation_gets_total_mobility twoWellFixed 1 twoPhaseState { bhp := [5, 6] } twoPhaseData
      (twoWells 2) rfl (by decide!)⟩

/-- C12, witness: the two-phase two-cell reservoir with an injector in cell 0 and a producer
in cell 1, after the cell pass, meets the hypotheses of the claim on producers. -/
theorem producer_perforation_copies_cell_mobility_witness :
    twoWellFixed.wells_.isSome = true ∧ WellPassReady twoWellFixed (twoWells 2) twoPhaseData ∧
    (
    ∃ d', computeWellDynamicData twoWellFixed 1 twoPhaseState { bhp := [5, 6] } twoPhaseData = .ok d' ∧
      ∀ w, w < (twoWells 2).number_of_wells → (twoWells 2).type[w]? = some WellType.PRODUCER →
        ∀ j, connPos (twoWells 2) w ≤ j → j < connPos (twoWells 2) (w + 1) →
          ∃ c : Nat, (twoWells 2).well_cells[j]? = some (c : Int) ∧
            ∀ phase, phase < twoWellFixed.props_.numPhases →
              ∃ m, twoPhaseData.cell_phasemob_[twoWellFixed.props_.numPhases * c + phase]? = some m ∧
                d'.wellperf_phasemob_[twoWellFixed.props_.numPhases * j + phase]? = some m) :=
  ⟨rfl, by decide!,
    producer_perforation_copies_cell_mobility twoWellFixed 1 twoPhaseState { bhp := [5, 6] } twoPhaseData
      (twoWells 2) rfl (by decide!)⟩

/-- C20, witness: the two-phase two-cell reservoir with an injector in cell 0 and a producer
in cell 1, after the cell pass, meets the hypotheses of the claim on the perforation matrices. -/
theorem perforation_copies_cell_matrix_witness :
    twoWellFixed.wells_.isSome = true ∧ WellPassReady twoWellFixed (twoWells 2) twoPhaseData ∧
    (
    ∃ d', computeWellDynamicData twoWellFixed 1 twoPhaseState { bhp := [5, 6] } twoPhaseData = .ok d' ∧
      ∀ w, w < (twoWells 2).number_of_wells →
        ∀ j, connPos (twoWells 2) w ≤ j → j < connPos (twoWells 2) (w + 1) →
          ∃ c : Nat, (twoWells 2).well_cells[j]? = some (c : Int) ∧
            ∀ k, k < twoWellFixed.props_.numPhases * twoWellFixed.props_.numPhases →
              ∃ a, twoPhaseData.cell_A_[twoWellFixed.props_.numPhases * twoWellFixed.props_.numPhases * c + k]? = some a ∧
                d'.wellperf_A_[twoWellFixed.props_.numPhases * twoWellFixed.props_.numPhases * j + k]? = some a) :=
  ⟨rfl, by decide!,
    perforation_copies_cell_matrix twoWellFixed 1 twoPhaseState { bhp := [5, 6] } twoPhaseData
      (twoWells 2) rfl (by decide!)⟩

/-- C19, witness: the single-phase two-cell reservoir with a fresh solver meets the hypotheses
of the claim on the cell pass. -/
theorem cell_mobility_is_relperm_over_viscosity_witness :
    CellPassReady gravFixed gravState ∧
    (
    ∃ d', computeCellDynamicData gravFixed 1 gravState { bhp := [5] } freshData = .ok d' ∧
      d'.cell_phasemob_.length = gravFixed.props_.numPhases * gravFixed.grid_.number_of_cells ∧
      ∀ c, c < gravFixed.grid_.number_of_cells → ∀ p, p < gravFixed.props_.numPhases →
        d'.cell_phasemob_[gravFixed.props_.numPhases * c + p]?
          = some (gravFixed.props_.relperm ((gravState.saturation.drop (gravFixed.props_.numPhases * c)).take
                    gravFixed.props_.numPhases) (c : Int) p
                / gravFixed.props_.viscosity (gravState.pressure.getD c 0)
                    ((gravState.surfacevol.drop (gravFixed.props_.numPhases * c)).take gravFixed.props_.numPhases)
                    (c : Int) p)) :=
  ⟨by decide!,
    cell_mobility_is_relperm_over_viscosity gravFixed 1 gravState { bhp := [5] } freshData
      (by decide!)⟩

/-- C14, witness: the two-cell grid meets the hypothesis of the claim on construction; the
instance is a single-phase property evaluator with a two-phase well structure. -/
theorem construct_throws_iff_phase_mismatch_witness :
    twoCellGrid.number_of_cells < twoCellGrid.cell_facepos.length ∧
    (
    (construct twoCellGrid (constProps 1 [2]) (constKernels [0, 0, 0]) 1 1 1 none (some (oneProducer 2)) = .error .thrown
      ↔ ∃ w, (some (oneProducer 2)) = some w ∧ w.number_of_phases ≠ (constProps 1 [2]).numPhases) ∧
    (((some (oneProducer 2)) = none ∨ ∃ w, (some (oneProducer 2)) = some w ∧ w.number_of_phases = (constProps 1 [2]).numPhases) →
      ∃ x, construct twoCellGrid (constProps 1 [2]) (constKernels [0, 0, 0]) 1 1 1 none (some (oneProducer 2)) = .ok x)) :=
  ⟨by decide,
    construct_throws_iff_phase_mismatch twoCellGrid (constProps 1 [2]) (constKernels [0, 0, 0])
      1 1 1 none (some (oneProducer 2)) (by decide)⟩

/-- C17, witness: the single-phase reservoir with two boundary faces and one inner face meets
the hypotheses of the claim on the upwind copy. -/
theorem face_values_copied_from_adjacent_cell_witness :
    gravComponent boundaryFixed = .ok 1 ∧
    FacePassReady boundaryFixed boundaryState boundaryData ∧
    (
    ∃ d', computeFaceDynamicData boundaryFixed 1 boundaryState { bhp := [5] } boundaryData = .ok d' ∧
      d'.face_phasemob_.length = boundaryFixed.grid_.number_of_faces * boundaryFixed.props_.numPhases ∧
      d'.face_A_.length = boundaryFixed.grid_.number_of_faces * boundaryFixed.props_.numPhases * boundaryFixed.props_.numPhases ∧
      ∀ face, face < boundaryFixed.grid_.number_of_faces → ∀ p, p < boundaryFixed.props_.numPhases →
        ∃ u : Nat, ((u : Int) = faceCell boundaryFixed face 0 ∨ (u : Int) = faceCell boundaryFixed face 1) ∧
          u < boundaryFixed.grid_.number_of_cells ∧ UpwindFrom boundaryFixed boundaryData d' face p u) :=
  ⟨by decide!, by decide!,
    face_values_copied_from_adjacent_cell boundaryFixed 1 boundaryState { bhp := [5] }
      boundaryData 1 (by decide!) (by decide!)⟩

/-- C18, witness: face 2 of the single-phase reservoir with two boundary faces, whose only
neighbour is cell 1 on side 0, meets the hypotheses of the claim on boundary faces. -/
theorem boundary_face_uses_existing_neighbour_witness :
    gravComponent boundaryFixed = .ok 1 ∧
    FacePassReady boundaryFixed boundaryState boundaryData ∧
    0 ≤ faceCell boundaryFixed 2 0 ∧ faceCell boundaryFixed 2 1 < 0 ∧
    (
    ∃ d', computeFaceDynamicData boundaryFixed 1 boundaryState { bhp := [5] } boundaryData = .ok d' ∧
      (0 ≤ faceCell boundaryFixed 2 0 → faceCell boundaryFixed 2 1 < 0 →
        faceSide boundaryFixed boundaryState boundaryData 1 2 (faceDepth boundaryFixed 2) (faceCell boundaryFixed 2 1)
          = .ok (boundaryState.facepressure.getD 2 0, List.replicate boundaryFixed.props_.numPhases 0) ∧
        ∀ p, p < boundaryFixed.props_.numPhases →
          UpwindFrom boundaryFixed boundaryData d' 2 p (faceCell boundaryFixed 2 0).toNat ∧
          d'.face_gravcap_[boundaryFixed.props_.numPhases * 2 + p]?
            = some (sideGravcontrib boundaryFixed boundaryData.cell_A_ 1 2 (faceCell boundaryFixed 2 0) p)) ∧
      (faceCell boundaryFixed 2 0 < 0 → 0 ≤ faceCell boundaryFixed 2 1 →
        faceSide boundaryFixed boundaryState boundaryData 1 2 (faceDepth boundaryFixed 2) (faceCell boundaryFixed 2 0)
          = .ok (boundaryState.facepressure.getD 2 0, List.replicate boundaryFixed.props_.numPhases 0) ∧
        ∀ p, p < boundaryFixed.props_.numPhases →
          UpwindFrom boundaryFixed boundaryData d' 2 p (faceCell boundaryFixed 2 1).toNat ∧
          d'.face_gravcap_[boundaryFixed.props_.numPhases * 2 + p]?
            = some (-sideGravcontrib boundaryFixed boundaryData.cell_A_ 1 2 (faceCell boundaryFixed 2 1) p))) :=
  ⟨by decide!, by decide!, by decide, by decide,
    boundary_face_uses_existing_neighbour boundaryFixed 1 boundaryState { bhp := [5] }
      boundaryData 1 (by decide!) (by decide!) 2 (by decide)⟩

/-- C13, witness: a Newton iteration of the two-cell run (two cells, one well) runs without a
fault, and its increment `2, 3, 4` goes to the cell pressures `2, 3` and to the well
pressure `4`. -/
theorem increment_entries_go_to_cells_then_wells_witness :
    newtonIteration (twoCellFixed 1 [2] none [-2, -3, -4] 1) 1 (twoCellRunAssembled [-2, -3, -4])
      = .ok twoCellRunIterated ∧
    ∃ dI, solveIncrement (twoCellFixed 1 [2] none [-2, -3, -4] 1)
        (twoCellRunAssembled [-2, -3, -4]).data = .ok dI ∧
      twoCellRunIterated.state.pressure.length
        = (twoCellRunAssembled [-2, -3, -4]).state.pressure.length ∧
      twoCellRunIterated.well_state.bhp.length
        = (twoCellRunAssembled [-2, -3, -4]).well_state.bhp.length ∧
      (∀ i, i < (twoCellFixed 1 [2] none [-2, -3, -4] 1).grid_.number_of_cells →
        twoCellRunIterated.state.pressure[i]? = dI.pressure_increment_[i]?) ∧
      (∀ w, (twoCellFixed 1 [2] none [-2, -3, -4] 1).grid_.number_of_cells + w
          < dI.pressure_increment_.length →
        twoCellRunIterated.well_state.bhp[w]?
          = dI.pressure_increment_[(twoCellFixed 1 [2] none [-2, -3, -4] 1).grid_.number_of_cells
              + w]?) :=
  ⟨by decide!,
    (increment_entries_go_to_cells_then_wells twoCellGrid (constProps 1 [2])
      (constKernels [-2, -3, -4]) 1 1 1 none (some (oneProducer 1))).2.2
      (twoCellFixed 1 [2] none [-2, -3, -4] 1) 1 (twoCellRunAssembled [-2, -3, -4])
      twoCellRunIterated (by decide!)⟩

/-- C16, witness: on the two-cell run the per-iteration passes and a whole Newton iteration
run without a fault and leave the well potentials `[0]` of the run as they are. -/
theorem well_potentials_fixed_through_iterations_witness :
    (twoCellRunAssembled [-2, -3, -4]).data.wellperf_gpot_ = [0] ∧
    (∃ d', computePerIterationDynamicData (twoCellFixed 1 [2] none [-2, -3, -4] 1) 1
        (twoCellRunAssembled [-2, -3, -4]).state (twoCellRunAssembled [-2, -3, -4]).well_state
        (twoCellRunAssembled [-2, -3, -4]).data = .ok d' ∧
      d'.wellperf_gpot_ = (twoCellRunAssembled [-2, -3, -4]).data.wellperf_gpot_) ∧
    (∃ r', newtonIteration (twoCellFixed 1 [2] none [-2, -3, -4] 1) 1
        { data := (twoCellRunAssembled [-2, -3, -4]).data,
          state := (twoCellRunAssembled [-2, -3, -4]).state,
          well_state := (twoCellRunAssembled [-2, -3, -4]).well_state } = .ok r' ∧
      r'.data.wellperf_gpot_ = (twoCellRunAssembled [-2, -3, -4]).data.wellperf_gpot_) := by
  have hthm := well_potentials_fixed_through_iterations (twoCellFixed 1 [2] none [-2, -3, -4] 1) 1
    (twoCellRunAssembled [-2, -3, -4]).state (twoCellRunAssembled [-2, -3, -4]).well_state
    (twoCellRunAssembled [-2, -3, -4]).data
  refine ⟨by decide!, ?_, ?_⟩
  · obtain ⟨d', h⟩ := ok_of_toBool (x := computePerIterationDynamicData
      (twoCellFixed 1 [2] none [-2, -3, -4] 1) 1 (twoCellRunAssembled [-2, -3, -4]).state
      (twoCellRunAssembled [-2, -3, -4]).well_state (twoCellRunAssembled [-2, -3, -4]).data)
      (by decide!)
    exact ⟨d', h, hthm.2.2.2.1 d' h⟩
  · obtain ⟨r', h⟩ := ok_of_toBool (x := newtonIteration
      (twoCellFixed 1 [2] none [-2, -3, -4] 1) 1
      { data := (twoCellRunAssembled [-2, -3, -4]).data,
        state := (twoCellRunAssembled [-2, -3, -4]).state,
        well_state := (twoCellRunAssembled [-2, -3, -4]).well_state })
      (by decide!)
    exact ⟨r', h, hthm.2.2.2.2 r' h⟩

/-- C21, witness: on the two-cell run assembled with residual `-2, -3, -4` the linear solver
fills the three entries of the increment vector. -/
theorem increment_is_negated_solution_witness :
    ((twoCellFixed 1 [2] none [-2, -3, -4] 1).kernels_.linsolve
        (twoCellRunAssembled [-2, -3, -4]).data.h_.J
        (twoCellRunAssembled [-2, -3, -4]).data.h_.F).length
      = (twoCellRunAssembled [-2, -3, -4]).data.pressure_increment_.length ∧
    (∃ d', solveIncrement (twoCellFixed 1 [2] none [-2, -3, -4] 1)
        (twoCellRunAssembled [-2, -3, -4]).data = .ok d' ∧
      d'.pressure_increment_
        = ((twoCellFixed 1 [2] none [-2, -3, -4] 1).kernels_.linsolve
            (twoCellRunAssembled [-2, -3, -4]).data.h_.J
            (twoCellRunAssembled [-2, -3, -4]).data.h_.F).map (fun v => -v) ∧
      (matVec (twoCellRunAssembled [-2, -3, -4]).data.h_.J
          ((twoCellFixed 1 [2] none [-2, -3, -4] 1).kernels_.linsolve
            (twoCellRunAssembled [-2, -3, -4]).data.h_.J
            (twoCellRunAssembled [-2, -3, -4]).data.h_.F)
        = (twoCellRunAssembled [-2, -3, -4]).data.h_.F →
        matVec (twoCellRunAssembled [-2, -3, -4]).data.h_.J d'.pressure_increment_
          = (twoCellRunAssembled [-2, -3, -4]).data.h_.F.map (fun v => -v))) :=
  ⟨by decide!,
    increment_is_negated_solution (twoCellFixed 1 [2] none [-2, -3, -4] 1)
      (twoCellRunAssembled [-2, -3, -4]).data (by decide!)⟩

/-- C25, witness: the two cells in a row with their boundary faces, after the cell pass, are
ready for the face pass with the vertical gravity component `1`. -/
theorem upwind_index_is_in_bounds_witness :
    gravComponent boundaryFixed = .ok 1 ∧ FacePassReady boundaryFixed boundaryState boundaryData ∧
    ((∃ d', computeFaceDynamicData boundaryFixed 1 boundaryState { bhp := [5] } boundaryData
        = .ok d') ∧
    (∀ face, face < boundaryFixed.grid_.number_of_faces →
      (faceUpwindCell boundaryFixed boundaryState boundaryData.cell_A_ 1 face
          = faceCell boundaryFixed face 0 ∨
        faceUpwindCell boundaryFixed boundaryState boundaryData.cell_A_ 1 face
          = faceCell boundaryFixed face 1) ∧
      0 ≤ faceUpwindCell boundaryFixed boundaryState boundaryData.cell_A_ 1 face ∧
      faceUpwindCell boundaryFixed boundaryState boundaryData.cell_A_ 1 face
        < (boundaryFixed.grid_.number_of_cells : Int) ∧
      ∀ phase, phase < boundaryFixed.props_.numPhases →
        (∃ m, readAt boundaryData.cell_phasemob_ ((boundaryFixed.props_.numPhases : Int)
            * faceUpwindCell boundaryFixed boundaryState boundaryData.cell_A_ 1 face + phase)
          = .ok m) ∧
        ∀ p2, p2 < boundaryFixed.props_.numPhases →
          ∃ a, readAt boundaryData.cell_A_ ((boundaryFixed.props_.numPhases : Int)
            * boundaryFixed.props_.numPhases
            * faceUpwindCell boundaryFixed boundaryState boundaryData.cell_A_ 1 face + phase
            + (boundaryFixed.props_.numPhases : Int) * p2) = .ok a) ∧
    (∀ (c0 c1 : Int) (pot0 pot1 : List ℚ), c0 < 0 → c1 < 0 →
      upwindCell c0 c1 pot0 pot1 < 0)) :=
  ⟨by decide!, by decide!,
    upwind_index_is_in_bounds boundaryFixed 1 boundaryState { bhp := [5] } boundaryData 1
      (by decide!) (by decide!)⟩

/-- C28, witness: the sample polymer in `NoDesorption` mode has distinct enumerators; with
`c = 1/4` below `cmax = 3/4` its adsorption is that of `3/4`. -/
theorem adsorption_follows_mode_witness :
    (samplePolymer ℚ 0 2).Desorption ≠ (samplePolymer ℚ 0 2).NoDesorption ∧
    ((samplePolymer ℚ 0 2).adsorption (1 / 4) (3 / 4) = .ok (3 / 4)) ∧
    (((samplePolymer ℚ 0 2).ads_index_ = (samplePolymer ℚ 0 2).NoDesorption →
      (samplePolymer ℚ 0 2).adsorption (1 / 4) (3 / 4)
        = .ok ((samplePolymer ℚ 0 2).simpleAdsorption (max (1 / 4) (3 / 4))) ∧
      ((samplePolymer ℚ 0 2).adsorptionWithDer (1 / 4) (3 / 4)).map (fun r => r.1)
        = .ok ((samplePolymer ℚ 0 2).simpleAdsorption (max (1 / 4) (3 / 4))) ∧
      ((1 / 4 : ℚ) < 3 / 4 →
        ((samplePolymer ℚ 0 2).adsorptionWithDer (1 / 4) (3 / 4)).map (fun r => r.2) = .ok 0)) ∧
    ((samplePolymer ℚ 0 2).ads_index_ = (samplePolymer ℚ 0 2).Desorption →
      (samplePolymer ℚ 0 2).adsorption (1 / 4) (3 / 4)
        = .ok ((samplePolymer ℚ 0 2).simpleAdsorption (1 / 4)) ∧
      ((samplePolymer ℚ 0 2).adsorptionWithDer (1 / 4) (3 / 4)).map (fun r => r.1)
        = .ok ((samplePolymer ℚ 0 2).simpleAdsorption (1 / 4))) ∧
    ((samplePolymer ℚ 0 2).ads_index_ ≠ (samplePolymer ℚ 0 2).Desorption →
      (samplePolymer ℚ 0 2).ads_index_ ≠ (samplePolymer ℚ 0 2).NoDesorption →
      (samplePolymer ℚ 0 2).adsorption (1 / 4) (3 / 4) = .error .thrown ∧
      (samplePolymer ℚ 0 2).adsorptionWithDer (1 / 4) (3 / 4) = .error .thrown)) :=
  ⟨by decide, by decide!,
    adsorption_follows_mode (samplePolymer ℚ 0 2) (1 / 4) (3 / 4) (by decide)⟩

/-- C30, witness: the sample polymer with mixing parameter `0`, water viscosity `1` and oil
viscosity `4` meets the hypotheses, and `effectiveVisc` at `c = c_max` returns `[3, 4]`. -/
theorem effective_visc_at_full_concentration_witness :
    ([1, 4] : List ℚ)[0]? = some 1 ∧ ([1, 4] : List ℚ)[1]? = some 4 ∧
    2 ≤ ([0, 0] : List ℚ).length ∧ (samplePolymer ℚ 0 1).c_max_ ≠ 0 ∧ (0 : ℚ) < 1 ∧
    0 < (samplePolymer ℚ 0 1).viscMult (samplePolymer ℚ 0 1).c_max_ ∧
    (∀ x, 0 < x → (samplePolymer ℚ 0 1).lib.pow x (samplePolymer ℚ 0 1).mix_param_
      * (samplePolymer ℚ 0 1).lib.pow x (1 - (samplePolymer ℚ 0 1).mix_param_) = x) ∧
    (samplePolymer ℚ 0 1).effectiveVisc (samplePolymer ℚ 0 1).c_max_ [1, 4] [0, 0]
      = .ok [3, 4] ∧
    ((∃ out, (samplePolymer ℚ 0 1).effectiveVisc (samplePolymer ℚ 0 1).c_max_ [1, 4] [0, 0]
        = .ok out ∧
      out[0]? = some ((samplePolymer ℚ 0 1).viscMult (samplePolymer ℚ 0 1).c_max_ * 1) ∧
      out[1]? = some 4 ∧ out.length = ([0, 0] : List ℚ).length) ∧
    (∀ c, ∃ out, (samplePolymer ℚ 0 1).effectiveVisc c [1, 4] [0, 0] = .ok out ∧
      out[1]? = some 4 ∧ out.length = ([0, 0] : List ℚ).length)) :=
  ⟨by decide, by decide, by decide, by decide!, by decide!, by decide!,
    fun x _ => by simp [samplePolymer, samplePow], by decide!,
    effective_visc_at_full_concentration (samplePolymer ℚ 0 1) [1, 4] [0, 0] 1 4
      (by decide) (by decide) (by decide) (by decide!) (by decide!) (by decide!)
      (fun x _ => by simp [samplePolymer, samplePow])⟩

/-- C29, witness: the sample polymer over the reals with mixing parameter `0`, so that
`r = viscMult(c_max) = 3`, at `c = 1/2`, where the denominator is `2`. -/
theorem compute_mc_derivative_is_consistent_witness :
    (samplePolymer ℝ 0 1).c_max_ ≠ 0 ∧
    (1 / 2 : ℝ) / (samplePolymer ℝ 0 1).c_max_
      + (1 - (1 / 2 : ℝ) / (samplePolymer ℝ 0 1).c_max_)
        * (samplePolymer ℝ 0 1).lib.pow
            ((samplePolymer ℝ 0 1).viscMult (samplePolymer ℝ 0 1).c_max_)
            (1 - (samplePolymer ℝ 0 1).mix_param_) ≠ 0 ∧
    (∀ x, (samplePolymer ℝ 0 1).lib.pow x 2 = x ^ 2) ∧
    (((samplePolymer ℝ 0 1).computeMcBoth (1 / 2) true).1
      = (1 / 2 : ℝ) / ((1 / 2 : ℝ) / (samplePolymer ℝ 0 1).c_max_
          + (1 - (1 / 2 : ℝ) / (samplePolymer ℝ 0 1).c_max_)
            * (samplePolymer ℝ 0 1).lib.pow
                ((samplePolymer ℝ 0 1).viscMult (samplePolymer ℝ 0 1).c_max_)
                (1 - (samplePolymer ℝ 0 1).mix_param_)) ∧
    ((samplePolymer ℝ 0 1).computeMcBoth (1 / 2) true).2
      = (samplePolymer ℝ 0 1).lib.pow
          ((samplePolymer ℝ 0 1).viscMult (samplePolymer ℝ 0 1).c_max_)
          (1 - (samplePolymer ℝ 0 1).mix_param_)
        / ((1 / 2 : ℝ) / (samplePolymer ℝ 0 1).c_max_
          + (1 - (1 / 2 : ℝ) / (samplePolymer ℝ 0 1).c_max_)
            * (samplePolymer ℝ 0 1).lib.pow
                ((samplePolymer ℝ 0 1).viscMult (samplePolymer ℝ 0 1).c_max_)
                (1 - (samplePolymer ℝ 0 1).mix_param_)) ^ 2 ∧
    HasDerivAt (fun x => ((samplePolymer ℝ 0 1).computeMcBoth x true).1)
      ((samplePolymer ℝ 0 1).computeMcBoth (1 / 2) true).2 (1 / 2)) :=
  ⟨by simp [samplePolymer],
    by
      simp [samplePolymer, samplePow, sampleLine, PolymerProperties.viscMult]
      norm_num,
    fun x => by
      simp [samplePolymer, samplePow]
      ring,
    compute_mc_derivative_is_consistent (samplePolymer ℝ 0 1) (1 / 2)
      (by simp [samplePolymer])
      (by
        simp [samplePolymer, samplePow, sampleLine, PolymerProperties.viscMult]
        norm_num)
      (fun x => by
        simp [samplePolymer, samplePow]
        ring)⟩

end Opm
